import Mathlib

/-!
# Host-guest boundary of the faasm worker

A shallow embedding of the intrinsic handlers of `src/src/wavm/io.cpp` and
`src/src/wasm/syscalls.cpp`.  Guest memory is a list of bytes, the file-descriptor
table an association list, and every handler is a function from the module state
and its guest-ABI arguments to the new module state and either a returned value or
the host exception that unwinds the guest.

The `SPDLOG_*` and `PROF_*` macros only feed the logger and the profiler and are
left out.  Integer arguments are `Int`s; conversions between C++ integer types are
written out with the helpers of the first section.
-/

set_option autoImplicit false

namespace Faasm

/-! ## Machine integers -/

/-- Conversion of a C++ integer to `U32`. -/
def toU32 (x : Int) : Nat := (x % 4294967296).toNat

/-- Conversion of a signed C++ integer to the 64-bit `Uptr` / `size_t` (sign extension). -/
def toUptr (x : Int) : Nat := (x % 18446744073709551616).toNat

/-- Conversion of a C++ integer to `I32`. -/
def toI32 (x : Int) : Int := (x + 2147483648) % 4294967296 - 2147483648

/-- The values an `I32` argument can take. -/
def isI32 (x : Int) : Prop := -2147483648 ≤ x ∧ x < 2147483648

instance (x : Int) : Decidable (isI32 x) := by unfold isI32; infer_instance

/-- Little-endian encoding of `v` on `w` bytes. -/
def leBytes : Nat → Nat → List Nat
  | 0, _ => []
  | w + 1, v => (v % 256) :: leBytes w (v / 256)

/-- Little-endian decoding of a byte list. -/
def leValue : List Nat → Nat
  | [] => 0
  | b :: bs => b + 256 * leValue bs

/-! ## WASI constants (`WAVM/WASI/WASIABI.h`) -/

def WASI_ESUCCESS : Int := 0
def WASI_EBADF : Int := 8
def WASI_EINVAL : Int := 28
def WASI_ENOTDIR : Int := 54
def WASI_ENOTCAPABLE : Int := 76
def WASI_DIRCOOKIE_START : Nat := 0
def WASI_FILETYPE_DIRECTORY : Nat := 3
def WASI_PREOPENTYPE_DIR : Nat := 0

/-- Modelled from the spec: the preopen type of a descriptor that is not a preopened
directory ("directory-preopen vs regular", spec 3).  WASI numbers only the directory
type; any other number would do here. -/
def PREOPENTYPE_REGULAR : Nat := 1

/-! ## Guest memory -/

/-- The linear memory of a module: one `Nat` below 256 per byte. -/
abbrev Memory := List Nat

/-- The ways a handler ends other than by returning: the exceptions it can raise
(`badArrayNewLength` is `std::bad_array_new_length`), and `readPastGuestMemory`, which is
not an exception of the code: it marks a run in which a raw host pointer was followed past
the end of guest memory, where what the host process does (printing host bytes, or a
crash) is not defined by the sources. -/
inductive HostError where
  | outOfBoundsMemoryAccess
  | calledUnimplementedIntrinsic
  | runtimeError (what : String)
  | badArrayNewLength
  | readPastGuestMemory
  deriving DecidableEq, Repr

/-- What a handler hands back: a value for the guest, or a host exception. -/
inductive Result (α : Type) where
  | ok (value : α)
  | throw (error : HostError)
  deriving DecidableEq, Repr

/-- Modelled from the spec: the bounds check of the Guest Memory View (spec 4.1), done in
the sources by WAVM's `Runtime::memoryRef` and `Runtime::memoryArrayPtr`, which are not
part of `src/`.  A range `[o, o + n)` is accepted when it does not exceed the current
memory size and `o + n` does not overflow the 32-bit address space. -/
def validRange (mem : Memory) (o n : Nat) : Bool :=
  decide (o + n ≤ mem.length) && decide (o + n ≤ 4294967296)

/-- `Runtime::memoryArrayPtr<T>(memory, offset, numElements)` with `sizeof(T) = elemSize`:
the validated host pointer (kept as the guest offset), or nothing when the access is
out of bounds. -/
def memoryArrayPtr (mem : Memory) (elemSize offset numElements : Nat) : Option Nat :=
  if validRange mem offset (numElements * elemSize) then some offset else none

/-- `Runtime::memoryRef<T>(memory, offset)` with `sizeof(T) = size`. -/
def memoryRef (mem : Memory) (size offset : Nat) : Option Nat :=
  if validRange mem offset size then some offset else none

/-- Reading `n` bytes through a host pointer into guest memory. -/
def hostRead (mem : Memory) (p n : Nat) : List Nat := (mem.drop p).take n

/-- Writing bytes through a host pointer, as `std::copy` and a plain store do: no check
is made here.  Bytes that land past the end of the guest memory fall on host memory,
which is not modelled, and are dropped. -/
def hostWrite : Memory → Nat → List Nat → Memory
  | mem, _, [] => mem
  | mem, p, b :: bs => hostWrite (mem.set p b) (p + 1) bs

/-! ## Descriptors, file system, module -/

/-- One entry of a directory listing. -/
structure DirEnt where
  next : Nat
  ino : Nat
  type : Nat
  name : List Nat
  deriving DecidableEq, Repr

/-- The state of `storage::FileDescriptor` that the handlers read.  The class is declared
in `storage/FileDescriptor.h`, which is not part of `src/`; the fields follow the
attributes the data model of the spec lists for a descriptor. -/
structure FileDescriptor where
  path : List Nat
  wasiPreopenType : Nat
  wasiFiletype : Nat
  rightsBase : Nat
  rightsInheriting : Nat
  linuxFd : Option Int
  iterStarted : Bool
  iterCursor : Nat
  wasiErrno : Nat
  deriving DecidableEq, Repr

/-- The per-module descriptor table of `storage::FileSystem`. -/
structure FileSystem where
  fileDescriptors : List (Int × FileDescriptor)
  deriving DecidableEq, Repr

/-- Modelled from the spec: `FileSystem::getFileDescriptor`, declared outside `src/`: the
descriptor stored under `fd`, if any (spec 3: an id is valid iff present in the table). -/
def FileSystem.getFileDescriptor (fs : FileSystem) (fd : Int) : Option FileDescriptor :=
  (fs.fileDescriptors.find? (fun e => e.1 == fd)).map (fun e => e.2)

/-- Modelled from the spec: `FileSystem::fileDescriptorExists`, declared outside `src/`:
whether `fd` is present in the table. -/
def FileSystem.fileDescriptorExists (fs : FileSystem) (fd : Int) : Bool :=
  (fs.getFileDescriptor fd).isSome

/-- Modelled from the spec: storing a descriptor under `fd` in the table, replacing the
one that is there. -/
def FileSystem.setFileDescriptor (fs : FileSystem) (fd : Int) (d : FileDescriptor) :
    FileSystem :=
  { fileDescriptors := (fd, d) :: fs.fileDescriptors.filter (fun e => e.1 != fd) }

/-- The executing module: its default memory, its file system and the buffer in which it
captures standard output (empty when the module is created). -/
structure Module where
  defaultMemory : Memory
  fileSystem : FileSystem
  stdoutCapture : List Nat := []
  deriving DecidableEq, Repr

/-- The exception `getFileDescriptor` raises for an id that is not in the table. -/
def noSuchDescriptor : HostError := HostError.runtimeError "File descriptor does not exist"

/-! ## `io.cpp`: prestat, close, bzero -/

/-- `wasi.fd_prestat_get` (io.cpp 43-66).  `__wasi_prestat_t` is 8 bytes: `pr_type` (one
byte) at offset 0 and `u.dir.pr_name_len` (a `U32`) at offset 4. -/
def wasi_fd_prestat_get (m : Module) (fd prestatPtr : Int) : Module × Result Int :=
  if !m.fileSystem.fileDescriptorExists fd then (m, Result.ok WASI_EBADF)
  else
    match m.fileSystem.getFileDescriptor fd with
    | none => (m, Result.throw noSuchDescriptor)
    | some fileDesc =>
      match memoryRef m.defaultMemory 8 (toUptr prestatPtr) with
      | none => (m, Result.throw HostError.outOfBoundsMemoryAccess)
      | some p =>
        let mem1 := hostWrite m.defaultMemory p [fileDesc.wasiPreopenType % 256]
        let mem2 := hostWrite mem1 (p + 4) (leBytes 4 (fileDesc.path.length % 4294967296))
        ({ m with defaultMemory := mem2 }, Result.ok WASI_ESUCCESS)

/-- `wasi.fd_prestat_dir_name` (io.cpp 68-93): the bounds check covers `resPathLen` bytes,
the `std::copy` writes the whole path. -/
def wasi_fd_prestat_dir_name (m : Module) (fd resPathPtr resPathLen : Int) :
    Module × Result Int :=
  if !m.fileSystem.fileDescriptorExists fd then (m, Result.ok WASI_EBADF)
  else
    match m.fileSystem.getFileDescriptor fd with
    | none => (m, Result.throw noSuchDescriptor)
    | some fileDesc =>
      match memoryArrayPtr m.defaultMemory 1 (toUptr resPathPtr) (toUptr resPathLen) with
      | none => (m, Result.throw HostError.outOfBoundsMemoryAccess)
      | some buffer =>
        ({ m with defaultMemory := hostWrite m.defaultMemory buffer fileDesc.path },
          Result.ok WASI_ESUCCESS)

/-- `wasi.fd_close` (io.cpp 316-324): the body is `return 0`. -/
def wasi_fd_close (m : Module) (_fd : Int) : Module × Result Int :=
  (m, Result.ok 0)

/-- `env.bzero` (io.cpp 869-875). -/
def bzero (m : Module) (wasmPtr len : Int) : Module × Result Unit :=
  match memoryArrayPtr m.defaultMemory 1 (toUptr wasmPtr) (toUptr len) with
  | none => (m, Result.throw HostError.outOfBoundsMemoryAccess)
  | some buffer =>
    ({ m with defaultMemory := hostWrite m.defaultMemory buffer (List.replicate (toUptr len) 0) },
      Result.ok ())

/-- `env.explicit_bzero` (io.cpp 877-888). -/
def explicit_bzero (m : Module) (wasmPtr len : Int) : Module × Result Unit :=
  match memoryArrayPtr m.defaultMemory 1 (toUptr wasmPtr) (toUptr len) with
  | none => (m, Result.throw HostError.outOfBoundsMemoryAccess)
  | some buffer =>
    ({ m with defaultMemory := hostWrite m.defaultMemory buffer (List.replicate (toUptr len) 0) },
      Result.ok ())

/-! ## Strings and paths -/

/-- The safety limit of the string scan: 16 KiB. -/
def STRING_SCAN_LIMIT : Nat := 16384

/-- Modelled from the spec: the string scan of spec 4.1, forward from offset `o` for a NUL
byte, looking at no more than `fuel` bytes and failing at the memory end. -/
def scanString (mem : Memory) : Nat → Nat → Option (List Nat)
  | _, 0 => none
  | o, fuel + 1 =>
    match mem.get? o with
    | none => none
    | some b => if b = 0 then some [] else (scanString mem (o + 1) fuel).map (fun s => b :: s)

/-- Modelled from the spec: `getStringFromWasm`, which the handlers call and `src/` does
not define.  Spec 4.1: a C-string at offset `o` is read by scanning forward up to a
safety limit (16 KiB) and failing if no NUL byte is found before hitting the memory end
or the limit. -/
def getStringFromWasm (mem : Memory) (strPtr : Int) : Option (List Nat) :=
  scanString mem (toUptr strPtr) STRING_SCAN_LIMIT

/-- Modelled from the spec: cutting a path at every separator `/` (byte 47), for the path
canonicalisation of spec 4.3. -/
def splitOnSep : List Nat → List (List Nat)
  | [] => [[]]
  | c :: cs =>
    if c = 47 then [] :: splitOnSep cs
    else
      match splitOnSep cs with
      | [] => [[c]]
      | h :: t => (c :: h) :: t

/-- Modelled from the spec: the components of a path; repeated separators are stripped
(spec 4.3). -/
def components (p : List Nat) : List (List Nat) :=
  (splitOnSep p).filter (fun c => !c.isEmpty)

/-- Modelled from the spec: symbolic resolution of `.` and `..` (spec 4.3).  A `.` is
skipped; a `..` drops the last component kept so far, and at the top there is nothing
to drop.  `stack` holds the components kept, last first. -/
def resolveDots : List (List Nat) → List (List Nat) → List (List Nat)
  | stack, [] => stack.reverse
  | stack, c :: cs =>
    if c = [46] then resolveDots stack cs
    else if c = [46, 46] then resolveDots stack.tail cs
    else resolveDots (c :: stack) cs

/-- Modelled from the spec: the canonical form of a path (spec 4.3), as its list of
components. -/
def canonical (p : List Nat) : List (List Nat) := resolveDots [] (components p)

/-- Modelled from the spec: a canonical path written out from its components. -/
def joinPath (cs : List (List Nat)) : List Nat := (cs.map (fun c => 47 :: c)).flatten

/-- Modelled from the spec: the canonical form of the guest path `rel`, taken below the
descriptor path `rootPath`, after the shared root is prepended (spec 3, path masking). -/
def maskedCanonical (sharedRoot rootPath rel : List Nat) : List (List Nat) :=
  canonical (sharedRoot ++ [47] ++ rootPath ++ [47] ++ rel)

/-- Modelled from the spec: a guest path escapes the shared root when the canonical form of
its masked path does not start with the canonical form of the root (spec 3: traversal via
`..` canonicalised, then checked against the root prefix). -/
def escapesRoot (sharedRoot rootPath rel : List Nat) : Bool :=
  !(canonical sharedRoot).isPrefixOf (maskedCanonical sharedRoot rootPath rel)

/-- Modelled from the spec: path masking (spec 3 and 4.3), done in the sources by the file
system that `src/` does not contain.  The shared root is prepended, `.` and `..` are
resolved symbolically, and a result that escapes the root is rejected. -/
def maskPath (sharedRoot rootPath rel : List Nat) : Option (List Nat) :=
  if escapesRoot sharedRoot rootPath rel then none
  else some (joinPath (maskedCanonical sharedRoot rootPath rel))

/-! ## Opening a descriptor -/

/-- The answer of the host's native `open` for a host path: it fails with an errno
(already translated to WASI), or gives a handle and the type of the file. -/
inductive NativeOpen where
  | failed (wasiErrno : Nat)
  | opened (linuxFd : Int) (wasiFiletype : Nat)
  deriving DecidableEq, Repr

/-- Modelled from the spec: the first id from `c` upward that is not in `used`, looking at
`fuel` candidates (spec 4.2: lowest unused id). -/
def lowestUnusedFrom (used : List Int) : Nat → Int → Int
  | 0, c => c
  | fuel + 1, c => if used.contains c then lowestUnusedFrom used fuel (c + 1) else c

/-- Modelled from the spec: the lowest unused descriptor id from 3 upward (spec 4.2). -/
def FileSystem.getNewFd (fs : FileSystem) : Int :=
  lowestUnusedFrom (fs.fileDescriptors.map (fun e => e.1)) fs.fileDescriptors.length 3

/-- Modelled from the spec: an absolute guest path starts at a known preopen when the path
of some preopened directory of the table is a prefix of it (spec 4.3). -/
def startsAtPreopen (fs : FileSystem) (pathStr : List Nat) : Bool :=
  fs.fileDescriptors.any
    (fun e => e.2.wasiPreopenType == WASI_PREOPENTYPE_DIR && e.2.path.isPrefixOf pathStr)

/-- Modelled from the spec: `FileSystem::openFileDescriptor`, called by `path_open` and
absent from `src/`.  Spec 4.2, `open`: validates that `rootFd` exists and is a
directory; resolves `pathStr` relative to the path of `rootFd`; applies masking (a path
escaping the shared root gives `ENOTCAPABLE`, spec 8); opens the native handle; allocates
a fresh id, the lowest unused one from 3 upward; rights are clamped to the inheriting
rights of `rootFd`.  The result is the new id, or a negative WASI errno. -/
def openFileDescriptor (sharedRoot : List Nat)
    (nativeOpen : List Nat → Int → Nat → Int → NativeOpen)
    (fs : FileSystem) (rootFd : Int) (pathStr : List Nat) (rightsBase rightsInheriting : Nat)
    (lookupFlags : Int) (openFlags : Nat) (fdFlags : Int) : FileSystem × Int :=
  match fs.getFileDescriptor rootFd with
  | none => (fs, -WASI_EBADF)
  | some root =>
    if root.wasiFiletype ≠ WASI_FILETYPE_DIRECTORY then (fs, -WASI_ENOTDIR)
    else
      match maskPath sharedRoot root.path pathStr with
      | none => (fs, -WASI_ENOTCAPABLE)
      | some hostPath =>
        if pathStr.head? = some 47 && !startsAtPreopen fs pathStr then (fs, -WASI_ENOTCAPABLE)
        else
          match nativeOpen hostPath lookupFlags openFlags fdFlags with
          | NativeOpen.failed e => (fs, -(e : Int))
          | NativeOpen.opened h ft =>
            let newFd := fs.getNewFd
            (fs.setFileDescriptor newFd
              { path := joinPath (canonical (root.path ++ [47] ++ pathStr))
                wasiPreopenType := PREOPENTYPE_REGULAR
                wasiFiletype := ft
                rightsBase := rightsBase &&& root.rightsInheriting
                rightsInheriting := rightsInheriting &&& root.rightsInheriting
                linuxFd := some h
                iterStarted := false
                iterCursor := 0
                wasiErrno := 0 }, newFd)

/-- `wasi.path_open` (io.cpp 95-143).  The file system's `openFileDescriptor` is passed
in as `openFD`; `pathLen` is not read.  `-1 * fdRes` is an `int` product. -/
def wasi_path_open
    (openFD : FileSystem → Int → List Nat → Nat → Nat → Int → Nat → Int → FileSystem × Int)
    (m : Module) (rootFd lookupFlags path _pathLen : Int)
    (openFlags rightsBase rightsInheriting : Nat) (fdFlags resFdPtr : Int) :
    Module × Result Int :=
  match getStringFromWasm m.defaultMemory path with
  | none => (m, Result.throw HostError.outOfBoundsMemoryAccess)
  | some pathStr =>
    let r := openFD m.fileSystem rootFd pathStr rightsBase rightsInheriting lookupFlags
      openFlags fdFlags
    let m1 : Module := { m with fileSystem := r.1 }
    let fdRes := r.2
    if fdRes < 0 then (m1, Result.ok (toI32 (-1 * fdRes)))
    else
      match memoryRef m1.defaultMemory 4 (toUptr resFdPtr) with
      | none => (m1, Result.throw HostError.outOfBoundsMemoryAccess)
      | some p =>
        ({ m1 with defaultMemory := hostWrite m1.defaultMemory p (leBytes 4 (toU32 fdRes)) },
          Result.ok WASI_ESUCCESS)

/-! ## Directory listing -/

/-- Modelled from the spec: one entry in the guest ABI's dirent layout (spec 4.2), that is
`__wasi_dirent_t`, 24 bytes: `d_next`,
`d_ino`, `d_namlen`, `d_type` and padding) followed by the name. -/
def direntBytes (e : DirEnt) : List Nat :=
  leBytes 8 e.next ++ leBytes 8 e.ino ++ leBytes 4 e.name.length ++ [e.type % 256, 0, 0, 0]
    ++ e.name

/-- Modelled from the spec: filling `space` bytes with whole entries, stopping at the first
entry that would overflow (spec 4.2).  Gives the bytes and the number of entries taken. -/
def fillDirents : List DirEnt → Nat → List Nat × Nat
  | [], _ => ([], 0)
  | e :: es, space =>
    if (direntBytes e).length ≤ space then
      let r := fillDirents es (space - (direntBytes e).length)
      (direntBytes e ++ r.1, r.2 + 1)
    else ([], 0)

/-- Modelled from the spec: `FileDescriptor::copyDirentsToWasiBuffer`, absent from `src/`.
Spec 4.2, `readdir`: fill the buffer with as many entries as fit, each in the guest
ABI's dirent layout; return when the next entry would overflow, and record the new
cursor.  `listing` is the native listing of the directory; the result is the updated
descriptor and the bytes copied to the start of the buffer. -/
def copyDirentsToWasiBuffer (fileDesc : FileDescriptor) (listing : List DirEnt)
    (bufLen : Nat) : FileDescriptor × List Nat :=
  let cursor := if fileDesc.iterStarted then fileDesc.iterCursor else 0
  let r := fillDirents (listing.drop cursor) bufLen
  ({ fileDesc with iterStarted := true, iterCursor := cursor + r.2 }, r.1)

/-- `wasi.fd_readdir` (io.cpp 183-223).  `listing` is the native listing of the directory
behind the descriptor.  `bytesCopied` is a `size_t` stored into a `U32`. -/
def wasi_fd_readdir (listing : List DirEnt) (m : Module) (fd buf bufLen : Int)
    (startCookie : Nat) (resSizePtr : Int) : Module × Result Int :=
  match m.fileSystem.getFileDescriptor fd with
  | none => (m, Result.throw noSuchDescriptor)
  | some fileDesc =>
    let isStartCookie := startCookie == WASI_DIRCOOKIE_START
    if fileDesc.iterStarted && isStartCookie then (m, Result.ok WASI_EINVAL)
    else if !fileDesc.iterStarted && !isStartCookie then
      (m, Result.throw (HostError.runtimeError
        "No directory iterator exists, and this is not the start cookie"))
    else
      match memoryArrayPtr m.defaultMemory 1 (toUptr buf) (toUptr bufLen) with
      | none => (m, Result.throw HostError.outOfBoundsMemoryAccess)
      | some buffer =>
        let r := copyDirentsToWasiBuffer fileDesc listing (toUptr bufLen)
        let m1 : Module :=
          { m with
            defaultMemory := hostWrite m.defaultMemory buffer r.2
            fileSystem := m.fileSystem.setFileDescriptor fd r.1 }
        match memoryRef m1.defaultMemory 4 (toUptr resSizePtr) with
        | none => (m1, Result.throw HostError.outOfBoundsMemoryAccess)
        | some p =>
          ({ m1 with
              defaultMemory := hostWrite m1.defaultMemory p (leBytes 4 (r.2.length % 4294967296)) },
            Result.ok WASI_ESUCCESS)

/-! ## `syscalls.cpp`: writev -/

/-- What the handlers of `syscalls.cpp` act on: the module memory, the bytes written to
the descriptor of the host's standard output, and the diagnostic lines the handlers
`printf` (format and arguments), which go through the stdio buffer. -/
structure SysState where
  memory : Memory
  written : List Nat
  trace : List (String × List Int)
  deriving DecidableEq, Repr

/-- The most one native write transfers on Linux (`MAX_RW_COUNT`, 0x7ffff000). -/
def MAX_RW_COUNT : Nat := 2147479552

/-- The native `writev` on the gathered data: `none` is a failed call (result -1, nothing
written); `some a` a call in which the host takes up to `a` bytes, so that the write is
complete when `a` covers the data.  Gives the bytes written and the returned count. -/
def nativeWritev (accept : Option Nat) (data : List Nat) : List Nat × Int :=
  match accept with
  | none => ([], -1)
  | some a =>
    let n := min a (min data.length MAX_RW_COUNT)
    (data.take n, (n : Int))

/-- The loop of `__syscall_writev` (syscalls.cpp 30-38) from index `i` on, with `r`
entries left: entry `i` is read as two `U32`s at `iov + i * 8` and `iov + i * 8 + 4`
(`U32` arithmetic), and the range it names is validated. -/
def translateIovecs (mem : Memory) (iov : Int) : Nat → Nat → Option (List (List Nat))
  | _, 0 => some []
  | i, r + 1 =>
    match memoryRef mem 4 (toU32 (iov + i * 8)) with
    | none => none
    | some pb =>
      match memoryRef mem 4 (toU32 (iov + i * 8 + 4)) with
      | none => none
      | some pl =>
        let base := leValue (hostRead mem pb 4)
        let len := leValue (hostRead mem pl 4)
        match memoryArrayPtr mem 1 base len with
        | none => none
        | some p =>
          match translateIovecs mem iov (i + 1) r with
          | none => none
          | some rest => some (hostRead mem p len :: rest)

/-- The trace line `__syscall_writev` prints first (syscalls.cpp 27). -/
def writevTrace (fd iov iovcnt : Int) : String × List Int :=
  ("SYSCALL - writev %i %i %i\n", [fd, iov, iovcnt])

/-- `env.__syscall_writev` (syscalls.cpp 26-42).  Line 29 builds the native array with
`new(alloca(sizeof(iovec) * iovcnt)) struct iovec[iovcnt]`: a negative `iovcnt` is an
erroneous array bound, for which the new-expression throws `std::bad_array_new_length`
before the loop is reached; for `iovcnt >= 0` the `alloca` of `16 * iovcnt` bytes is taken
to succeed (the room left on the native stack is a matter of the host and is not
modelled).  The theorems on this handler take `iovcnt >= 0`.  The loop counter is a `U32`,
so the bound `iovcnt` is compared as a `U32`; the count is returned as an `I32`. -/
def __syscall_writev (accept : Option Nat) (s : SysState) (fd iov iovcnt : Int) :
    SysState × Result Int :=
  let s1 : SysState :=
    { s with trace := s.trace ++ [writevTrace fd iov iovcnt] }
  if iovcnt < 0 then (s1, Result.throw HostError.badArrayNewLength)
  else
    match translateIovecs s1.memory iov 0 (toU32 iovcnt) with
    | none => (s1, Result.throw HostError.outOfBoundsMemoryAccess)
    | some slices =>
      let w := nativeWritev accept slices.flatten
      ({ s1 with written := s1.written ++ w.1 }, Result.ok (toI32 w.2))

/-! ## Derived quantities and concrete inputs -/

/-- A module with 64 bytes of memory and two directories: the preopened root `/` under
id 3, not yet listed, and `/d` under id 5, whose listing has been started. -/
def demoDirModule : Module :=
  { defaultMemory := List.replicate 64 7
    fileSystem :=
      { fileDescriptors :=
          [(3, { path := [47], wasiPreopenType := WASI_PREOPENTYPE_DIR, wasiFiletype := 3,
                 rightsBase := 255, rightsInheriting := 255, linuxFd := some 10,
                 iterStarted := false, iterCursor := 0, wasiErrno := 0 }),
           (5, { path := [47, 100], wasiPreopenType := PREOPENTYPE_REGULAR, wasiFiletype := 3,
                 rightsBase := 255, rightsInheriting := 255, linuxFd := some 12,
                 iterStarted := true, iterCursor := 1, wasiErrno := 0 })] } }

/-- A listing of two entries, `a` and `bc`. -/
def demoListing : List DirEnt :=
  [{ next := 1, ino := 42, type := 4, name := [97] },
   { next := 2, ino := 43, type := 4, name := [98, 99] }]

/-- A module whose memory holds the string `../etc/passwd` at offset 0, its NUL at offset
13, and four bytes for a result at offset 16; the preopened root `/` is under id 3. -/
def demoPathModule : Module :=
  { defaultMemory :=
      [46, 46, 47, 101, 116, 99, 47, 112, 97, 115, 115, 119, 100, 0, 0, 0, 9, 9, 9, 9]
    fileSystem :=
      { fileDescriptors :=
          [(3, { path := [47], wasiPreopenType := WASI_PREOPENTYPE_DIR, wasiFiletype := 3,
                 rightsBase := 255, rightsInheriting := 255, linuxFd := some 10,
                 iterStarted := false, iterCursor := 0, wasiErrno := 0 })] } }

/-- The shared root `/tmp/faasm`. -/
def demoSharedRoot : List Nat := [47, 116, 109, 112, 47, 102, 97, 97, 115, 109]

/-- A host on which every native open succeeds. -/
def demoNativeOpen : List Nat → Int → Nat → Int → NativeOpen :=
  fun _ _ _ _ => NativeOpen.opened 20 4

/-- A file system whose `openFileDescriptor` always answers with descriptor 7. -/
def demoOpenFD : FileSystem → Int → List Nat → Nat → Nat → Int → Nat → Int → FileSystem × Int :=
  fun fs _ _ _ _ _ _ _ => (fs, 7)

/-- A small module used to run the handlers on concrete inputs: eight bytes of memory, the
preopened root directory `/` under id 3 and an opened regular file `/data` under id 4. -/
def demoModule : Module :=
  { defaultMemory := [1, 2, 3, 4, 5, 6, 7, 8]
    fileSystem :=
      { fileDescriptors :=
          [(3, { path := [47], wasiPreopenType := WASI_PREOPENTYPE_DIR, wasiFiletype := 3,
                 rightsBase := 255, rightsInheriting := 255, linuxFd := some 10,
                 iterStarted := false, iterCursor := 0, wasiErrno := 0 }),
           (4, { path := [47, 100, 97, 116, 97], wasiPreopenType := PREOPENTYPE_REGULAR,
                 wasiFiletype := 4, rightsBase := 255, rightsInheriting := 255,
                 linuxFd := some 11, iterStarted := false, iterCursor := 0,
                 wasiErrno := 0 })] } }

/-- The `U32` `base_i` of entry `i` of the iovec array at `iov`. -/
def iovecBase (mem : Memory) (iov : Int) (i : Nat) : Nat :=
  leValue (hostRead mem (toU32 iov + 8 * i) 4)

/-- The `U32` `len_i` of entry `i` of the iovec array at `iov`. -/
def iovecLen (mem : Memory) (iov : Int) (i : Nat) : Nat :=
  leValue (hostRead mem (toU32 iov + 8 * i + 4) 4)

/-- A state for `__syscall_writev`: two iovec entries at offset 0, naming the two bytes
at offset 16 and the three bytes at offset 18. -/
def demoSysState : SysState :=
  { memory := [16, 0, 0, 0, 2, 0, 0, 0, 18, 0, 0, 0, 3, 0, 0, 0, 104, 105, 33, 10, 0]
    written := [62]
    trace := [] }

/-- A state whose second iovec entry names the byte at offset 200, outside the memory. -/
def demoBadSysState : SysState :=
  { memory := [16, 0, 0, 0, 2, 0, 0, 0, 200, 0, 0, 0, 1, 0, 0, 0, 104, 105, 33, 10, 0]
    written := [62]
    trace := [] }

/-! ## `io.cpp`: fd_write and fd_read -/

/-- Modelled from the spec: the entries of a guest iovec array from offset `p` on, `k`
entries left.  Spec 4.1: a guest iovec is a pair of 32-bit `(base, len)` values;
translating an array of `k` iovecs produces `k` host slices in order; any failure
aborts the translation. -/
def iovecPairs (mem : Memory) : Nat → Nat → Option (List (Nat × Nat))
  | _, 0 => some []
  | p, k + 1 =>
    let base := leValue (hostRead mem p 4)
    let len := leValue (hostRead mem (p + 4) 4)
    if validRange mem base len then
      (iovecPairs mem (p + 8) k).map (fun rest => (base, len) :: rest)
    else none

/-- Modelled from the spec: `wasiIovecsToNativeIovecs`, which `fd_write` and `fd_read` call
and `src/` does not define (spec 4.1, iovec translation).  The array of `iovecCount`
entries of 8 bytes is validated, then every range an entry names; the result is the
list of validated `(base, len)` pairs in order. -/
def wasiIovecsToNativeIovecs (mem : Memory) (iovecsPtr iovecCount : Int) :
    Option (List (Nat × Nat)) :=
  if validRange mem (toUptr iovecsPtr) (toUptr iovecCount * 8) then
    iovecPairs mem (toUptr iovecsPtr) (toUptr iovecCount)
  else none

/-- The bytes the native iovecs point at. -/
def iovecContents (mem : Memory) (iovecs : List (Nat × Nat)) : List (List Nat) :=
  iovecs.map (fun e => hostRead mem e.1 e.2)

/-- Modelled from the spec: `WAVMWasmModule::captureStdout(iovecs, count)`, not part of
`src/`.  Spec 4.6: the bytes written are appended to the in-module capture buffer. -/
def Module.captureStdout (m : Module) (contents : List (List Nat)) : Module :=
  { m with stdoutCapture := m.stdoutCapture ++ contents.flatten }

/-- `wasi.fd_write` (io.cpp 326-365).  `captureStdout` is the configuration value
`conf.captureStdout`; `write` is `FileDescriptor::write`, which gives the descriptor as
it is after the call (with its errno) and the `ssize_t` count.  The count is stored as
an `int32_t`. -/
def wasi_fd_write (captureStdout : String)
    (write : FileDescriptor → List (List Nat) → FileDescriptor × Int)
    (m : Module) (fd iovecsPtr iovecCount resBytesWrittenPtr : Int) : Module × Result Int :=
  match m.fileSystem.getFileDescriptor fd with
  | none => (m, Result.throw noSuchDescriptor)
  | some fileDesc =>
    match wasiIovecsToNativeIovecs m.defaultMemory iovecsPtr iovecCount with
    | none => (m, Result.throw HostError.outOfBoundsMemoryAccess)
    | some nativeIovecs =>
      let w := write fileDesc (iovecContents m.defaultMemory nativeIovecs)
      let m1 : Module := { m with fileSystem := m.fileSystem.setFileDescriptor fd w.1 }
      let bytesWritten := w.2
      if bytesWritten < 0 then (m1, Result.ok (w.1.wasiErrno : Int))
      else
        let isStd := decide (fd ≤ 2)
        let m2 : Module :=
          if isStd && captureStdout == "on" then
            m1.captureStdout (iovecContents m1.defaultMemory nativeIovecs)
          else m1
        match memoryRef m2.defaultMemory 4 (toUptr resBytesWrittenPtr) with
        | none => (m2, Result.throw HostError.outOfBoundsMemoryAccess)
        | some p =>
          ({ m2 with defaultMemory := hostWrite m2.defaultMemory p (leBytes 4 (toU32 bytesWritten)) },
            Result.ok WASI_ESUCCESS)

/-- The scatter of a native `readv`: the data fills the iovecs in order. -/
def scatter : Memory → List (Nat × Nat) → List Nat → Memory
  | mem, [], _ => mem
  | mem, e :: rest, data => scatter (hostWrite mem e.1 (data.take e.2)) rest (data.drop e.2)

/-- The total capacity of the iovecs. -/
def iovecCapacity (iovecs : List (Nat × Nat)) : Nat := (iovecs.map (fun e => e.2)).sum

/-- The native `readv` on the validated iovecs: `none` is a failed call (result -1, no
byte stored); `some data` a call that has `data` to deliver, of which it stores what
the iovecs hold.  Gives the memory afterwards and the returned count. -/
def nativeReadv (outcome : Option (List Nat)) (mem : Memory) (iovecs : List (Nat × Nat)) :
    Memory × Int :=
  match outcome with
  | none => (mem, -1)
  | some data =>
    let n := min data.length (min (iovecCapacity iovecs) MAX_RW_COUNT)
    (scatter mem iovecs (data.take n), (n : Int))

/-- `wasi.fd_read` (io.cpp 367-394).  `outcome` is what the native `readv` on the
descriptor's Linux handle does.  The count is stored as an `int`. -/
def wasi_fd_read (outcome : Option (List Nat)) (m : Module)
    (fd iovecsPtr iovecCount resBytesRead : Int) : Module × Result Int :=
  match m.fileSystem.getFileDescriptor fd with
  | none => (m, Result.throw noSuchDescriptor)
  | some _fileDesc =>
    match wasiIovecsToNativeIovecs m.defaultMemory iovecsPtr iovecCount with
    | none => (m, Result.throw HostError.outOfBoundsMemoryAccess)
    | some nativeIovecs =>
      let r := nativeReadv outcome m.defaultMemory nativeIovecs
      let bytesRead := toI32 r.2
      let m1 : Module := { m with defaultMemory := r.1 }
      match memoryRef m1.defaultMemory 4 (toUptr resBytesRead) with
      | none => (m1, Result.throw HostError.outOfBoundsMemoryAccess)
      | some p =>
        ({ m1 with defaultMemory := hostWrite m1.defaultMemory p (leBytes 4 (toU32 bytesRead)) },
          Result.ok WASI_ESUCCESS)

/-! ## `io.cpp`: directories, unlink, rename -/

/-- `wasi.path_create_directory` (io.cpp 411-431).  `mkdir` is `FileDescriptor::mkdir`: the
descriptor as it is after the call and whether the call succeeded. -/
def wasi_path_create_directory (mkdir : FileDescriptor → List Nat → FileDescriptor × Bool)
    (m : Module) (fd path _pathLen : Int) : Module × Result Int :=
  match getStringFromWasm m.defaultMemory path with
  | none => (m, Result.throw HostError.outOfBoundsMemoryAccess)
  | some pathStr =>
    match m.fileSystem.getFileDescriptor fd with
    | none => (m, Result.throw noSuchDescriptor)
    | some fileDesc =>
      let r := mkdir fileDesc pathStr
      let m1 : Module := { m with fileSystem := m.fileSystem.setFileDescriptor fd r.1 }
      let success := r.2
      if !success then (m1, Result.ok (r.1.wasiErrno : Int))
      else (m1, Result.ok WASI_ESUCCESS)

/-- `wasi.path_rename` (io.cpp 455-485).  `absPath` is `FileDescriptor::absPath` and
`rename` is `FileDescriptor::rename`, called on the descriptor of the old path with the
full new path and the old path. -/
def wasi_path_rename (absPath : FileDescriptor → List Nat → List Nat)
    (rename : FileDescriptor → List Nat → List Nat → FileDescriptor × Bool)
    (m : Module) (fd oldPath _oldPathLen newFd newPath _newPathLen : Int) :
    Module × Result Int :=
  match getStringFromWasm m.defaultMemory oldPath with
  | none => (m, Result.throw HostError.outOfBoundsMemoryAccess)
  | some oldPathStr =>
    match getStringFromWasm m.defaultMemory newPath with
    | none => (m, Result.throw HostError.outOfBoundsMemoryAccess)
    | some newPathStr =>
      match m.fileSystem.getFileDescriptor fd with
      | none => (m, Result.throw noSuchDescriptor)
      | some oldFileDesc =>
        match m.fileSystem.getFileDescriptor newFd with
        | none => (m, Result.throw noSuchDescriptor)
        | some newFileDesc =>
          let fullNewPath := absPath newFileDesc newPathStr
          let r := rename oldFileDesc fullNewPath oldPathStr
          let m1 : Module := { m with fileSystem := m.fileSystem.setFileDescriptor fd r.1 }
          let success := r.2
          if !success then (m1, Result.ok (r.1.wasiErrno : Int))
          else (m1, Result.ok WASI_ESUCCESS)

/-- `wasi.path_unlink_file` (io.cpp 487-507).  `unlink` is `FileDescriptor::unlink`. -/
def wasi_path_unlink_file (unlink : FileDescriptor → List Nat → FileDescriptor × Bool)
    (m : Module) (rootFd pathPtr _pathLen : Int) : Module × Result Int :=
  match getStringFromWasm m.defaultMemory pathPtr with
  | none => (m, Result.throw HostError.outOfBoundsMemoryAccess)
  | some pathStr =>
    match m.fileSystem.getFileDescriptor rootFd with
    | none => (m, Result.throw noSuchDescriptor)
    | some fileDesc =>
      let r := unlink fileDesc pathStr
      let m1 : Module := { m with fileSystem := m.fileSystem.setFileDescriptor rootFd r.1 }
      let success := r.2
      if !success then (m1, Result.ok (r.1.wasiErrno : Int))
      else (m1, Result.ok 0)

/-! ## `io.cpp`: file status -/

/-- The Stat Record of the file system (`storage::Stat`, declared outside `src/`): the
fields `doFileStat` reads. -/
structure Stat where
  failed : Bool
  wasiErrno : Nat
  wasiFiletype : Nat
  st_dev : Nat
  st_ino : Nat
  st_nlink : Nat
  st_size : Nat
  st_atim : Nat
  st_mtim : Nat
  st_ctim : Nat
  deriving DecidableEq, Repr

/-- Modelled from the spec: the size of the guest `__wasi_filestat_t` of
`wasi_snapshot_preview1` (spec 6), whose header is not part of `src/`: 64 bytes, with
`st_dev` at 0, `st_ino` at 8, `st_filetype` (one byte) at 16, `st_nlink` at 24,
`st_size` at 32, `st_atim` at 40, `st_mtim` at 48 and `st_ctim` at 56, each of the
others a 64-bit value. -/
def FILESTAT_SIZE : Nat := 64

/-- The eight stores of `doFileStat` (io.cpp 621-628) through the pointer `p`, in the
order of the source; the padding after `st_filetype` is not written. -/
def writeFilestat (mem : Memory) (p : Nat) (s : Stat) : Memory :=
  let m1 := hostWrite mem p (leBytes 8 s.st_dev)
  let m2 := hostWrite m1 (p + 8) (leBytes 8 s.st_ino)
  let m3 := hostWrite m2 (p + 16) [s.wasiFiletype % 256]
  let m4 := hostWrite m3 (p + 24) (leBytes 8 s.st_nlink)
  let m5 := hostWrite m4 (p + 32) (leBytes 8 s.st_size)
  let m6 := hostWrite m5 (p + 40) (leBytes 8 s.st_atim)
  let m7 := hostWrite m6 (p + 48) (leBytes 8 s.st_mtim)
  hostWrite m7 (p + 56) (leBytes 8 s.st_ctim)

/-- `doFileStat` (io.cpp 608-631).  `stat` is `FileDescriptor::stat(relativePath)`.  The
reference to the guest filestat is taken (and validated) before `stat` is called. -/
def doFileStat (stat : FileDescriptor → List Nat → Stat) (m : Module) (fd : Int)
    (relativePath : List Nat) (statPtr : Int) : Module × Result Int :=
  match m.fileSystem.getFileDescriptor fd with
  | none => (m, Result.throw noSuchDescriptor)
  | some fileDesc =>
    match memoryRef m.defaultMemory FILESTAT_SIZE (toUptr statPtr) with
    | none => (m, Result.throw HostError.outOfBoundsMemoryAccess)
    | some wasiFileStat =>
      let fileStat := stat fileDesc relativePath
      if fileStat.failed then (m, Result.ok (fileStat.wasiErrno : Int))
      else
        ({ m with defaultMemory := writeFilestat m.defaultMemory wasiFileStat fileStat },
          Result.ok WASI_ESUCCESS)

/-- `wasi.fd_filestat_get` (io.cpp 633-643). -/
def wasi_fd_filestat_get (stat : FileDescriptor → List Nat → Stat) (m : Module)
    (fd statPtr : Int) : Module × Result Int :=
  doFileStat stat m fd [] statPtr

/-- `wasi.path_filestat_get` (io.cpp 645-660). -/
def wasi_path_filestat_get (stat : FileDescriptor → List Nat → Stat) (m : Module)
    (fd _lookupFlags path _pathLen statPtr : Int) : Module × Result Int :=
  match getStringFromWasm m.defaultMemory path with
  | none => (m, Result.throw HostError.outOfBoundsMemoryAccess)
  | some pathStr => doFileStat stat m fd pathStr statPtr

/-! ## No-ops and unsupported handlers -/

/-- `wasi.fd_advise` (io.cpp 728-742). -/
def wasi_fd_advise (m : Module) (_fd _offset _len _advice : Int) : Module × Result Int :=
  (m, Result.ok WASI_ESUCCESS)

/-- `env.ioctl` (io.cpp 744-749). -/
def ioctl (m : Module) (_a _b _c : Int) : Module × Result Int :=
  (m, Result.ok 0)

/-- `env.tempnam` (io.cpp 931-935). -/
def tempnam (m : Module) (_a _b : Int) : Module × Result Int :=
  (m, Result.throw HostError.calledUnimplementedIntrinsic)

/-- `env.lockf` (io.cpp 1074-1078). -/
def lockf (m : Module) (_a _b _c : Int) : Module × Result Int :=
  (m, Result.throw HostError.calledUnimplementedIntrinsic)

/-- `env.poll` (io.cpp 1104-1108). -/
def poll (m : Module) (_a _b _c : Int) : Module × Result Int :=
  (m, Result.throw HostError.calledUnimplementedIntrinsic)

/-- `env.__syscall_poll` (syscalls.cpp 51-54): a trace line, then the exception. -/
def __syscall_poll (s : SysState) (a b c : Int) : SysState × Result Int :=
  ({ s with trace := s.trace ++ [("SYSCALL - poll %i %i %i\n", [a, b, c])] },
    Result.throw HostError.calledUnimplementedIntrinsic)

/-- `env.__syscall_futex` (syscalls.cpp 71-75). -/
def __syscall_futex (s : SysState) (a b c d e f : Int) : SysState × Result Int :=
  ({ s with trace := s.trace ++ [("SYSCALL - futex %i %i %i %i %i %i\n", [a, b, c, d, e, f])] },
    Result.throw HostError.calledUnimplementedIntrinsic)

/-- `env.__syscall_exit_group` (syscalls.cpp 147-150). -/
def __syscall_exit_group (s : SysState) (a : Int) : SysState × Result Int :=
  ({ s with trace := s.trace ++ [("SYSCALL - exit_group %i\n", [a])] },
    Result.throw HostError.calledUnimplementedIntrinsic)

/-- `env.__syscall_exit` (syscalls.cpp 152-155). -/
def __syscall_exit (s : SysState) (a : Int) : SysState × Result Int :=
  ({ s with trace := s.trace ++ [("SYSCALL - exit %i\n", [a])] },
    Result.throw HostError.calledUnimplementedIntrinsic)

/-! ## `io.cpp`: puts and vfprintf -/

/-- The bytes of a list up to its first NUL; nothing when it has no NUL. -/
def upToNul : List Nat → Option (List Nat)
  | [] => none
  | b :: bs => if b = 0 then some [] else (upToNul bs).map (fun s => b :: s)

/-- Reading a C string through a host pointer into guest memory, as `printf("%s")` and
`operator<<` do: the bytes up to the first NUL, however many they are.  When guest
memory has no NUL from `p` on, the read runs past the end of the memory into whatever the
host has there; nothing is given for that case. -/
def hostCString (mem : Memory) (p : Nat) : Option (List Nat) := upToNul (mem.drop p)

/-- Modelled from the spec: `WAVMWasmModule::captureStdout(str)`, not part of `src/`.
Spec 8, scenario 5: after `puts("trace")` the captured output is `"trace\n"`, so the
string and a newline are appended to the capture buffer. -/
def Module.captureStdoutString (m : Module) (str : List Nat) : Module :=
  { m with stdoutCapture := m.stdoutCapture ++ str ++ [10] }

/-- `env.puts` (io.cpp 751-769).  `stdout` holds the bytes on the host's standard output.
`memoryRef<char>` validates the one byte at `strPtr`; the string is then read through
the host pointer with no further check.  For a read that leaves guest memory the sources
define no outcome (host bytes are printed, or the process crashes): that case is marked
`readPastGuestMemory` and the state given with it means nothing. -/
def puts (captureStdout : String) (m : Module) (stdout : List Nat) (strPtr : Int) :
    Module × List Nat × Result Int :=
  match memoryRef m.defaultMemory 1 (toUptr strPtr) with
  | none => (m, stdout, Result.throw HostError.outOfBoundsMemoryAccess)
  | some p =>
    match hostCString m.defaultMemory p with
    | none => (m, stdout, Result.throw HostError.readPastGuestMemory)
    | some hostStr =>
      let m1 : Module := if captureStdout == "on" then m.captureStdoutString hostStr else m
      (m1, stdout ++ hostStr ++ [10], Result.ok 0)

/-- The bytes of `"S - vfprintf - "`. -/
def VFPRINTF_TAG : List Nat := [83, 32, 45, 32, 118, 102, 112, 114, 105, 110, 116, 102, 32, 45, 32]

/-- `env.vfprintf` (io.cpp 783-799): `formatPtr` is a `U32`; `fd` and `argList` are not
read.  The tag, the format string and `std::endl` go to the host's standard output.  As in
`puts`, only the byte at `formatPtr` is validated, and a read of the format that leaves
guest memory, for which the sources define no outcome, is marked `readPastGuestMemory`. -/
def vfprintf (m : Module) (stdout : List Nat) (_fd : Int) (formatPtr : Nat) (_argList : Int) :
    Module × List Nat × Result Int :=
  match memoryRef m.defaultMemory 1 formatPtr with
  | none => (m, stdout, Result.throw HostError.outOfBoundsMemoryAccess)
  | some p =>
    match hostCString m.defaultMemory p with
    | none => (m, stdout, Result.throw HostError.readPastGuestMemory)
    | some format => (m, stdout ++ VFPRINTF_TAG ++ format ++ [10], Result.ok 0)

/-! ## Concrete inputs for the input and output handlers -/

/-- A module for `fd_write` and `fd_read`: two iovec entries at offset 0 naming the two
bytes at offset 16 and the three bytes at offset 18, four bytes for a result at offset
24; descriptors 1 (standard output), 3 (the preopened root) and 4 (a regular file). -/
def demoIoModule : Module :=
  { defaultMemory :=
      [16, 0, 0, 0, 2, 0, 0, 0, 18, 0, 0, 0, 3, 0, 0, 0, 104, 105, 33, 10, 0, 0, 0, 0,
        9, 9, 9, 9]
    fileSystem :=
      { fileDescriptors :=
          [(1, { path := [], wasiPreopenType := PREOPENTYPE_REGULAR, wasiFiletype := 2,
                 rightsBase := 255, rightsInheriting := 255, linuxFd := some 1,
                 iterStarted := false, iterCursor := 0, wasiErrno := 0 }),
           (3, { path := [47], wasiPreopenType := WASI_PREOPENTYPE_DIR, wasiFiletype := 3,
                 rightsBase := 255, rightsInheriting := 255, linuxFd := some 10,
                 iterStarted := false, iterCursor := 0, wasiErrno := 0 }),
           (4, { path := [47, 100, 97, 116, 97], wasiPreopenType := PREOPENTYPE_REGULAR,
                 wasiFiletype := 4, rightsBase := 255, rightsInheriting := 255,
                 linuxFd := some 11, iterStarted := false, iterCursor := 0,
                 wasiErrno := 0 })] }
    stdoutCapture := [62] }

/-- A `write` that takes everything it is given. -/
def demoWriteAll : FileDescriptor → List (List Nat) → FileDescriptor × Int :=
  fun d contents => (d, (contents.flatten.length : Int))

/-- A `write` that fails and records the errno 29 (`EIO`) on the descriptor. -/
def demoWriteFails : FileDescriptor → List (List Nat) → FileDescriptor × Int :=
  fun d _ => ({ d with wasiErrno := 29 }, -1)

/-- A directory operation that fails with errno 44 (`ENOENT`) recorded on the
descriptor. -/
def demoOpFails : FileDescriptor → List Nat → FileDescriptor × Bool :=
  fun d _ => ({ d with wasiErrno := 44 }, false)

/-- A directory operation that succeeds. -/
def demoOpSucceeds : FileDescriptor → List Nat → FileDescriptor × Bool :=
  fun d _ => (d, true)

/-- A rename that fails with errno 44 recorded on the descriptor of the old path. -/
def demoRenameFails : FileDescriptor → List Nat → List Nat → FileDescriptor × Bool :=
  fun d _ _ => ({ d with wasiErrno := 44 }, false)

/-- The full path of `rel` below a descriptor. -/
def demoAbsPath : FileDescriptor → List Nat → List Nat :=
  fun d rel => d.path ++ [47] ++ rel

/-- The fields of a guest filestat. -/
structure GuestFilestat where
  dev : Nat
  ino : Nat
  filetype : Nat
  nlink : Nat
  size : Nat
  atim : Nat
  mtim : Nat
  ctim : Nat
  deriving DecidableEq, Repr

/-- The guest filestat found at offset `p` of the memory, in the layout described at
`FILESTAT_SIZE`. -/
def readGuestFilestat (mem : Memory) (p : Nat) : GuestFilestat :=
  { dev := leValue (hostRead mem p 8)
    ino := leValue (hostRead mem (p + 8) 8)
    filetype := leValue (hostRead mem (p + 16) 1)
    nlink := leValue (hostRead mem (p + 24) 8)
    size := leValue (hostRead mem (p + 32) 8)
    atim := leValue (hostRead mem (p + 40) 8)
    mtim := leValue (hostRead mem (p + 48) 8)
    ctim := leValue (hostRead mem (p + 56) 8) }

/-- Whether the fields of a Stat Record fit the guest fields: 64 bits each, 8 bits for
the file type. -/
def Stat.fits (s : Stat) : Prop :=
  s.st_dev < 18446744073709551616 ∧ s.st_ino < 18446744073709551616 ∧
    s.wasiFiletype < 256 ∧ s.st_nlink < 18446744073709551616 ∧
    s.st_size < 18446744073709551616 ∧ s.st_atim < 18446744073709551616 ∧
    s.st_mtim < 18446744073709551616 ∧ s.st_ctim < 18446744073709551616

instance (s : Stat) : Decidable s.fits := by unfold Stat.fits; infer_instance

/-- The guest fields a Stat Record is serialised to. -/
def Stat.toGuest (s : Stat) : GuestFilestat :=
  { dev := s.st_dev, ino := s.st_ino, filetype := s.wasiFiletype, nlink := s.st_nlink,
    size := s.st_size, atim := s.st_atim, mtim := s.st_mtim, ctim := s.st_ctim }

/-- A module with 72 bytes of memory (all 7, a NUL at offset 70) and the descriptors of
the demo module. -/
def demoStatModule : Module :=
  { defaultMemory := List.replicate 70 7 ++ [0, 7]
    fileSystem := demoModule.fileSystem }

/-- A `stat` that succeeds with a fixed record. -/
def demoStat : FileDescriptor → List Nat → Stat :=
  fun _ _ =>
    { failed := false, wasiErrno := 0, wasiFiletype := 4, st_dev := 2049, st_ino := 77,
      st_nlink := 1, st_size := 300, st_atim := 1000, st_mtim := 2000, st_ctim := 3000 }

/-- A `stat` that fails with errno 44. -/
def demoStatFails : FileDescriptor → List Nat → Stat :=
  fun _ _ =>
    { failed := true, wasiErrno := 44, wasiFiletype := 0, st_dev := 0, st_ino := 0,
      st_nlink := 0, st_size := 0, st_atim := 0, st_mtim := 0, st_ctim := 0 }

/-- A module whose memory holds 16384 bytes `A` followed by a NUL: a string of 16 KiB,
terminated inside the memory, with no NUL among its first 16384 bytes. -/
def longStringModule : Module :=
  { defaultMemory := List.replicate 16384 65 ++ [0]
    fileSystem := { fileDescriptors := [] } }

/-- A module whose memory holds the string `%d` at offset 0 and `hi` at offset 3. -/
def demoStringModule : Module :=
  { defaultMemory := [37, 100, 0, 104, 105, 0]
    fileSystem := { fileDescriptors := [] }
    stdoutCapture := [62] }

/-! ## `syscalls.cpp`: the fake clock -/

/-- What `_clock_gettime` acts on: the module memory, the process-wide counter
`fakeClock` (a `U64`, zero in a fresh process) and the trace lines printed. -/
structure ClockState where
  memory : Memory
  fakeClock : Nat
  trace : List (String × List Int)
  deriving DecidableEq, Repr

/-- The two assignments to `result` (syscalls.cpp 136-137): `tv_sec` and `tv_nsec` for the
counter value `currentClock`, each converted to `I32`. -/
def clockTimespec (currentClock : Nat) : Int × Int :=
  (toI32 ((currentClock / 1000000000 : Nat) : Int), toI32 ((currentClock % 1000000000 : Nat) : Int))

/-- `env._clock_gettime` (syscalls.cpp 127-141).  `auto result = Runtime::memoryRef<...>(...)`
declares a local `wasm_timespec` initialised by copy from the validated 8 bytes (`auto`
does not deduce a reference), so the two assignments change that local and no store
into guest memory follows.  The counter is incremented as a `U64`. -/
def _clock_gettime (s : ClockState) (_clockId resultAddress : Int) : ClockState × Result Int :=
  let s1 : ClockState := { s with trace := s.trace ++ [("INTRINSIC - _clock_gettime\n", [])] }
  match memoryRef s1.memory 8 (toUptr resultAddress) with
  | none => (s1, Result.throw HostError.outOfBoundsMemoryAccess)
  | some _p =>
    let currentClock := s1.fakeClock
    let _result := clockTimespec currentClock
    ({ s1 with fakeClock := (s1.fakeClock + 1) % 18446744073709551616 }, Result.ok 0)

/-- The `wasm_timespec` (syscalls.cpp 122-125) the guest finds in its memory at offset
`p`: `tv_sec` in the four bytes at `p` and `tv_nsec` in the four bytes at `p + 4`, each an
`I32`.  After a call with `resultAddress = p` this is the timestamp reported to the
guest. -/
def reportedTimespec (mem : Memory) (p : Nat) : Int × Int :=
  (toI32 ((leValue (hostRead mem p 4) : Nat) : Int),
    toI32 ((leValue (hostRead mem (p + 4) 4) : Nat) : Int))

/-- Lexicographic order on timestamps `(tv_sec, tv_nsec)`. -/
def timespecLt (a b : Int × Int) : Prop := a.1 < b.1 ∨ (a.1 = b.1 ∧ a.2 < b.2)

instance (a b : Int × Int) : Decidable (timespecLt a b) := by
  unfold timespecLt; infer_instance

/-! ## `worker.h`: the guest memory layout -/

def MAX_NAME_LENGTH : Int := 20
def INPUT_START : Int := 0
def MAX_INPUT_BYTES : Int := 1024 * 1024
def OUTPUT_START : Int := INPUT_START + MAX_INPUT_BYTES
def MAX_OUTPUT_BYTES : Int := 1024 * 1024
def MAX_CHAINS : Int := 100
def CHAIN_NAMES_START : Int := OUTPUT_START + MAX_OUTPUT_BYTES
def MAX_CHAIN_NAME_BYTES : Int := MAX_NAME_LENGTH * MAX_CHAINS
def CHAIN_DATA_START : Int := CHAIN_NAMES_START + MAX_CHAIN_NAME_BYTES
def MAX_CHAIN_DATA_BYTES : Int := MAX_INPUT_BYTES * MAX_CHAINS

/-! ## `io.cpp`: getdents64 -/

/-- One native `dirent64` record as `s__getdents64` reads it. -/
structure NativeDirent where
  d_ino : Nat
  d_type : Nat
  d_name : List Nat
  d_reclen : Nat
  deriving DecidableEq, Repr

/-- What one native `getdents64` call returns: an error (`errno`), or the records it put
in the 80-byte buffer (none at the end of the directory). -/
inductive NativeGetdents where
  | failed (errno : Nat)
  | records (ds : List NativeDirent)
  deriving DecidableEq, Repr

/-- The layout of `struct wasm_dirent64`, declared in `syscalls.h`, which is not part of
`src/`: its size and the offsets of the fields the handler assigns. -/
structure WasmDirentLayout where
  size : Nat
  inoOffset : Nat
  typeOffset : Nat
  nameOffset : Nat
  deriving DecidableEq, Repr

/-- The bytes of the zero-initialised `dWasm` after the assignments of io.cpp 289-296:
`d_ino` as a `U32`, `d_type`, and the name copied in. -/
def wasmDirentBytes (layout : WasmDirentLayout) (d : NativeDirent) : List Nat :=
  hostWrite
    (hostWrite
      (hostWrite (List.replicate layout.size 0) layout.inoOffset
        (leBytes 4 (d.d_ino % 4294967296)))
      layout.typeOffset [d.d_type % 256])
    layout.nameOffset d.d_name

/-- The inner loop of `s__getdents64` (io.cpp 276-309) over the records of one native
call: before each record the overshoot test, then the copy of `wasmDirentSize` bytes to
`hostWasmDirentBuf + wasmBytesRead` and the `U32` increment.  Gives the memory and the
new `wasmBytesRead`, or nothing for the count when the exception is thrown. -/
def getdentsRecords (layout : WasmDirentLayout) (hostWasmDirentBuf : Nat)
    (wasmDirentBufLen : Int) : List NativeDirent → Memory → Nat → Memory × Option Nat
  | [], mem, wasmBytesRead => (mem, some wasmBytesRead)
  | d :: ds, mem, wasmBytesRead =>
    if wasmBytesRead > toU32 wasmDirentBufLen then (mem, none)
    else
      getdentsRecords layout hostWasmDirentBuf wasmDirentBufLen ds
        (hostWrite mem (hostWasmDirentBuf + wasmBytesRead) (wasmDirentBytes layout d))
        ((wasmBytesRead + layout.size) % 4294967296)

/-- The outer loop of `s__getdents64` (io.cpp 259-311) over the successive native calls.
The bound `wasmDirentBufLen - (2 * wasmDirentSize)` is computed in `size_t`: the `I32` is
converted to 64 bits and the subtraction wraps.  A native call after the listed ones
returns 0. -/
def getdentsLoop (layout : WasmDirentLayout) (hostWasmDirentBuf : Nat)
    (wasmDirentBufLen : Int) : List NativeGetdents → Memory → Nat → Memory × Result Int
  | [], mem, wasmBytesRead => (mem, Result.ok (toI32 (wasmBytesRead : Int)))
  | r :: rest, mem, wasmBytesRead =>
    if wasmBytesRead <
        (toUptr wasmDirentBufLen + 18446744073709551616 - 2 * layout.size)
          % 18446744073709551616 then
      match r with
      | NativeGetdents.failed errno => (mem, Result.ok (-(errno : Int)))
      | NativeGetdents.records [] => (mem, Result.ok (toI32 (wasmBytesRead : Int)))
      | NativeGetdents.records (d :: ds) =>
        match getdentsRecords layout hostWasmDirentBuf wasmDirentBufLen (d :: ds) mem
            wasmBytesRead with
        | (mem1, none) =>
          (mem1, Result.throw (HostError.runtimeError "Overshot the end of the dirent buffer"))
        | (mem1, some n) => getdentsLoop layout hostWasmDirentBuf wasmDirentBufLen rest mem1 n
    else (mem, Result.ok (toI32 (wasmBytesRead : Int)))

/-- `s__getdents64` (io.cpp 237-314).  `native` lists what the successive native
`getdents64` calls on `fd` return. -/
def s__getdents64 (layout : WasmDirentLayout) (native : List NativeGetdents) (m : Module)
    (_fd wasmDirentBuf wasmDirentBufLen : Int) : Module × Result Int :=
  match memoryRef m.defaultMemory 1 (toUptr wasmDirentBuf) with
  | none => (m, Result.throw HostError.outOfBoundsMemoryAccess)
  | some hostWasmDirentBuf =>
    let r := getdentsLoop layout hostWasmDirentBuf wasmDirentBufLen native m.defaultMemory 0
    ({ m with defaultMemory := r.1 }, r.2)

/-- A layout for `wasm_dirent64`: `U32 d_ino; I32 d_off; U16 d_reclen; U8 d_type;
char d_name[256]`, 268 bytes. -/
def demoDirentLayout : WasmDirentLayout :=
  { size := 268, inoOffset := 0, typeOffset := 10, nameOffset := 11 }

/-- A module with 300 bytes of memory, all 7. -/
def demoGetdentsModule : Module :=
  { defaultMemory := List.replicate 300 7
    fileSystem := { fileDescriptors := [] } }

/-- A directory with one entry `a`: the first native call returns its 24-byte record, the
next one 0. -/
def demoNativeDir : List NativeGetdents :=
  [NativeGetdents.records [{ d_ino := 42, d_type := 8, d_name := [97], d_reclen := 24 }],
   NativeGetdents.records []]

/-- Memory of 8 bytes, all 9, in a fresh process. -/
def freshClockState : ClockState :=
  { memory := [9, 9, 9, 9, 9, 9, 9, 9], fakeClock := 0, trace := [] }

/-! ## `sgd.cpp`: the least squares weight update, over exact rational arithmetic -/

/-- The fields of `SgdParams` that `leastSquaresWeightUpdate` reads. -/
structure SgdParams where
  nWeights : Int
  learningRate : ℚ

/-- The constant `0.00000001` of the skip test. -/
def SKIP_THRESHOLD : ℚ := 1 / 100000000

/-- The weights row and the row kept under `WEIGHTS_KEY` in the state. -/
structure SgdWeights where
  weights : List ℚ
  state : List ℚ

/-- The product of the `1 x n` weights row with one column of the inputs. -/
def dotProduct (weights col : List ℚ) : ℚ := (List.zipWith (fun a b => a * b) weights col).sum

/-- The inner loop of `leastSquaresWeightUpdate` (sgd.cpp 37-46) for one example, from
weight `w` on with `k` weights left: `col` is column `i` of the inputs and
`thisGradient` is `gradient(0, i)`.  An update is also written to the state
(`writeMatrixStateElement`). -/
def updateForExample (learningRate thisGradient : ℚ) (col : List ℚ) :
    Nat → Nat → SgdWeights → SgdWeights
  | 0, _, st => st
  | k + 1, w, st =>
    if col.getD w 0 < SKIP_THRESHOLD then updateForExample learningRate thisGradient col k (w + 1) st
    else
      updateForExample learningRate thisGradient col k (w + 1)
        { weights := st.weights.set w (st.weights.getD w 0 - learningRate * thisGradient)
          state := st.state.set w (st.weights.getD w 0 - learningRate * thisGradient) }

/-- The outer loop (sgd.cpp 34-47) over the columns of the inputs, from column `i` on. -/
def updateForExamples (sgdParams : SgdParams) (gradient : List ℚ) :
    Nat → List (List ℚ) → SgdWeights → SgdWeights
  | _, [], st => st
  | i, col :: cols, st =>
    updateForExamples sgdParams gradient (i + 1) cols
      (updateForExample sgdParams.learningRate (gradient.getD i 0) col
        sgdParams.nWeights.toNat 0 st)

/-- `gradient = -2.0 * (actual - outputs)` (sgd.cpp 31). -/
def sgdGradient (actual outputs : List ℚ) : List ℚ :=
  List.zipWith (fun a y => -2 * (a - y)) actual outputs

/-- `leastSquaresWeightUpdate` (sgd.cpp 27-50).  The inputs are given by their columns.
Gives the returned matrix `actual` and the weights (and state) as the call leaves
them. -/
def leastSquaresWeightUpdate (sgdParams : SgdParams) (st : SgdWeights)
    (inputs : List (List ℚ)) (outputs : List ℚ) : List ℚ × SgdWeights :=
  let actual := inputs.map (fun col => dotProduct st.weights col)
  let gradient := sgdGradient actual outputs
  (actual, updateForExamples sgdParams gradient 0 inputs st)

/-- The error types of `Aws::S3::S3Errors` that matter here.  `BucketNotEmpty` has no
error type of its own: it comes as `UNKNOWN` with that exception name. -/
inductive S3ErrorType where
  | NO_SUCH_BUCKET
  | NO_SUCH_KEY
  | BUCKET_ALREADY_EXISTS
  | BUCKET_ALREADY_OWNED_BY_YOU
  | UNKNOWN
  | ACCESS_DENIED
  | NETWORK_CONNECTION
  | INTERNAL_FAILURE
  | SLOW_DOWN
  deriving DecidableEq, Repr

/-- An error of a response: its type and its exception name. -/
structure S3Error where
  errorType : S3ErrorType
  exceptionName : String
  deriving DecidableEq, Repr

/-- The outcome of a request. -/
inductive S3Outcome (α : Type) where
  | success (result : α)
  | failure (err : S3Error)
  deriving DecidableEq, Repr

/-- The exception `CHECK_ERRORS` throws (S3Wrapper.cpp 39-56). -/
def s3Exception : HostError := HostError.runtimeError "S3 error"

/-- `S3Wrapper::getKeyBytes` (S3Wrapper.cpp 277-302).  `getObject` is the client's
`GetObject`: on success the reported content length and the body.  `rawData` is a
zero-filled vector of the content length into which the body is read. -/
def getKeyBytes (getObject : String → String → S3Outcome (Nat × List Nat))
    (bucketName keyName : String) (tolerateMissing : Bool) : Result (List Nat) :=
  match getObject bucketName keyName with
  | S3Outcome.failure err =>
    if tolerateMissing && (err.errorType == S3ErrorType.NO_SUCH_KEY) then Result.ok []
    else Result.throw s3Exception
  | S3Outcome.success (contentLength, body) =>
    Result.ok (body.take contentLength ++ List.replicate (contentLength - body.length) 0)

/-- An error of the service other than those the wrapper tolerates. -/
inductive S3Fault where
  | accessDenied
  | networkConnection
  | internalFailure
  | slowDown
  deriving DecidableEq, Repr

/-- The error a fault is reported as. -/
def S3Fault.toError : S3Fault → S3Error
  | S3Fault.accessDenied => { errorType := S3ErrorType.ACCESS_DENIED, exceptionName := "AccessDenied" }
  | S3Fault.networkConnection =>
    { errorType := S3ErrorType.NETWORK_CONNECTION, exceptionName := "NetworkConnection" }
  | S3Fault.internalFailure =>
    { errorType := S3ErrorType.INTERNAL_FAILURE, exceptionName := "InternalFailure" }
  | S3Fault.slowDown => { errorType := S3ErrorType.SLOW_DOWN, exceptionName := "SlowDown" }

/-- Modelled from the spec: the S3 service as a map from bucket to (key to bytes), kept as
association lists, together with the faults the service will answer the coming requests
with (`none`: the request is served; an exhausted list: every request is served). -/
structure S3State where
  buckets : List (String × List (String × List Nat))
  faults : List (Option S3Fault)
  deriving DecidableEq, Repr

/-- The objects of a bucket, if the bucket is present. -/
def lookupBucket (buckets : List (String × List (String × List Nat))) (b : String) :
    Option (List (String × List Nat)) :=
  (buckets.find? (fun e => e.1 == b)).map (fun e => e.2)

/-- The fault the next request meets. -/
def pendingFault : List (Option S3Fault) → Option S3Fault
  | some f :: _ => some f
  | _ => none

/-- The buckets without bucket `b`. -/
def removeBucket (buckets : List (String × List (String × List Nat))) (b : String) :
    List (String × List (String × List Nat)) :=
  buckets.filter (fun e => e.1 != b)

/-- The buckets with key `k` removed from bucket `b`. -/
def removeKey (buckets : List (String × List (String × List Nat))) (b k : String) :
    List (String × List (String × List Nat)) :=
  buckets.map (fun e => if e.1 == b then (e.1, e.2.filter (fun o => o.1 != k)) else e)

/-- Modelled from the spec: the service's `DeleteBucket`, `NO_SUCH_BUCKET` for an absent bucket, `BucketNotEmpty`
for a bucket that holds objects, success (the bucket is removed) for an empty one. -/
def clientDeleteBucket (s : S3State) (b : String) : S3State × S3Outcome Unit :=
  match pendingFault s.faults with
  | some f => ({ s with faults := s.faults.tail }, S3Outcome.failure f.toError)
  | none =>
    match lookupBucket s.buckets b with
    | none =>
      ({ s with faults := s.faults.tail },
        S3Outcome.failure { errorType := S3ErrorType.NO_SUCH_BUCKET, exceptionName := "NoSuchBucket" })
    | some objs =>
      if objs.isEmpty then
        ({ buckets := removeBucket s.buckets b, faults := s.faults.tail }, S3Outcome.success ())
      else
        ({ s with faults := s.faults.tail },
          S3Outcome.failure { errorType := S3ErrorType.UNKNOWN, exceptionName := "BucketNotEmpty" })

/-- Modelled from the spec: the service's `ListObjects`, which gives the keys of the
bucket. -/
def clientListObjects (s : S3State) (b : String) : S3State × S3Outcome (List String) :=
  match pendingFault s.faults with
  | some f => ({ s with faults := s.faults.tail }, S3Outcome.failure f.toError)
  | none =>
    match lookupBucket s.buckets b with
    | none =>
      ({ s with faults := s.faults.tail },
        S3Outcome.failure { errorType := S3ErrorType.NO_SUCH_BUCKET, exceptionName := "NoSuchBucket" })
    | some objs => ({ s with faults := s.faults.tail }, S3Outcome.success (objs.map (fun o => o.1)))

/-- Modelled from the spec: the service's `DeleteObject`, which removes the key from the
bucket. -/
def clientDeleteObject (s : S3State) (b k : String) : S3State × S3Outcome Unit :=
  match pendingFault s.faults with
  | some f => ({ s with faults := s.faults.tail }, S3Outcome.failure f.toError)
  | none =>
    match lookupBucket s.buckets b with
    | none =>
      ({ s with faults := s.faults.tail },
        S3Outcome.failure { errorType := S3ErrorType.NO_SUCH_BUCKET, exceptionName := "NoSuchBucket" })
    | some _ => ({ buckets := removeKey s.buckets b k, faults := s.faults.tail }, S3Outcome.success ())

/-- `S3Wrapper::listKeys` (S3Wrapper.cpp 184-214). -/
def listKeys (s : S3State) (bucketName : String) : S3State × Result (List String) :=
  match clientListObjects s bucketName with
  | (s1, S3Outcome.failure err) =>
    if err.errorType == S3ErrorType.NO_SUCH_BUCKET then (s1, Result.ok [])
    else (s1, Result.throw s3Exception)
  | (s1, S3Outcome.success keyObjects) => (s1, Result.ok keyObjects)

/-- `S3Wrapper::deleteKey` (S3Wrapper.cpp 216-235). -/
def deleteKey (s : S3State) (bucketName keyName : String) : S3State × Result Unit :=
  match clientDeleteObject s bucketName keyName with
  | (s1, S3Outcome.success _) => (s1, Result.ok ())
  | (s1, S3Outcome.failure err) =>
    if err.errorType == S3ErrorType.NO_SUCH_KEY then (s1, Result.ok ())
    else if err.errorType == S3ErrorType.NO_SUCH_BUCKET then (s1, Result.ok ())
    else (s1, Result.throw s3Exception)

/-- The loop of `deleteBucket` over the listed keys (S3Wrapper.cpp 155-157); an exception
of `deleteKey` leaves the loop. -/
def deleteKeys (bucketName : String) : List String → S3State → S3State × Result Unit
  | [], s => (s, Result.ok ())
  | k :: ks, s =>
    match deleteKey s bucketName k with
    | (s1, Result.ok _) => deleteKeys bucketName ks s1
    | (s1, Result.throw e) => (s1, Result.throw e)

/-- `S3Wrapper::deleteBucket` (S3Wrapper.cpp 141-165), with `fuel` bounding the depth of
its recursion: nothing is given when the depth is used up. -/
def deleteBucket : Nat → S3State → String → Option (S3State × Result Unit)
  | 0, _, _ => none
  | fuel + 1, s, bucketName =>
    match clientDeleteBucket s bucketName with
    | (s1, S3Outcome.success _) => some (s1, Result.ok ())
    | (s1, S3Outcome.failure err) =>
      if err.errorType == S3ErrorType.NO_SUCH_BUCKET then some (s1, Result.ok ())
      else if err.exceptionName == "BucketNotEmpty" then
        match listKeys s1 bucketName with
        | (s2, Result.throw e) => some (s2, Result.throw e)
        | (s2, Result.ok keys) =>
          match deleteKeys bucketName keys s2 with
          | (s3, Result.throw e) => some (s3, Result.throw e)
          | (s3, Result.ok _) => deleteBucket fuel s3 bucketName
      else some (s1, Result.throw s3Exception)

/-- The buckets with every key of `ks` removed from bucket `b`, one after the other. -/
def removeKeys (buckets : List (String × List (String × List Nat))) (b : String)
    (ks : List String) : List (String × List (String × List Nat)) :=
  ks.foldl (fun acc k => removeKey acc b k) buckets

/-- No fault is pending in the list. -/
def noFaults (faults : List (Option S3Fault)) : Prop := ∀ f ∈ faults, f = none

/-- A store with two buckets: `b1` with two objects and `b2` with one; no faults. -/
def demoS3 : S3State :=
  { buckets := [("b1", [("k1", [1, 2]), ("k2", [3])]), ("b2", [("k1", [4])])]
    faults := [] }

/-- The store `demoS3` whose third request meets an access-denied fault. -/
def demoFaultyS3 : S3State :=
  { demoS3 with faults := [none, none, some S3Fault.accessDenied] }

/-- A `GetObject` that finds `b1/k1` (three bytes) and fails with `NO_SUCH_KEY`
otherwise. -/
def demoGetObject : String → String → S3Outcome (Nat × List Nat) :=
  fun b k =>
    if b == "b1" && k == "k1" then S3Outcome.success (3, [7, 8, 9])
    else S3Outcome.failure { errorType := S3ErrorType.NO_SUCH_KEY, exceptionName := "NoSuchKey" }

/-! ## Lemmas on machine integers and memory -/

theorem toUptr_of_nonneg (x : Int) (h0 : 0 ≤ x) (h : x < 2147483648) :
    toUptr x = x.toNat := by
  unfold toUptr; omega

theorem toUptr_of_neg (x : Int) (h0 : x < 0) (h : -2147483648 ≤ x) :
    4294967296 < toUptr x := by
  unfold toUptr; omega

theorem hostWrite_length (bs : List Nat) : ∀ (mem : Memory) (p : Nat),
    (hostWrite mem p bs).length = mem.length := by
  induction bs with
  | nil => intro mem p; rfl
  | cons b bs ih => intro mem p; simp [hostWrite, ih]

theorem hostWrite_getElem? (bs : List Nat) : ∀ (mem : Memory) (p i : Nat),
    (hostWrite mem p bs)[i]? =
      if p ≤ i ∧ i < p + bs.length ∧ i < mem.length then bs[i - p]? else mem[i]? := by
  induction bs with
  | nil =>
    intro mem p i
    have : ¬ (p ≤ i ∧ i < p + ([] : List Nat).length ∧ i < mem.length) := by
      simp only [List.length_nil]; omega
    rw [if_neg this]; rfl
  | cons b bs ih =>
    intro mem p i
    simp only [hostWrite, ih, List.length_set, List.length_cons]
    by_cases h1 : p + 1 ≤ i
    · by_cases h2 : i < p + 1 + bs.length
      · by_cases h3 : i < mem.length
        · have e : i - p = (i - (p + 1)) + 1 := by omega
          rw [if_pos ⟨h1, h2, h3⟩, if_pos ⟨by omega, by omega, h3⟩, e, List.getElem?_cons_succ]
        · rw [if_neg (by tauto), if_neg (by tauto), List.getElem?_set]
          have : ¬ p = i := by omega
          simp [this]
      · rw [if_neg (by tauto), if_neg (by omega), List.getElem?_set]
        have : ¬ p = i := by omega
        simp [this]
    · rw [if_neg (by tauto), List.getElem?_set]
      by_cases h4 : p = i
      · subst h4
        by_cases h3 : p < mem.length
        · simp [h3]
        · have : mem.length ≤ p := by omega
          simp [h3, List.getElem?_eq_none this]
      · rw [if_neg h4, if_neg (by omega)]

/-! ## bzero -/

theorem validRange_iff (mem : Memory) (o n : Nat) :
    validRange mem o n = true ↔ o + n ≤ mem.length ∧ o + n ≤ 4294967296 := by
  simp [validRange]

theorem bzero_eq (m : Module) (wasmPtr len : Int) :
    bzero m wasmPtr len =
      if validRange m.defaultMemory (toUptr wasmPtr) (toUptr len) = true then
        ({ m with defaultMemory :=
            hostWrite m.defaultMemory (toUptr wasmPtr) (List.replicate (toUptr len) 0) },
          Result.ok ())
      else (m, Result.throw HostError.outOfBoundsMemoryAccess) := by
  unfold bzero memoryArrayPtr
  rw [Nat.mul_one]
  by_cases h : validRange m.defaultMemory (toUptr wasmPtr) (toUptr len) = true <;> simp [h]

/-- C4: for I32 arguments, `bzero` succeeds exactly when `0 ≤ wasmPtr`, `0 ≤ len` and
`wasmPtr + len ≤ |M|`; it then zeroes every byte of `[wasmPtr, wasmPtr + len)` and leaves
every other byte (and the memory size and the descriptor table) as it was; otherwise it
raises the out-of-bounds exception with the module unchanged.  `explicit_bzero` gives the
same result on every input. -/
theorem bzero_zeroes_range_or_fails (m : Module) (wasmPtr len : Int)
    (hp : isI32 wasmPtr) (hl : isI32 len) :
    (0 ≤ wasmPtr ∧ 0 ≤ len ∧ wasmPtr + len ≤ m.defaultMemory.length →
      (bzero m wasmPtr len).2 = Result.ok () ∧
      (bzero m wasmPtr len).1.fileSystem = m.fileSystem ∧
      (bzero m wasmPtr len).1.defaultMemory.length = m.defaultMemory.length ∧
      ∀ i : Nat, i < m.defaultMemory.length →
        (bzero m wasmPtr len).1.defaultMemory[i]? =
          if wasmPtr ≤ i ∧ (i : Int) < wasmPtr + len then some 0
          else m.defaultMemory[i]?) ∧
    (¬ (0 ≤ wasmPtr ∧ 0 ≤ len ∧ wasmPtr + len ≤ m.defaultMemory.length) →
      bzero m wasmPtr len = (m, Result.throw HostError.outOfBoundsMemoryAccess)) ∧
    explicit_bzero m wasmPtr len = bzero m wasmPtr len := by
  obtain ⟨hp1, hp2⟩ := hp
  obtain ⟨hl1, hl2⟩ := hl
  refine ⟨?_, ?_, rfl⟩
  · rintro ⟨h0, h1, h2⟩
    have ea : toUptr wasmPtr = wasmPtr.toNat := toUptr_of_nonneg wasmPtr h0 hp2
    have eb : toUptr len = len.toNat := toUptr_of_nonneg len h1 hl2
    have hv : validRange m.defaultMemory (toUptr wasmPtr) (toUptr len) = true := by
      rw [validRange_iff, ea, eb]; omega
    rw [bzero_eq, if_pos hv, ea, eb]
    refine ⟨rfl, rfl, hostWrite_length _ _ _, ?_⟩
    intro i hi
    rw [hostWrite_getElem?, List.length_replicate]
    by_cases hc : wasmPtr ≤ i ∧ (i : Int) < wasmPtr + len
    · rw [if_pos hc, if_pos ⟨by omega, by omega, hi⟩, List.getElem?_replicate]
      rw [if_pos (by omega)]
    · rw [if_neg hc, if_neg (by omega)]
  · intro hn
    have hv : ¬ validRange m.defaultMemory (toUptr wasmPtr) (toUptr len) = true := by
      rw [validRange_iff]
      intro hv
      apply hn
      by_cases h0 : 0 ≤ wasmPtr
      · by_cases h1 : 0 ≤ len
        · have ea := toUptr_of_nonneg wasmPtr h0 hp2
          have eb := toUptr_of_nonneg len h1 hl2
          rw [ea, eb] at hv
          omega
        · have := toUptr_of_neg len (by omega) hl1
          omega
      · have := toUptr_of_neg wasmPtr (by omega) hp1
        omega
    rw [bzero_eq, if_neg hv]

/-- C4 at a concrete input: zeroing three bytes from offset 2 of the demo memory. -/
theorem bzero_zeroes_range_or_fails_witness :
    (bzero demoModule 2 3).2 = Result.ok () ∧
      (bzero demoModule 2 3).1.defaultMemory[3]? = some 0 ∧
      (bzero demoModule 2 3).1.defaultMemory[5]? = some 6 :=
  have h := (bzero_zeroes_range_or_fails demoModule 2 3 (by decide) (by decide)).1
    (by decide)
  ⟨h.1, by simpa using h.2.2.2 3 (by decide), by simpa using h.2.2.2 5 (by decide)⟩

/-! ## fd_close and fd_prestat_dir_name on concrete inputs -/

/-- C2: on the demo module, descriptor 4 is present and is not a preopen; `fd_close 4`
returns 0 and descriptor 4 is still present afterwards (the module is unchanged). -/
theorem fd_close_keeps_descriptor :
    demoModule.fileSystem.fileDescriptorExists 4 = true ∧
      (demoModule.fileSystem.getFileDescriptor 4).map (fun d => d.wasiPreopenType)
        = some PREOPENTYPE_REGULAR ∧
      wasi_fd_close demoModule 4 = (demoModule, Result.ok 0) ∧
      (wasi_fd_close demoModule 4).1.fileSystem.fileDescriptorExists 4 = true := by
  refine ⟨by decide, by decide, rfl, by decide⟩

/-- C3: on the demo module, `fd_prestat_dir_name 4 0 2` passes the bounds check for the
two bytes `[0, 2)`, returns success, and has written the five bytes of the path `/data`:
the bytes at offsets 2, 3 and 4 lie outside `[0, 2)` and are changed. -/
theorem fd_prestat_dir_name_overruns :
    memoryArrayPtr demoModule.defaultMemory 1 (toUptr 0) (toUptr 2) = some 0 ∧
      (wasi_fd_prestat_dir_name demoModule 4 0 2).2 = Result.ok WASI_ESUCCESS ∧
      demoModule.defaultMemory = [1, 2, 3, 4, 5, 6, 7, 8] ∧
      (wasi_fd_prestat_dir_name demoModule 4 0 2).1.defaultMemory
        = [47, 100, 97, 116, 97, 6, 7, 8] := by
  refine ⟨by decide, by decide, rfl, by decide⟩

/-! ## Reading back what was written -/

theorem hostRead_getElem? (mem : Memory) (p n i : Nat) :
    (hostRead mem p n)[i]? = if i < n then mem[p + i]? else none := by
  unfold hostRead
  by_cases h : i < n
  · rw [if_pos h, List.getElem?_take_of_lt h, List.getElem?_drop]
  · rw [if_neg h, List.getElem?_take_eq_none (by omega)]

theorem hostRead_hostWrite_same (mem : Memory) (p : Nat) (bs : List Nat)
    (h : p + bs.length ≤ mem.length) :
    hostRead (hostWrite mem p bs) p bs.length = bs := by
  apply List.ext_getElem?
  intro i
  rw [hostRead_getElem?, hostWrite_getElem?]
  by_cases hi : i < bs.length
  · rw [if_pos hi, if_pos ⟨by omega, by omega, by omega⟩]
    congr 1; omega
  · rw [if_neg hi, List.getElem?_eq_none (by omega)]

theorem hostRead_hostWrite_disjoint (mem : Memory) (p q n : Nat) (bs : List Nat)
    (h : q + n ≤ p ∨ p + bs.length ≤ q) :
    hostRead (hostWrite mem p bs) q n = hostRead mem q n := by
  apply List.ext_getElem?
  intro i
  rw [hostRead_getElem?, hostRead_getElem?, hostWrite_getElem?]
  by_cases hi : i < n
  · rw [if_pos hi, if_pos hi, if_neg (by omega)]
  · rw [if_neg hi, if_neg hi]

theorem leBytes_length (w : Nat) : ∀ v : Nat, (leBytes w v).length = w := by
  induction w with
  | zero => intro v; rfl
  | succ w ih => intro v; simp [leBytes, ih]

theorem leValue_leBytes (w : Nat) : ∀ v : Nat, leValue (leBytes w v) = v % 256 ^ w := by
  induction w with
  | zero => intro v; simp [leBytes, leValue, Nat.mod_one]
  | succ w ih =>
    intro v
    simp only [leBytes, leValue, ih]
    rw [pow_succ, Nat.mul_comm (256 ^ w) 256, Nat.mod_mul]

theorem leValue_leBytes_four (v : Nat) : leValue (leBytes 4 v) = v % 4294967296 := by
  rw [leValue_leBytes]; norm_num

/-! ## fd_prestat_get -/

theorem fd_prestat_get_absent (m : Module) (fd prestatPtr : Int)
    (h : m.fileSystem.fileDescriptorExists fd = false) :
    wasi_fd_prestat_get m fd prestatPtr = (m, Result.ok WASI_EBADF) := by
  simp [wasi_fd_prestat_get, h]

theorem fd_prestat_get_present (m : Module) (fd prestatPtr : Int) (d : FileDescriptor)
    (h : m.fileSystem.getFileDescriptor fd = some d) :
    wasi_fd_prestat_get m fd prestatPtr =
      if validRange m.defaultMemory (toUptr prestatPtr) 8 = true then
        ({ m with defaultMemory :=
            (hostWrite (hostWrite m.defaultMemory (toUptr prestatPtr) [d.wasiPreopenType % 256])
              (toUptr prestatPtr + 4) (leBytes 4 (d.path.length % 4294967296))) },
          Result.ok WASI_ESUCCESS)
      else (m, Result.throw HostError.outOfBoundsMemoryAccess) := by
  have he : m.fileSystem.fileDescriptorExists fd = true := by
    simp [FileSystem.fileDescriptorExists, h]
  unfold wasi_fd_prestat_get memoryRef
  by_cases hv : validRange m.defaultMemory (toUptr prestatPtr) 8 = true <;> simp [he, h, hv]

/-- C10: `fd_prestat_get` returns `EBADF` with guest memory unchanged if and only if `fd`
is not in the descriptor table, and it never changes the table.  When `fd` is in the
table (and the eight bytes of the prestat at `prestatPtr` lie in guest memory) it
returns `ESUCCESS`, the byte at `prestatPtr` is the descriptor's preopen type and the
`U32` at `prestatPtr + 4` is the byte length of the descriptor's path.  Hence, when the
ids `3, ..., 3 + n - 1` are in the table and `3 + n` is not, the calls for the first `n`
ids succeed and the call for `3 + n` returns `EBADF`, whatever the memory contents. -/
theorem fd_prestat_get_ebadf_iff_absent (m : Module) (fd prestatPtr : Int) :
    (((wasi_fd_prestat_get m fd prestatPtr).2 = Result.ok WASI_EBADF ∧
        (wasi_fd_prestat_get m fd prestatPtr).1.defaultMemory = m.defaultMemory) ↔
      m.fileSystem.fileDescriptorExists fd = false) ∧
    (wasi_fd_prestat_get m fd prestatPtr).1.fileSystem = m.fileSystem ∧
    (∀ d : FileDescriptor, m.fileSystem.getFileDescriptor fd = some d →
      validRange m.defaultMemory (toUptr prestatPtr) 8 = true →
      (wasi_fd_prestat_get m fd prestatPtr).2 = Result.ok WASI_ESUCCESS ∧
      hostRead (wasi_fd_prestat_get m fd prestatPtr).1.defaultMemory (toUptr prestatPtr) 1
        = [d.wasiPreopenType % 256] ∧
      leValue (hostRead (wasi_fd_prestat_get m fd prestatPtr).1.defaultMemory
        (toUptr prestatPtr + 4) 4) = d.path.length % 4294967296 ∧
      (d.wasiPreopenType < 256 → d.path.length < 4294967296 →
        hostRead (wasi_fd_prestat_get m fd prestatPtr).1.defaultMemory (toUptr prestatPtr) 1
          = [d.wasiPreopenType] ∧
        leValue (hostRead (wasi_fd_prestat_get m fd prestatPtr).1.defaultMemory
          (toUptr prestatPtr + 4) 4) = d.path.length)) ∧
    (∀ n : Nat,
      (∀ k : Nat, k < n → m.fileSystem.fileDescriptorExists (3 + (k : Int)) = true) →
      m.fileSystem.fileDescriptorExists (3 + (n : Int)) = false →
      (∀ k : Nat, k < n → ∀ (mem : Memory) (p : Int), validRange mem (toUptr p) 8 = true →
        (wasi_fd_prestat_get { m with defaultMemory := mem } (3 + (k : Int)) p).2
          = Result.ok WASI_ESUCCESS) ∧
      ∀ (mem : Memory) (p : Int),
        (wasi_fd_prestat_get { m with defaultMemory := mem } (3 + (n : Int)) p).2
          = Result.ok WASI_EBADF) := by
  have hstored : ∀ d : FileDescriptor, m.fileSystem.getFileDescriptor fd = some d →
      validRange m.defaultMemory (toUptr prestatPtr) 8 = true →
      (wasi_fd_prestat_get m fd prestatPtr).2 = Result.ok WASI_ESUCCESS ∧
      hostRead (wasi_fd_prestat_get m fd prestatPtr).1.defaultMemory (toUptr prestatPtr) 1
        = [d.wasiPreopenType % 256] ∧
      leValue (hostRead (wasi_fd_prestat_get m fd prestatPtr).1.defaultMemory
        (toUptr prestatPtr + 4) 4) = d.path.length % 4294967296 := by
    intro d hd hv
    rw [fd_prestat_get_present m fd prestatPtr d hd, if_pos hv]
    have hb := (validRange_iff _ _ _).1 hv
    refine ⟨rfl, ?_, ?_⟩
    · show hostRead (hostWrite (hostWrite _ _ _) _ _) _ _ = _
      rw [hostRead_hostWrite_disjoint _ _ _ _ _ (Or.inl (by omega))]
      exact hostRead_hostWrite_same _ _ [d.wasiPreopenType % 256] (by simp; omega)
    · show leValue (hostRead (hostWrite (hostWrite _ _ _) _ _) _ _) = _
      have h4 : (leBytes 4 (d.path.length % 4294967296)).length = 4 := leBytes_length _ _
      have := hostRead_hostWrite_same
        (hostWrite m.defaultMemory (toUptr prestatPtr) [d.wasiPreopenType % 256])
        (toUptr prestatPtr + 4) (leBytes 4 (d.path.length % 4294967296))
        (by rw [hostWrite_length, h4]; omega)
      rw [h4] at this
      rw [this, leValue_leBytes_four, Nat.mod_mod]
  refine ⟨⟨?_, ?_⟩, ?_, ?_, ?_⟩
  · rintro ⟨hr, -⟩
    cases hd : m.fileSystem.getFileDescriptor fd with
    | none => simp [FileSystem.fileDescriptorExists, hd]
    | some d =>
      rw [fd_prestat_get_present m fd prestatPtr d hd] at hr
      by_cases hv : validRange m.defaultMemory (toUptr prestatPtr) 8 = true
      · rw [if_pos hv] at hr
        exact absurd hr (by simp [WASI_ESUCCESS, WASI_EBADF])
      · rw [if_neg hv] at hr
        exact absurd hr (by simp)
  · intro h
    rw [fd_prestat_get_absent m fd prestatPtr h]
    exact ⟨rfl, rfl⟩
  · cases hd : m.fileSystem.getFileDescriptor fd with
    | none =>
      rw [fd_prestat_get_absent m fd prestatPtr
        (by simp [FileSystem.fileDescriptorExists, hd])]
    | some d =>
      rw [fd_prestat_get_present m fd prestatPtr d hd]
      by_cases hv : validRange m.defaultMemory (toUptr prestatPtr) 8 = true
      · rw [if_pos hv]
      · rw [if_neg hv]
  · intro d hd hv
    obtain ⟨h1, h2, h3⟩ := hstored d hd hv
    refine ⟨h1, h2, h3, ?_⟩
    intro ht hl
    rw [h2, h3, Nat.mod_eq_of_lt ht, Nat.mod_eq_of_lt hl]
    exact ⟨rfl, rfl⟩
  · intro n hall hnot
    refine ⟨?_, ?_⟩
    · intro k hk mem p hv
      have he := hall k hk
      cases hd : m.fileSystem.getFileDescriptor (3 + (k : Int)) with
      | none => simp [FileSystem.fileDescriptorExists, hd] at he
      | some d =>
        rw [fd_prestat_get_present { m with defaultMemory := mem } _ p d hd, if_pos hv]
    · intro mem p
      rw [fd_prestat_get_absent { m with defaultMemory := mem } _ p hnot]

/-! ## fd_readdir -/

/-- C7: for a descriptor that is in the table, `fd_readdir` with the start cookie on an
iterator that is already started returns `EINVAL`, and with another cookie on an
iterator that is not started raises the host exception; in both cases the module is left
exactly as it was, so neither `buf`, nor `resSizePtr`, nor the iterator is touched. -/
theorem fd_readdir_rejects_inconsistent_cookie (listing : List DirEnt) (m : Module)
    (fd buf bufLen : Int) (startCookie : Nat) (resSizePtr : Int) (d : FileDescriptor)
    (hd : m.fileSystem.getFileDescriptor fd = some d) :
    (d.iterStarted = true → startCookie = WASI_DIRCOOKIE_START →
      wasi_fd_readdir listing m fd buf bufLen startCookie resSizePtr
        = (m, Result.ok WASI_EINVAL)) ∧
    (d.iterStarted = false → startCookie ≠ WASI_DIRCOOKIE_START →
      wasi_fd_readdir listing m fd buf bufLen startCookie resSizePtr
        = (m, Result.throw (HostError.runtimeError
            "No directory iterator exists, and this is not the start cookie"))) := by
  refine ⟨?_, ?_⟩
  · intro hs hc
    simp [wasi_fd_readdir, hd, hs, hc]
  · intro hs hc
    simp [wasi_fd_readdir, hd, hs, hc]

/-- C7 at concrete inputs: the start cookie on the started listing of descriptor 5, and
cookie 9 on the fresh descriptor 3. -/
theorem fd_readdir_rejects_inconsistent_cookie_witness :
    wasi_fd_readdir demoListing demoDirModule 5 0 40 0 48
        = (demoDirModule, Result.ok WASI_EINVAL) ∧
      wasi_fd_readdir demoListing demoDirModule 3 0 40 9 48
        = (demoDirModule, Result.throw (HostError.runtimeError
            "No directory iterator exists, and this is not the start cookie")) :=
  ⟨(fd_readdir_rejects_inconsistent_cookie demoListing demoDirModule 5 0 40 0 48 _
      rfl).1 rfl rfl,
   (fd_readdir_rejects_inconsistent_cookie demoListing demoDirModule 3 0 40 9 48 _
      rfl).2 rfl (by decide)⟩

theorem fillDirents_length_le (es : List DirEnt) : ∀ space : Nat,
    (fillDirents es space).1.length ≤ space := by
  induction es with
  | nil => intro space; simp [fillDirents]
  | cons e es ih =>
    intro space
    unfold fillDirents
    by_cases h : (direntBytes e).length ≤ space
    · rw [if_pos h]
      have := ih (space - (direntBytes e).length)
      simp only [List.length_append]
      omega
    · rw [if_neg h]; simp

theorem copyDirents_length_le (d : FileDescriptor) (listing : List DirEnt) (bufLen : Nat) :
    (copyDirentsToWasiBuffer d listing bufLen).2.length ≤ bufLen := by
  unfold copyDirentsToWasiBuffer
  exact fillDirents_length_le _ _

theorem fd_readdir_consistent (listing : List DirEnt) (m : Module)
    (fd buf bufLen : Int) (startCookie : Nat) (resSizePtr : Int) (d : FileDescriptor)
    (hd : m.fileSystem.getFileDescriptor fd = some d)
    (hc : (d.iterStarted = false ∧ startCookie = WASI_DIRCOOKIE_START) ∨
      (d.iterStarted = true ∧ startCookie ≠ WASI_DIRCOOKIE_START))
    (hbuf : validRange m.defaultMemory (toUptr buf) (toUptr bufLen) = true)
    (hres : validRange m.defaultMemory (toUptr resSizePtr) 4 = true) :
    wasi_fd_readdir listing m fd buf bufLen startCookie resSizePtr =
      ({ m with
         defaultMemory :=
          (hostWrite
            (hostWrite m.defaultMemory (toUptr buf)
              (copyDirentsToWasiBuffer d listing (toUptr bufLen)).2)
            (toUptr resSizePtr)
            (leBytes 4 ((copyDirentsToWasiBuffer d listing (toUptr bufLen)).2.length
              % 4294967296)))
         fileSystem := m.fileSystem.setFileDescriptor fd
          (copyDirentsToWasiBuffer d listing (toUptr bufLen)).1 },
        Result.ok WASI_ESUCCESS) := by
  have hres2 : validRange
      (hostWrite m.defaultMemory (toUptr buf)
        (copyDirentsToWasiBuffer d listing (toUptr bufLen)).2) (toUptr resSizePtr) 4 = true := by
    rw [validRange_iff, hostWrite_length]
    exact (validRange_iff _ _ _).1 hres
  rcases hc with ⟨hs, hk⟩ | ⟨hs, hk⟩
  · simp [wasi_fd_readdir, hd, hs, hk, memoryArrayPtr, memoryRef, hbuf, hres2]
  · simp [wasi_fd_readdir, hd, hs, hk, memoryArrayPtr, memoryRef, hbuf, hres2]

/-- C8: for a descriptor that is in the table and a consistent cookie (iterator not
started with the start cookie, or started with another cookie), with the buffer
`[buf, buf + bufLen)` and the four bytes at `resSizePtr` inside guest memory,
`fd_readdir` returns `ESUCCESS`; the bytes the descriptor copies are written at `buf`,
the `U32` then stored at `resSizePtr` is their number, and that number is at most
`bufLen`.  For a started iterator the whole outcome (returned value, memory, table) is
the same for every cookie other than the start cookie. -/
theorem fd_readdir_stores_bytes_copied (listing : List DirEnt) (m : Module)
    (fd buf bufLen : Int) (startCookie : Nat) (resSizePtr : Int) (d : FileDescriptor)
    (hd : m.fileSystem.getFileDescriptor fd = some d)
    (hc : (d.iterStarted = false ∧ startCookie = WASI_DIRCOOKIE_START) ∨
      (d.iterStarted = true ∧ startCookie ≠ WASI_DIRCOOKIE_START))
    (hlen : isI32 bufLen)
    (hbuf : validRange m.defaultMemory (toUptr buf) (toUptr bufLen) = true)
    (hres : validRange m.defaultMemory (toUptr resSizePtr) 4 = true) :
    (wasi_fd_readdir listing m fd buf bufLen startCookie resSizePtr).2
      = Result.ok WASI_ESUCCESS ∧
    leValue (hostRead
        (wasi_fd_readdir listing m fd buf bufLen startCookie resSizePtr).1.defaultMemory
        (toUptr resSizePtr) 4)
      = (copyDirentsToWasiBuffer d listing (toUptr bufLen)).2.length ∧
    (wasi_fd_readdir listing m fd buf bufLen startCookie resSizePtr).1.defaultMemory
      = hostWrite
          (hostWrite m.defaultMemory (toUptr buf)
            (copyDirentsToWasiBuffer d listing (toUptr bufLen)).2)
          (toUptr resSizePtr)
          (leBytes 4 (copyDirentsToWasiBuffer d listing (toUptr bufLen)).2.length) ∧
    ((copyDirentsToWasiBuffer d listing (toUptr bufLen)).2.length : Int) ≤ bufLen ∧
    (d.iterStarted = true → ∀ c : Nat, c ≠ WASI_DIRCOOKIE_START →
      wasi_fd_readdir listing m fd buf bufLen c resSizePtr
        = wasi_fd_readdir listing m fd buf bufLen startCookie resSizePtr) := by
  have hle := copyDirents_length_le d listing (toUptr bufLen)
  have hb := (validRange_iff _ _ _).1 hbuf
  have hr := (validRange_iff _ _ _).1 hres
  obtain ⟨hl1, hl2⟩ := hlen
  have h0 : 0 ≤ bufLen := by
    by_contra hneg
    have := toUptr_of_neg bufLen (by omega) hl1
    omega
  have eb : toUptr bufLen = bufLen.toNat := toUptr_of_nonneg bufLen h0 hl2
  have hsmall : (copyDirentsToWasiBuffer d listing (toUptr bufLen)).2.length
      % 4294967296 = (copyDirentsToWasiBuffer d listing (toUptr bufLen)).2.length := by
    apply Nat.mod_eq_of_lt
    omega
  rw [fd_readdir_consistent listing m fd buf bufLen startCookie resSizePtr d hd hc hbuf hres]
  rw [hsmall]
  refine ⟨rfl, ?_, rfl, by omega, ?_⟩
  · show leValue (hostRead (hostWrite _ _ _) _ _) = _
    have h4 : (leBytes 4 (copyDirentsToWasiBuffer d listing (toUptr bufLen)).2.length).length
        = 4 := leBytes_length _ _
    have := hostRead_hostWrite_same
      (hostWrite m.defaultMemory (toUptr buf)
        (copyDirentsToWasiBuffer d listing (toUptr bufLen)).2)
      (toUptr resSizePtr)
      (leBytes 4 (copyDirentsToWasiBuffer d listing (toUptr bufLen)).2.length)
      (by rw [hostWrite_length, h4]; omega)
    rw [h4] at this
    rw [this, leValue_leBytes_four, hsmall]
  · intro hs c hne
    rw [fd_readdir_consistent listing m fd buf bufLen c resSizePtr d hd
      (Or.inr ⟨hs, hne⟩) hbuf hres, hsmall]

/-- C8 at a concrete input: a first call on descriptor 3 with a 40-byte buffer copies the
25 bytes of the first entry of the listing and stores 25 at offset 48. -/
theorem fd_readdir_stores_bytes_copied_witness :
    (wasi_fd_readdir demoListing demoDirModule 3 0 40 0 48).2 = Result.ok WASI_ESUCCESS ∧
      leValue (hostRead
        (wasi_fd_readdir demoListing demoDirModule 3 0 40 0 48).1.defaultMemory
        (toUptr 48) 4) = 25 :=
  have h := fd_readdir_stores_bytes_copied demoListing demoDirModule 3 0 40 0 48 _ rfl
    (Or.inl ⟨rfl, rfl⟩) (by decide) (by decide) (by decide)
  ⟨h.1, h.2.1.trans (by decide)⟩

/-! ## path_open -/

theorem toI32_neg_of_neg (r : Int) (h1 : -2147483648 < r) (h2 : r < 0) :
    toI32 (-1 * r) = -r := by
  unfold toI32; omega

theorem toU32_of_nonneg (r : Int) (h1 : 0 ≤ r) (h2 : r < 4294967296) :
    toU32 r = r.toNat := by
  unfold toU32; omega

/-- C9: once the path string has been read, with `r` the `int` that the file system's
`openFileDescriptor` answers (any `int` but `INT_MIN`, whose negation is not an `int`):
if `r < 0`, `path_open` returns the positive value `-r` and guest memory is unchanged;
if `r ≥ 0` (and the four bytes at `resFdPtr` are inside guest memory), it returns
`ESUCCESS` and the `U32` at `resFdPtr` is `r`.  The returned value is never negative,
and `ESUCCESS` is returned only when `r ≥ 0` and `r` has been stored at `resFdPtr`. -/
theorem path_open_maps_result
    (openFD : FileSystem → Int → List Nat → Nat → Nat → Int → Nat → Int → FileSystem × Int)
    (m : Module) (rootFd lookupFlags path pathLen : Int)
    (openFlags rightsBase rightsInheriting : Nat) (fdFlags resFdPtr : Int)
    (pathStr : List Nat) (r : Int)
    (hstr : getStringFromWasm m.defaultMemory path = some pathStr)
    (hres : (openFD m.fileSystem rootFd pathStr rightsBase rightsInheriting lookupFlags
      openFlags fdFlags).2 = r)
    (hr : -2147483648 < r ∧ r < 2147483648) :
    (r < 0 →
      (wasi_path_open openFD m rootFd lookupFlags path pathLen openFlags rightsBase
        rightsInheriting fdFlags resFdPtr).2 = Result.ok (-r) ∧
      0 < -r ∧
      (wasi_path_open openFD m rootFd lookupFlags path pathLen openFlags rightsBase
        rightsInheriting fdFlags resFdPtr).1.defaultMemory = m.defaultMemory) ∧
    (0 ≤ r → validRange m.defaultMemory (toUptr resFdPtr) 4 = true →
      (wasi_path_open openFD m rootFd lookupFlags path pathLen openFlags rightsBase
        rightsInheriting fdFlags resFdPtr).2 = Result.ok WASI_ESUCCESS ∧
      (leValue (hostRead (wasi_path_open openFD m rootFd lookupFlags path pathLen openFlags
        rightsBase rightsInheriting fdFlags resFdPtr).1.defaultMemory (toUptr resFdPtr) 4)
          : Int) = r) ∧
    (∀ v : Int,
      (wasi_path_open openFD m rootFd lookupFlags path pathLen openFlags rightsBase
        rightsInheriting fdFlags resFdPtr).2 = Result.ok v → 0 ≤ v) ∧
    ((wasi_path_open openFD m rootFd lookupFlags path pathLen openFlags rightsBase
        rightsInheriting fdFlags resFdPtr).2 = Result.ok WASI_ESUCCESS →
      0 ≤ r ∧
      (leValue (hostRead (wasi_path_open openFD m rootFd lookupFlags path pathLen openFlags
        rightsBase rightsInheriting fdFlags resFdPtr).1.defaultMemory (toUptr resFdPtr) 4)
          : Int) = r) := by
  obtain ⟨hr1, hr2⟩ := hr
  have hneg : r < 0 →
      wasi_path_open openFD m rootFd lookupFlags path pathLen openFlags rightsBase
        rightsInheriting fdFlags resFdPtr =
      ({ m with fileSystem := (openFD m.fileSystem rootFd pathStr rightsBase
          rightsInheriting lookupFlags openFlags fdFlags).1 }, Result.ok (-r)) := by
    intro h
    simp only [wasi_path_open, hstr, hres, if_pos h, toI32_neg_of_neg r hr1 h]
  have hpos : 0 ≤ r → validRange m.defaultMemory (toUptr resFdPtr) 4 = true →
      wasi_path_open openFD m rootFd lookupFlags path pathLen openFlags rightsBase
        rightsInheriting fdFlags resFdPtr =
      ({ m with
         defaultMemory := hostWrite m.defaultMemory (toUptr resFdPtr) (leBytes 4 r.toNat)
         fileSystem := (openFD m.fileSystem rootFd pathStr rightsBase
          rightsInheriting lookupFlags openFlags fdFlags).1 }, Result.ok WASI_ESUCCESS) := by
    intro h hv
    have hn : ¬ r < 0 := by omega
    simp only [wasi_path_open, hstr, hres, if_neg hn, memoryRef, hv, if_true,
      toU32_of_nonneg r h (by omega)]
  have hoob : 0 ≤ r → ¬ validRange m.defaultMemory (toUptr resFdPtr) 4 = true →
      (wasi_path_open openFD m rootFd lookupFlags path pathLen openFlags rightsBase
        rightsInheriting fdFlags resFdPtr).2 =
      Result.throw HostError.outOfBoundsMemoryAccess := by
    intro h hv
    have hn : ¬ r < 0 := by omega
    simp only [wasi_path_open, hstr, hres, if_neg hn, memoryRef, hv]
    rfl
  have hstored : 0 ≤ r → validRange m.defaultMemory (toUptr resFdPtr) 4 = true →
      (leValue (hostRead (wasi_path_open openFD m rootFd lookupFlags path pathLen openFlags
        rightsBase rightsInheriting fdFlags resFdPtr).1.defaultMemory (toUptr resFdPtr) 4)
          : Int) = r := by
    intro h hv
    rw [hpos h hv]
    show ((leValue (hostRead (hostWrite _ _ _) _ _) : Nat) : Int) = r
    have hb := (validRange_iff _ _ _).1 hv
    have h4 : (leBytes 4 r.toNat).length = 4 := leBytes_length _ _
    have := hostRead_hostWrite_same m.defaultMemory (toUptr resFdPtr) (leBytes 4 r.toNat)
      (by rw [h4]; omega)
    rw [h4] at this
    rw [this, leValue_leBytes_four]
    omega
  refine ⟨?_, ?_, ?_, ?_⟩
  · intro h
    rw [hneg h]
    exact ⟨rfl, by omega, rfl⟩
  · intro h hv
    refine ⟨?_, hstored h hv⟩
    rw [hpos h hv]
  · intro v hv
    by_cases h : r < 0
    · rw [hneg h] at hv
      have : -r = v := by simpa using hv
      omega
    · by_cases hvr : validRange m.defaultMemory (toUptr resFdPtr) 4 = true
      · rw [hpos (by omega) hvr] at hv
        have : WASI_ESUCCESS = v := by simpa using hv
        rw [← this]; decide
      · rw [hoob (by omega) hvr] at hv
        exact absurd hv (by simp)
  · intro hv
    by_cases h : r < 0
    · rw [hneg h] at hv
      have : -r = WASI_ESUCCESS := by simpa using hv
      simp only [WASI_ESUCCESS] at this
      omega
    · by_cases hvr : validRange m.defaultMemory (toUptr resFdPtr) 4 = true
      · exact ⟨by omega, hstored (by omega) hvr⟩
      · rw [hoob (by omega) hvr] at hv
        exact absurd hv (by simp)

/-- C9 at a concrete input: the file system answers 7, and 7 is stored at offset 16. -/
theorem path_open_maps_result_witness :
    (wasi_path_open demoOpenFD demoPathModule 3 0 0 13 0 0 0 0 16).2
        = Result.ok WASI_ESUCCESS ∧
      (leValue (hostRead
        (wasi_path_open demoOpenFD demoPathModule 3 0 0 13 0 0 0 0 16).1.defaultMemory
        (toUptr 16) 4) : Int) = 7 :=
  (path_open_maps_result demoOpenFD demoPathModule 3 0 0 13 0 0 0 0 16
    [46, 46, 47, 101, 116, 99, 47, 112, 97, 115, 115, 119, 100] 7 (by decide) rfl
    (by decide)).2.1 (by decide) (by decide)

/-- C1: for a descriptor `rootFd` that is in the table and is a directory, and a guest
path (the NUL-terminated string at `path`) that escapes the shared root, `path_open`
returns `ENOTCAPABLE` and leaves the module exactly as it was: nothing is written at
`resFdPtr` and the descriptor table gets no new entry. -/
theorem path_open_escape_not_capable (sharedRoot : List Nat)
    (nativeOpen : List Nat → Int → Nat → Int → NativeOpen)
    (m : Module) (rootFd lookupFlags path pathLen : Int)
    (openFlags rightsBase rightsInheriting : Nat) (fdFlags resFdPtr : Int)
    (root : FileDescriptor) (pathStr : List Nat)
    (hroot : m.fileSystem.getFileDescriptor rootFd = some root)
    (hdir : root.wasiFiletype = WASI_FILETYPE_DIRECTORY)
    (hstr : getStringFromWasm m.defaultMemory path = some pathStr)
    (hesc : escapesRoot sharedRoot root.path pathStr = true) :
    wasi_path_open (openFileDescriptor sharedRoot nativeOpen) m rootFd lookupFlags path
      pathLen openFlags rightsBase rightsInheriting fdFlags resFdPtr
      = (m, Result.ok WASI_ENOTCAPABLE) := by
  have hopen : openFileDescriptor sharedRoot nativeOpen m.fileSystem rootFd pathStr
      rightsBase rightsInheriting lookupFlags openFlags fdFlags
      = (m.fileSystem, -WASI_ENOTCAPABLE) := by
    simp [openFileDescriptor, hroot, hdir, maskPath, hesc]
  simp only [wasi_path_open, hstr, hopen]
  rw [if_pos (by decide)]
  rfl

/-- C1 at a concrete input: `../etc/passwd` below the preopened root `/`, with the shared
root `/tmp/faasm`, on a host where the native open would succeed. -/
theorem path_open_escape_not_capable_witness :
    wasi_path_open (openFileDescriptor demoSharedRoot demoNativeOpen) demoPathModule
      3 0 0 13 0 0 0 0 16 = (demoPathModule, Result.ok WASI_ENOTCAPABLE) :=
  path_open_escape_not_capable demoSharedRoot demoNativeOpen demoPathModule
    3 0 0 13 0 0 0 0 16 _ [46, 46, 47, 101, 116, 99, 47, 112, 97, 115, 115, 119, 100]
    rfl rfl (by decide) (by decide)

/-! ## __syscall_writev -/

theorem memoryRef_eq (mem : Memory) (size offset : Nat) :
    memoryRef mem size offset = if validRange mem offset size = true then some offset else none :=
  rfl

theorem memoryArrayPtr_bytes (mem : Memory) (offset n : Nat) :
    memoryArrayPtr mem 1 offset n =
      if validRange mem offset n = true then some offset else none := by
  unfold memoryArrayPtr; rw [Nat.mul_one]

theorem translateIovecs_none_of_bad (mem : Memory) (iov : Int) : ∀ (r i : Nat),
    (∃ j : Nat, j < r ∧
      (validRange mem (toU32 (iov + ((i + j : Nat) : Int) * 8)) 4 = false ∨
       validRange mem (toU32 (iov + ((i + j : Nat) : Int) * 8 + 4)) 4 = false ∨
       validRange mem
        (leValue (hostRead mem (toU32 (iov + ((i + j : Nat) : Int) * 8)) 4))
        (leValue (hostRead mem (toU32 (iov + ((i + j : Nat) : Int) * 8 + 4)) 4)) = false)) →
    translateIovecs mem iov i r = none := by
  intro r
  induction r with
  | zero => rintro i ⟨j, hj, -⟩; omega
  | succ r ih =>
    rintro i ⟨j, hj, hbad⟩
    unfold translateIovecs
    simp only [memoryRef_eq, memoryArrayPtr_bytes]
    by_cases h1 : validRange mem (toU32 (iov + (i : Int) * 8)) 4 = true
    · by_cases h2 : validRange mem (toU32 (iov + (i : Int) * 8 + 4)) 4 = true
      · by_cases h3 : validRange mem
            (leValue (hostRead mem (toU32 (iov + (i : Int) * 8)) 4))
            (leValue (hostRead mem (toU32 (iov + (i : Int) * 8 + 4)) 4)) = true
        · have hrest : translateIovecs mem iov (i + 1) r = none := by
            cases j with
            | zero =>
              simp only [Nat.add_zero] at hbad
              rcases hbad with hb | hb | hb
              · rw [h1] at hb; exact absurd hb (by simp)
              · rw [h2] at hb; exact absurd hb (by simp)
              · rw [h3] at hb; exact absurd hb (by simp)
            | succ j =>
              apply ih (i + 1)
              refine ⟨j, by omega, ?_⟩
              have e : i + 1 + j = i + (j + 1) := by omega
              rw [e]
              exact hbad
          simp only [h1, h2, h3, if_true, hrest]
        · simp only [h1, h2, h3, if_true]; rfl
      · simp only [h1, h2, if_true]; rfl
    · simp only [h1]; rfl

theorem toU32_add_mul (iov : Int) (n : Nat) (h : toU32 iov + 8 * n < 4294967296) :
    toU32 (iov + (n : Int) * 8) = toU32 iov + 8 * n := by
  unfold toU32 at *; omega

theorem toU32_add_mul_four (iov : Int) (n : Nat) (h : toU32 iov + 8 * n + 4 < 4294967296) :
    toU32 (iov + (n : Int) * 8 + 4) = toU32 iov + 8 * n + 4 := by
  unfold toU32 at *; omega

theorem hostRead_length (mem : Memory) (p n : Nat) (h : p + n ≤ mem.length) :
    (hostRead mem p n).length = n := by
  unfold hostRead
  rw [List.length_take, List.length_drop]
  omega

theorem translateIovecs_in_bounds (mem : Memory) (iov : Int)
    (hmem : mem.length ≤ 4294967296) : ∀ (r i : Nat),
    (∀ j : Nat, j < r →
      toU32 iov + 8 * (i + j) + 8 ≤ mem.length ∧
      leValue (hostRead mem (toU32 iov + 8 * (i + j)) 4)
        + leValue (hostRead mem (toU32 iov + 8 * (i + j) + 4) 4) ≤ mem.length) →
    translateIovecs mem iov i r =
      some ((List.range' i r).map (fun n =>
        hostRead mem (leValue (hostRead mem (toU32 iov + 8 * n) 4))
          (leValue (hostRead mem (toU32 iov + 8 * n + 4) 4)))) := by
  intro r
  induction r with
  | zero => intro i _; rfl
  | succ r ih =>
    intro i h
    have h0 := h 0 (by omega)
    simp only [Nat.add_zero] at h0
    have e1 : toU32 (iov + (i : Int) * 8) = toU32 iov + 8 * i :=
      toU32_add_mul iov i (by omega)
    have e2 : toU32 (iov + (i : Int) * 8 + 4) = toU32 iov + 8 * i + 4 :=
      toU32_add_mul_four iov i (by omega)
    have v1 : validRange mem (toU32 iov + 8 * i) 4 = true := by
      rw [validRange_iff]; omega
    have v2 : validRange mem (toU32 iov + 8 * i + 4) 4 = true := by
      rw [validRange_iff]; omega
    have v3 : validRange mem (leValue (hostRead mem (toU32 iov + 8 * i) 4))
        (leValue (hostRead mem (toU32 iov + 8 * i + 4) 4)) = true := by
      rw [validRange_iff]; omega
    have hrest := ih (i + 1) (fun j hj => by
      have := h (j + 1) (by omega)
      have e : i + 1 + j = i + (j + 1) := by omega
      rw [e]; exact this)
    unfold translateIovecs
    simp only [memoryRef_eq, memoryArrayPtr_bytes, e1, e2, v1, v2, v3, if_true, hrest]
    rfl

theorem toI32_of_small (n : Nat) (h : n ≤ MAX_RW_COUNT) : toI32 (n : Int) = (n : Int) := by
  unfold MAX_RW_COUNT at h
  unfold toI32; omega

theorem slices_flatten_length (mem : Memory) (iov : Int) (k : Nat)
    (h : ∀ i : Nat, i < k → iovecBase mem iov i + iovecLen mem iov i ≤ mem.length) :
    ((List.range k).map
        (fun i => hostRead mem (iovecBase mem iov i) (iovecLen mem iov i))).flatten.length
      = ((List.range k).map (fun i => iovecLen mem iov i)).sum := by
  rw [List.length_flatten, List.map_map]
  congr 1
  apply List.map_congr_left
  intro i hi
  exact hostRead_length mem _ _ (h i (List.mem_range.1 hi))

/-- C5: for a count `k ≥ 0` and a memory (of at most 4 GiB) in which the `k` iovec
entries at `iov` and the ranges they name are in bounds, with `base_i` and `len_i` the
little-endian `U32`s at `iov + 8 i` and `iov + 8 i + 4`: the translation produces the
`k` slices `M[base_i, base_i + len_i)` in index order; the native write is handed their
concatenation, of which it writes a leading part, and the handler returns the number of
bytes written; when the native write is complete, exactly the concatenation is written
and the value returned is the sum of the `len_i`.  Memory is not changed. -/
theorem writev_gathers_slices_in_order (s : SysState) (fd iov iovcnt : Int) (k a : Nat)
    (hcnt : iovcnt = (k : Int)) (hk : k < 2147483648)
    (hmem : s.memory.length ≤ 4294967296)
    (hin : ∀ i : Nat, i < k →
      toU32 iov + 8 * i + 8 ≤ s.memory.length ∧
      iovecBase s.memory iov i + iovecLen s.memory iov i ≤ s.memory.length) :
    translateIovecs s.memory iov 0 (toU32 iovcnt) =
      some ((List.range k).map
        (fun i => hostRead s.memory (iovecBase s.memory iov i) (iovecLen s.memory iov i))) ∧
    ((List.range k).map
        (fun i => hostRead s.memory (iovecBase s.memory iov i)
          (iovecLen s.memory iov i))).flatten.length
      = ((List.range k).map (fun i => iovecLen s.memory iov i)).sum ∧
    __syscall_writev (some a) s fd iov iovcnt =
      ({ memory := s.memory
         written := s.written ++
          (((List.range k).map
            (fun i => hostRead s.memory (iovecBase s.memory iov i)
              (iovecLen s.memory iov i))).flatten.take
            (min a (min ((List.range k).map (fun i => iovecLen s.memory iov i)).sum
              MAX_RW_COUNT)))
         trace := s.trace ++ [writevTrace fd iov iovcnt] },
        Result.ok ((min a (min ((List.range k).map (fun i => iovecLen s.memory iov i)).sum
          MAX_RW_COUNT) : Nat) : Int)) ∧
    (((List.range k).map (fun i => iovecLen s.memory iov i)).sum ≤ min a MAX_RW_COUNT →
      __syscall_writev (some a) s fd iov iovcnt =
        ({ memory := s.memory
           written := s.written ++
            ((List.range k).map
              (fun i => hostRead s.memory (iovecBase s.memory iov i)
                (iovecLen s.memory iov i))).flatten
           trace := s.trace ++ [writevTrace fd iov iovcnt] },
          Result.ok ((((List.range k).map (fun i => iovecLen s.memory iov i)).sum : Nat)
            : Int))) := by
  have hk32 : toU32 iovcnt = k := by rw [hcnt]; unfold toU32; omega
  have htr : translateIovecs s.memory iov 0 (toU32 iovcnt) =
      some ((List.range k).map
        (fun i => hostRead s.memory (iovecBase s.memory iov i) (iovecLen s.memory iov i))) := by
    rw [hk32, List.range_eq_range']
    apply translateIovecs_in_bounds s.memory iov hmem k 0
    intro j hj
    have := hin j hj
    simp only [Nat.zero_add]
    exact this
  have hlen := slices_flatten_length s.memory iov k (fun i hi => (hin i hi).2)
  have hgen : __syscall_writev (some a) s fd iov iovcnt =
      ({ memory := s.memory
         written := s.written ++
          (((List.range k).map
            (fun i => hostRead s.memory (iovecBase s.memory iov i)
              (iovecLen s.memory iov i))).flatten.take
            (min a (min ((List.range k).map (fun i => iovecLen s.memory iov i)).sum
              MAX_RW_COUNT)))
         trace := s.trace ++ [writevTrace fd iov iovcnt] },
        Result.ok ((min a (min ((List.range k).map (fun i => iovecLen s.memory iov i)).sum
          MAX_RW_COUNT) : Nat) : Int)) := by
    have hnn : ¬ iovcnt < 0 := by rw [hcnt]; omega
    simp only [__syscall_writev, if_neg hnn, htr, nativeWritev, hlen]
    rw [toI32_of_small _ (by omega)]
  refine ⟨htr, hlen, hgen, ?_⟩
  intro hcomplete
  rw [hgen]
  have e : min a (min ((List.range k).map (fun i => iovecLen s.memory iov i)).sum MAX_RW_COUNT)
      = ((List.range k).map (fun i => iovecLen s.memory iov i)).sum := by
    omega
  rw [e, ← hlen, List.take_length]

/-- C5 at a concrete input: two entries, the second slice following the first; the host
takes everything, the five bytes are written in order and 5 is returned. -/
theorem writev_gathers_slices_in_order_witness :
    __syscall_writev (some 100) demoSysState 1 0 2 =
      ({ memory := demoSysState.memory
         written := [62, 104, 105, 33, 10, 0]
         trace := [writevTrace 1 0 2] }, Result.ok 5) :=
  ((writev_gathers_slices_in_order demoSysState 1 0 2 2 100 rfl (by decide) (by decide)
    (by decide)).2.2.2 (by decide)).trans (by decide)

/-- C6: for a count `iovcnt = k >= 0`, if for some index `i < k` one of the two `U32`
reads of entry `i`, or the range `(base_i, len_i)` the entry names, is rejected by the
bounds check, the handler raises the out-of-bounds exception and nothing has been
written: the written bytes and the memory are as before, whatever the native write would
have done and whatever slices precede index `i`. -/
theorem writev_aborts_on_out_of_bounds (accept : Option Nat) (s : SysState)
    (fd iov iovcnt : Int) (k i : Nat) (hcnt : iovcnt = (k : Int)) (hk : k < 2147483648)
    (hi : i < k)
    (hbad : validRange s.memory (toU32 (iov + (i : Int) * 8)) 4 = false ∨
      validRange s.memory (toU32 (iov + (i : Int) * 8 + 4)) 4 = false ∨
      validRange s.memory
        (leValue (hostRead s.memory (toU32 (iov + (i : Int) * 8)) 4))
        (leValue (hostRead s.memory (toU32 (iov + (i : Int) * 8 + 4)) 4)) = false) :
    (__syscall_writev accept s fd iov iovcnt).2
      = Result.throw HostError.outOfBoundsMemoryAccess ∧
    (__syscall_writev accept s fd iov iovcnt).1.written = s.written ∧
    (__syscall_writev accept s fd iov iovcnt).1.memory = s.memory := by
  have hk32 : toU32 iovcnt = k := by rw [hcnt]; unfold toU32; omega
  have hnn : ¬ iovcnt < 0 := by rw [hcnt]; omega
  have htr : translateIovecs s.memory iov 0 (toU32 iovcnt) = none := by
    apply translateIovecs_none_of_bad
    refine ⟨i, by rw [hk32]; exact hi, ?_⟩
    simp only [Nat.zero_add]
    exact hbad
  simp [__syscall_writev, if_neg hnn, htr]

/-- C6 at a concrete input: the first entry is valid, the second names offset 200 of a
21-byte memory; the call fails and the written bytes are still `[62]`. -/
theorem writev_aborts_on_out_of_bounds_witness :
    (__syscall_writev (some 100) demoBadSysState 1 0 2).2
        = Result.throw HostError.outOfBoundsMemoryAccess ∧
      (__syscall_writev (some 100) demoBadSysState 1 0 2).1.written = [62] :=
  have h := writev_aborts_on_out_of_bounds (some 100) demoBadSysState 1 0 2 2 1 rfl
    (by decide) (by decide) (Or.inr (Or.inr (by decide)))
  ⟨h.1, h.2.1⟩

/-! ## No-ops and unsupported handlers -/

/-- C16: each unsupported handler (`poll`, `tempnam`, `lockf` of io.cpp; `__syscall_poll`,
`__syscall_exit`, `__syscall_exit_group`, `__syscall_futex` of syscalls.cpp) ends, for
every argument tuple, with the "called unimplemented intrinsic" exception: no value is
returned, and the module (memory, descriptor table, capture buffer), respectively the
memory and the written bytes of the syscall state, are as before. -/
theorem unsupported_handlers_throw (m : Module) (s : SysState) (a b c d e f : Int) :
    poll m a b c = (m, Result.throw HostError.calledUnimplementedIntrinsic) ∧
    tempnam m a b = (m, Result.throw HostError.calledUnimplementedIntrinsic) ∧
    lockf m a b c = (m, Result.throw HostError.calledUnimplementedIntrinsic) ∧
    ((__syscall_poll s a b c).2 = Result.throw HostError.calledUnimplementedIntrinsic ∧
      (__syscall_poll s a b c).1.memory = s.memory ∧
      (__syscall_poll s a b c).1.written = s.written) ∧
    ((__syscall_exit s a).2 = Result.throw HostError.calledUnimplementedIntrinsic ∧
      (__syscall_exit s a).1.memory = s.memory ∧
      (__syscall_exit s a).1.written = s.written) ∧
    ((__syscall_exit_group s a).2 = Result.throw HostError.calledUnimplementedIntrinsic ∧
      (__syscall_exit_group s a).1.memory = s.memory ∧
      (__syscall_exit_group s a).1.written = s.written) ∧
    ((__syscall_futex s a b c d e f).2 = Result.throw HostError.calledUnimplementedIntrinsic ∧
      (__syscall_futex s a b c d e f).1.memory = s.memory ∧
      (__syscall_futex s a b c d e f).1.written = s.written) :=
  ⟨rfl, rfl, rfl, ⟨rfl, rfl, rfl⟩, ⟨rfl, rfl, rfl⟩, ⟨rfl, rfl, rfl⟩, ⟨rfl, rfl, rfl⟩⟩

/-- C17: for every argument tuple, `ioctl`, `fd_advise` and `fd_close` return 0 and leave
the module (guest memory, descriptor table with every descriptor's state, capture
buffer) exactly as it was; in particular `fd_close` on a preopened descriptor that is in
the table leaves it there. -/
theorem noop_handlers_return_success (m : Module) (fd a b c offset len advice : Int) :
    ioctl m a b c = (m, Result.ok 0) ∧
    wasi_fd_advise m fd offset len advice = (m, Result.ok 0) ∧
    wasi_fd_close m fd = (m, Result.ok 0) ∧
    (∀ d : FileDescriptor, m.fileSystem.getFileDescriptor fd = some d →
      d.wasiPreopenType = WASI_PREOPENTYPE_DIR →
      (wasi_fd_close m fd).1.fileSystem.getFileDescriptor fd = some d) :=
  ⟨rfl, rfl, rfl, fun _ h _ => h⟩

/-! ## fd_read -/

/-- C11: on the demo module, with the iovec array validated and the native `readv`
failing (result -1), `fd_read` returns `ESUCCESS`, and the four bytes stored at
`resBytesRead` (offset 24) are those of -1. -/
theorem fd_read_reports_success_on_failure :
    (nativeReadv none demoIoModule.defaultMemory [(16, 2), (18, 3)]).2 = -1 ∧
      (wasi_fd_read none demoIoModule 4 0 2 24).2 = Result.ok WASI_ESUCCESS ∧
      hostRead (wasi_fd_read none demoIoModule 4 0 2 24).1.defaultMemory 24 4
        = [255, 255, 255, 255] ∧
      toI32 (leValue (hostRead (wasi_fd_read none demoIoModule 4 0 2 24).1.defaultMemory 24 4))
        = -1 := by
  refine ⟨rfl, by decide, by decide, by decide⟩

/-! ## fd_write -/

/-- The module as `fd_write` leaves it before the count is stored: the descriptor is the
one `write` gave back, and the contents are captured when `fd ≤ 2` and capture is on. -/
theorem fd_write_unfold (captureStdout : String)
    (write : FileDescriptor → List (List Nat) → FileDescriptor × Int)
    (m : Module) (fd iovecsPtr iovecCount resBytesWrittenPtr : Int)
    (d : FileDescriptor) (iovs : List (Nat × Nat))
    (hd : m.fileSystem.getFileDescriptor fd = some d)
    (hiov : wasiIovecsToNativeIovecs m.defaultMemory iovecsPtr iovecCount = some iovs) :
    wasi_fd_write captureStdout write m fd iovecsPtr iovecCount resBytesWrittenPtr =
      if (write d (iovecContents m.defaultMemory iovs)).2 < 0 then
        ({ m with fileSystem := (m.fileSystem.setFileDescriptor fd
            (write d (iovecContents m.defaultMemory iovs)).1) },
          Result.ok ((write d (iovecContents m.defaultMemory iovs)).1.wasiErrno : Int))
      else if validRange m.defaultMemory (toUptr resBytesWrittenPtr) 4 = true then
        ({ defaultMemory :=
            (hostWrite m.defaultMemory (toUptr resBytesWrittenPtr)
              (leBytes 4 (toU32 (write d (iovecContents m.defaultMemory iovs)).2)))
           fileSystem := (m.fileSystem.setFileDescriptor fd
            (write d (iovecContents m.defaultMemory iovs)).1)
           stdoutCapture :=
            (if fd ≤ 2 ∧ captureStdout = "on" then
              m.stdoutCapture ++ (iovecContents m.defaultMemory iovs).flatten
            else m.stdoutCapture) },
          Result.ok WASI_ESUCCESS)
      else
        ({ defaultMemory := m.defaultMemory
           fileSystem := (m.fileSystem.setFileDescriptor fd
            (write d (iovecContents m.defaultMemory iovs)).1)
           stdoutCapture :=
            (if fd ≤ 2 ∧ captureStdout = "on" then
              m.stdoutCapture ++ (iovecContents m.defaultMemory iovs).flatten
            else m.stdoutCapture) },
          Result.throw HostError.outOfBoundsMemoryAccess) := by
  unfold wasi_fd_write
  simp only [hd, hiov]
  by_cases hneg : (write d (iovecContents m.defaultMemory iovs)).2 < 0
  · simp only [hneg, if_true]
  · simp only [hneg, if_false]
    by_cases hcap : fd ≤ 2 ∧ captureStdout = "on"
    · obtain ⟨h1, h2⟩ := hcap
      by_cases hv : validRange m.defaultMemory (toUptr resBytesWrittenPtr) 4 = true
      · simp [h1, h2, hv, memoryRef, Module.captureStdout]
      · simp [h1, h2, hv, memoryRef, Module.captureStdout]
    · have hc : (decide (fd ≤ 2) && captureStdout == "on") = false := by
        rw [Bool.eq_false_iff]
        intro h
        apply hcap
        simpa using h
      by_cases hv : validRange m.defaultMemory (toUptr resBytesWrittenPtr) 4 = true
      · simp [hc, hcap, hv, memoryRef]
      · simp [hc, hcap, hv, memoryRef]

/-- C12: for a descriptor that is in the table and an iovec array that translates, with
`n` the count the descriptor's `write` returns: if `n < 0`, `fd_write` returns the
errno recorded on the descriptor, and guest memory (so also `resBytesWrittenPtr`) and
the capture buffer are unchanged; if `n ≥ 0` (and the four bytes at
`resBytesWrittenPtr` are inside guest memory), it returns `ESUCCESS` and the 32-bit
value stored at `resBytesWrittenPtr` is `n` (for every `n` below `2^31`; in general its
low 32 bits). -/
theorem fd_write_maps_count (captureStdout : String)
    (write : FileDescriptor → List (List Nat) → FileDescriptor × Int)
    (m : Module) (fd iovecsPtr iovecCount resBytesWrittenPtr : Int)
    (d : FileDescriptor) (iovs : List (Nat × Nat))
    (hd : m.fileSystem.getFileDescriptor fd = some d)
    (hiov : wasiIovecsToNativeIovecs m.defaultMemory iovecsPtr iovecCount = some iovs) :
    ((write d (iovecContents m.defaultMemory iovs)).2 < 0 →
      (wasi_fd_write captureStdout write m fd iovecsPtr iovecCount resBytesWrittenPtr).2
        = Result.ok ((write d (iovecContents m.defaultMemory iovs)).1.wasiErrno : Int) ∧
      (wasi_fd_write captureStdout write m fd iovecsPtr iovecCount
        resBytesWrittenPtr).1.defaultMemory = m.defaultMemory ∧
      (wasi_fd_write captureStdout write m fd iovecsPtr iovecCount
        resBytesWrittenPtr).1.stdoutCapture = m.stdoutCapture) ∧
    (0 ≤ (write d (iovecContents m.defaultMemory iovs)).2 →
      validRange m.defaultMemory (toUptr resBytesWrittenPtr) 4 = true →
      (wasi_fd_write captureStdout write m fd iovecsPtr iovecCount resBytesWrittenPtr).2
        = Result.ok WASI_ESUCCESS ∧
      leValue (hostRead (wasi_fd_write captureStdout write m fd iovecsPtr iovecCount
        resBytesWrittenPtr).1.defaultMemory (toUptr resBytesWrittenPtr) 4)
        = toU32 (write d (iovecContents m.defaultMemory iovs)).2 ∧
      ((write d (iovecContents m.defaultMemory iovs)).2 < 2147483648 →
        (leValue (hostRead (wasi_fd_write captureStdout write m fd iovecsPtr iovecCount
          resBytesWrittenPtr).1.defaultMemory (toUptr resBytesWrittenPtr) 4) : Int)
          = (write d (iovecContents m.defaultMemory iovs)).2)) := by
  rw [fd_write_unfold captureStdout write m fd iovecsPtr iovecCount resBytesWrittenPtr d iovs
    hd hiov]
  refine ⟨?_, ?_⟩
  · intro hneg
    rw [if_pos hneg]
    exact ⟨rfl, rfl, rfl⟩
  · intro hpos hv
    have hn : ¬ (write d (iovecContents m.defaultMemory iovs)).2 < 0 := by omega
    rw [if_neg hn, if_pos hv]
    have hb := (validRange_iff _ _ _).1 hv
    have h4 : (leBytes 4 (toU32 (write d (iovecContents m.defaultMemory iovs)).2)).length = 4 :=
      leBytes_length _ _
    have hread := hostRead_hostWrite_same m.defaultMemory (toUptr resBytesWrittenPtr)
      (leBytes 4 (toU32 (write d (iovecContents m.defaultMemory iovs)).2))
      (by rw [h4]; omega)
    rw [h4] at hread
    have hval : leValue (hostRead (hostWrite m.defaultMemory (toUptr resBytesWrittenPtr)
        (leBytes 4 (toU32 (write d (iovecContents m.defaultMemory iovs)).2)))
        (toUptr resBytesWrittenPtr) 4)
        = toU32 (write d (iovecContents m.defaultMemory iovs)).2 := by
      rw [hread, leValue_leBytes_four]
      apply Nat.mod_eq_of_lt
      unfold toU32; omega
    refine ⟨rfl, hval, ?_⟩
    intro hsmall
    show ((leValue (hostRead (hostWrite _ _ _) _ _) : Nat) : Int) = _
    rw [hval, toU32_of_nonneg _ hpos (by omega)]
    omega

/-- C12 at concrete inputs: on descriptor 4 of the demo module a failing `write` gives the
recorded errno 29 with the result bytes untouched, and a `write` that takes the five
bytes gives `ESUCCESS` with 5 stored at offset 24. -/
theorem fd_write_maps_count_witness :
    ((wasi_fd_write "on" demoWriteFails demoIoModule 4 0 2 24).2 = Result.ok 29 ∧
      (wasi_fd_write "on" demoWriteFails demoIoModule 4 0 2 24).1.defaultMemory
        = demoIoModule.defaultMemory) ∧
    ((wasi_fd_write "on" demoWriteAll demoIoModule 4 0 2 24).2 = Result.ok WASI_ESUCCESS ∧
      leValue (hostRead (wasi_fd_write "on" demoWriteAll demoIoModule 4 0 2 24).1.defaultMemory
        (toUptr 24) 4) = 5) :=
  have h1 := (fd_write_maps_count "on" demoWriteFails demoIoModule 4 0 2 24 _
    [(16, 2), (18, 3)] rfl (by decide)).1 (by decide)
  have h2 := (fd_write_maps_count "on" demoWriteAll demoIoModule 4 0 2 24 _
    [(16, 2), (18, 3)] rfl (by decide)).2 (by decide) (by decide)
  ⟨⟨h1.1, h1.2.1⟩, ⟨h2.1, h2.2.1.trans (by decide)⟩⟩

theorem getFileDescriptor_mem (fs : FileSystem) (fd : Int) (d : FileDescriptor)
    (h : fs.getFileDescriptor fd = some d) : (fd, d) ∈ fs.fileDescriptors := by
  unfold FileSystem.getFileDescriptor at h
  cases hf : fs.fileDescriptors.find? (fun e => e.1 == fd) with
  | none => rw [hf] at h; simp at h
  | some e =>
    rw [hf] at h
    have he : e.2 = d := by simpa using h
    have hk : e.1 = fd := by simpa using List.find?_some hf
    have hmem := List.mem_of_find?_eq_some hf
    rw [← he, ← hk]
    exact hmem

theorem fd_write_capture_frame (captureStdout : String)
    (write : FileDescriptor → List (List Nat) → FileDescriptor × Int)
    (m : Module) (fd iovecsPtr iovecCount resBytesWrittenPtr : Int)
    (h : 3 ≤ fd ∨ captureStdout ≠ "on") :
    (wasi_fd_write captureStdout write m fd iovecsPtr iovecCount
      resBytesWrittenPtr).1.stdoutCapture = m.stdoutCapture := by
  have hc : (decide (fd ≤ 2) && captureStdout == "on") = false := by
    rw [Bool.eq_false_iff]
    intro hh
    have : fd ≤ 2 ∧ captureStdout = "on" := by simpa using hh
    rcases h with h | h
    · omega
    · exact h this.2
  unfold wasi_fd_write
  cases hd : m.fileSystem.getFileDescriptor fd with
  | none => rfl
  | some d =>
    cases hiov : wasiIovecsToNativeIovecs m.defaultMemory iovecsPtr iovecCount with
    | none => rfl
    | some iovs =>
      simp only [hc]
      by_cases hneg : (write d (iovecContents m.defaultMemory iovs)).2 < 0
      · simp only [hneg, if_true]
      · simp only [hneg, if_false]
        by_cases hv : validRange m.defaultMemory (toUptr resBytesWrittenPtr) 4 = true
        · simp [memoryRef, hv]
        · simp [memoryRef, hv]

/-- C13: for a table without negative ids, a descriptor `fd` in it and an iovec array
that translates, a successful `fd_write` (the descriptor's `write` returns a count
`≥ 0` and the four bytes at `resBytesWrittenPtr` are inside guest memory) leaves the
capture buffer extended by the contents of the iovecs when `captureStdout` is `"on"`
and `fd` is 0, 1 or 2, and unchanged otherwise.  Whatever the outcome of the call, the
capture buffer is unchanged for every `fd ≥ 3` and for every `fd` when `captureStdout`
is not `"on"`. -/
theorem fd_write_captures_std_only (captureStdout : String)
    (write : FileDescriptor → List (List Nat) → FileDescriptor × Int)
    (m : Module) (fd iovecsPtr iovecCount resBytesWrittenPtr : Int)
    (d : FileDescriptor) (iovs : List (Nat × Nat))
    (hids : ∀ e ∈ m.fileSystem.fileDescriptors, 0 ≤ e.1)
    (hd : m.fileSystem.getFileDescriptor fd = some d)
    (hiov : wasiIovecsToNativeIovecs m.defaultMemory iovecsPtr iovecCount = some iovs)
    (hn : 0 ≤ (write d (iovecContents m.defaultMemory iovs)).2)
    (hv : validRange m.defaultMemory (toUptr resBytesWrittenPtr) 4 = true) :
    (wasi_fd_write captureStdout write m fd iovecsPtr iovecCount resBytesWrittenPtr).2
      = Result.ok WASI_ESUCCESS ∧
    (wasi_fd_write captureStdout write m fd iovecsPtr iovecCount
      resBytesWrittenPtr).1.stdoutCapture =
      (if captureStdout = "on" ∧ (fd = 0 ∨ fd = 1 ∨ fd = 2) then
        m.stdoutCapture ++ (iovecContents m.defaultMemory iovs).flatten
      else m.stdoutCapture) ∧
    (∀ (m1 : Module) (fd1 iovecsPtr1 iovecCount1 resPtr1 : Int),
      3 ≤ fd1 ∨ captureStdout ≠ "on" →
      (wasi_fd_write captureStdout write m1 fd1 iovecsPtr1 iovecCount1
        resPtr1).1.stdoutCapture = m1.stdoutCapture) := by
  have h0 : 0 ≤ fd := hids (fd, d) (getFileDescriptor_mem _ _ _ hd)
  have hnn : ¬ (write d (iovecContents m.defaultMemory iovs)).2 < 0 := by omega
  refine ⟨?_, ?_, ?_⟩
  · rw [fd_write_unfold captureStdout write m fd iovecsPtr iovecCount resBytesWrittenPtr d
      iovs hd hiov, if_neg hnn, if_pos hv]
  · rw [fd_write_unfold captureStdout write m fd iovecsPtr iovecCount resBytesWrittenPtr d
      iovs hd hiov, if_neg hnn, if_pos hv]
    show (if fd ≤ 2 ∧ captureStdout = "on" then _ else _) = _
    by_cases hc : captureStdout = "on" ∧ (fd = 0 ∨ fd = 1 ∨ fd = 2)
    · rw [if_pos hc, if_pos ⟨by omega, hc.1⟩]
    · rw [if_neg hc, if_neg]
      rintro ⟨h2, hon⟩
      apply hc
      exact ⟨hon, by omega⟩
  · intro m1 fd1 iovecsPtr1 iovecCount1 resPtr1 h
    exact fd_write_capture_frame captureStdout write m1 fd1 iovecsPtr1 iovecCount1 resPtr1 h

/-- C13 at concrete inputs: with capture on, a write of the five bytes to descriptor 1
extends the capture buffer `[62]` by them, and the same write to descriptor 4 leaves it
as it was. -/
theorem fd_write_captures_std_only_witness :
    (wasi_fd_write "on" demoWriteAll demoIoModule 1 0 2 24).1.stdoutCapture
        = [62, 104, 105, 33, 10, 0] ∧
      (wasi_fd_write "on" demoWriteAll demoIoModule 4 0 2 24).1.stdoutCapture = [62] :=
  have h1 := (fd_write_captures_std_only "on" demoWriteAll demoIoModule 1 0 2 24 _
    [(16, 2), (18, 3)] (by decide) rfl (by decide) (by decide) (by decide)).2.1
  have h4 := (fd_write_captures_std_only "on" demoWriteAll demoIoModule 4 0 2 24 _
    [(16, 2), (18, 3)] (by decide) rfl (by decide) (by decide) (by decide)).2.1
  ⟨h1.trans (by decide), h4.trans (by decide)⟩

/-! ## path_create_directory, path_unlink_file, path_rename -/

/-- C14: with the path strings read and the descriptors in the table, each of
`path_create_directory`, `path_unlink_file` and `path_rename` returns a value (it raises
no exception): `ESUCCESS` when the descriptor operation (`mkdir`, `unlink`, `rename`)
reports success, and otherwise the errno recorded on the descriptor the operation was
invoked on, which for `path_rename` is the descriptor of the old path, the operation
being given the new path resolved against `newFd`.  When a failed operation records a
nonzero errno, `ESUCCESS` is returned exactly when the operation succeeded. -/
theorem path_ops_return_recorded_errno
    (mkdir unlink : FileDescriptor → List Nat → FileDescriptor × Bool)
    (absPath : FileDescriptor → List Nat → List Nat)
    (rename : FileDescriptor → List Nat → List Nat → FileDescriptor × Bool)
    (m : Module) (fd path pathLen newFd newPath newPathLen : Int)
    (pathStr newPathStr : List Nat) (d dNew : FileDescriptor)
    (hstr : getStringFromWasm m.defaultMemory path = some pathStr)
    (hnew : getStringFromWasm m.defaultMemory newPath = some newPathStr)
    (hd : m.fileSystem.getFileDescriptor fd = some d)
    (hdNew : m.fileSystem.getFileDescriptor newFd = some dNew) :
    ((wasi_path_create_directory mkdir m fd path pathLen).2 =
        (if (mkdir d pathStr).2 = true then Result.ok WASI_ESUCCESS
          else Result.ok ((mkdir d pathStr).1.wasiErrno : Int)) ∧
      (((mkdir d pathStr).2 = false → (mkdir d pathStr).1.wasiErrno ≠ 0) →
        ((wasi_path_create_directory mkdir m fd path pathLen).2 = Result.ok WASI_ESUCCESS
          ↔ (mkdir d pathStr).2 = true))) ∧
    ((wasi_path_unlink_file unlink m fd path pathLen).2 =
        (if (unlink d pathStr).2 = true then Result.ok WASI_ESUCCESS
          else Result.ok ((unlink d pathStr).1.wasiErrno : Int)) ∧
      (((unlink d pathStr).2 = false → (unlink d pathStr).1.wasiErrno ≠ 0) →
        ((wasi_path_unlink_file unlink m fd path pathLen).2 = Result.ok WASI_ESUCCESS
          ↔ (unlink d pathStr).2 = true))) ∧
    ((wasi_path_rename absPath rename m fd path pathLen newFd newPath newPathLen).2 =
        (if (rename d (absPath dNew newPathStr) pathStr).2 = true then Result.ok WASI_ESUCCESS
          else Result.ok ((rename d (absPath dNew newPathStr) pathStr).1.wasiErrno : Int)) ∧
      (((rename d (absPath dNew newPathStr) pathStr).2 = false →
          (rename d (absPath dNew newPathStr) pathStr).1.wasiErrno ≠ 0) →
        ((wasi_path_rename absPath rename m fd path pathLen newFd newPath newPathLen).2
            = Result.ok WASI_ESUCCESS
          ↔ (rename d (absPath dNew newPathStr) pathStr).2 = true))) := by
  have key : ∀ (ok : Bool) (e : Nat) (r : Result Int),
      r = (if ok = true then Result.ok WASI_ESUCCESS else Result.ok (e : Int)) →
      (ok = false → e ≠ 0) → (r = Result.ok WASI_ESUCCESS ↔ ok = true) := by
    intro ok e r hr hne
    cases ok with
    | true => simp [hr]
    | false =>
      have := hne rfl
      simp only [hr, WASI_ESUCCESS]
      constructor
      · intro h
        have : (e : Int) = 0 := by simpa using h
        omega
      · intro h; cases h
  have h1 : (wasi_path_create_directory mkdir m fd path pathLen).2 =
      (if (mkdir d pathStr).2 = true then Result.ok WASI_ESUCCESS
        else Result.ok ((mkdir d pathStr).1.wasiErrno : Int)) := by
    unfold wasi_path_create_directory
    simp only [hstr, hd]
    cases (mkdir d pathStr).2 <;> rfl
  have h2 : (wasi_path_unlink_file unlink m fd path pathLen).2 =
      (if (unlink d pathStr).2 = true then Result.ok WASI_ESUCCESS
        else Result.ok ((unlink d pathStr).1.wasiErrno : Int)) := by
    unfold wasi_path_unlink_file
    simp only [hstr, hd]
    cases (unlink d pathStr).2 <;> rfl
  have h3 : (wasi_path_rename absPath rename m fd path pathLen newFd newPath newPathLen).2 =
      (if (rename d (absPath dNew newPathStr) pathStr).2 = true then Result.ok WASI_ESUCCESS
        else Result.ok ((rename d (absPath dNew newPathStr) pathStr).1.wasiErrno : Int)) := by
    unfold wasi_path_rename
    simp only [hstr, hnew, hd, hdNew]
    cases (rename d (absPath dNew newPathStr) pathStr).2 <;> rfl
  exact ⟨⟨h1, key _ _ _ h1⟩, ⟨h2, key _ _ _ h2⟩, ⟨h3, key _ _ _ h3⟩⟩

/-- C14 at a concrete input: the three operations fail with errno 44 recorded on
descriptor 3, and each handler returns 44; a `mkdir` that succeeds gives `ESUCCESS`. -/
theorem path_ops_return_recorded_errno_witness :
    (wasi_path_create_directory demoOpFails demoPathModule 3 0 13).2 = Result.ok 44 ∧
      (wasi_path_unlink_file demoOpFails demoPathModule 3 0 13).2 = Result.ok 44 ∧
      (wasi_path_rename demoAbsPath demoRenameFails demoPathModule 3 0 13 3 7 6).2
        = Result.ok 44 :=
  have h := path_ops_return_recorded_errno demoOpFails demoOpFails demoAbsPath
    demoRenameFails demoPathModule 3 0 13 3 7 6
    [46, 46, 47, 101, 116, 99, 47, 112, 97, 115, 115, 119, 100] [112, 97, 115, 115, 119, 100]
    _ _ (by decide) (by decide) rfl rfl
  ⟨h.1.1.trans (by decide), h.2.1.1.trans (by decide), h.2.2.1.trans (by decide)⟩

/-! ## File status -/

theorem hostRead_hostWrite_same_len (mem : Memory) (p n : Nat) (bs : List Nat)
    (hn : bs.length = n) (h : p + n ≤ mem.length) :
    hostRead (hostWrite mem p bs) p n = bs := by
  subst hn
  exact hostRead_hostWrite_same mem p bs h

theorem leValue_leBytes_eight (v : Nat) :
    leValue (leBytes 8 v) = v % 18446744073709551616 := by
  rw [leValue_leBytes]; norm_num

theorem leValue_singleton (b : Nat) : leValue [b] = b := by
  simp [leValue]

theorem writeFilestat_read_st_dev (mem : Memory) (p : Nat) (s : Stat)
    (h : p + 64 ≤ mem.length) :
    hostRead (writeFilestat mem p s) p 8 = leBytes 8 s.st_dev := by
  simp only [writeFilestat]
  rw [hostRead_hostWrite_disjoint]
  rw [hostRead_hostWrite_disjoint]
  rw [hostRead_hostWrite_disjoint]
  rw [hostRead_hostWrite_disjoint]
  rw [hostRead_hostWrite_disjoint]
  rw [hostRead_hostWrite_disjoint]
  rw [hostRead_hostWrite_disjoint]
  · exact hostRead_hostWrite_same_len _ _ _ _ (leBytes_length 8 _) (by omega)
  all_goals (simp only [leBytes_length, List.length_singleton]; omega)

theorem writeFilestat_read_st_ino (mem : Memory) (p : Nat) (s : Stat)
    (h : p + 64 ≤ mem.length) :
    hostRead (writeFilestat mem p s) (p + 8) 8 = leBytes 8 s.st_ino := by
  simp only [writeFilestat]
  rw [hostRead_hostWrite_disjoint]
  rw [hostRead_hostWrite_disjoint]
  rw [hostRead_hostWrite_disjoint]
  rw [hostRead_hostWrite_disjoint]
  rw [hostRead_hostWrite_disjoint]
  rw [hostRead_hostWrite_disjoint]
  · exact hostRead_hostWrite_same_len _ _ _ _ (leBytes_length 8 _)
      (by simp only [hostWrite_length]; omega)
  all_goals (simp only [leBytes_length, List.length_singleton]; omega)

theorem writeFilestat_read_wasiFiletype (mem : Memory) (p : Nat) (s : Stat)
    (h : p + 64 ≤ mem.length) :
    hostRead (writeFilestat mem p s) (p + 16) 1 = [s.wasiFiletype % 256] := by
  simp only [writeFilestat]
  rw [hostRead_hostWrite_disjoint]
  rw [hostRead_hostWrite_disjoint]
  rw [hostRead_hostWrite_disjoint]
  rw [hostRead_hostWrite_disjoint]
  rw [hostRead_hostWrite_disjoint]
  · exact hostRead_hostWrite_same_len _ _ _ _ rfl
      (by simp only [hostWrite_length]; omega)
  all_goals (simp only [leBytes_length, List.length_singleton]; omega)

theorem writeFilestat_read_st_nlink (mem : Memory) (p : Nat) (s : Stat)
    (h : p + 64 ≤ mem.length) :
    hostRead (writeFilestat mem p s) (p + 24) 8 = leBytes 8 s.st_nlink := by
  simp only [writeFilestat]
  rw [hostRead_hostWrite_disjoint]
  rw [hostRead_hostWrite_disjoint]
  rw [hostRead_hostWrite_disjoint]
  rw [hostRead_hostWrite_disjoint]
  · exact hostRead_hostWrite_same_len _ _ _ _ (leBytes_length 8 _)
      (by simp only [hostWrite_length]; omega)
  all_goals (simp only [leBytes_length, List.length_singleton]; omega)

theorem writeFilestat_read_st_size (mem : Memory) (p : Nat) (s : Stat)
    (h : p + 64 ≤ mem.length) :
    hostRead (writeFilestat mem p s) (p + 32) 8 = leBytes 8 s.st_size := by
  simp only [writeFilestat]
  rw [hostRead_hostWrite_disjoint]
  rw [hostRead_hostWrite_disjoint]
  rw [hostRead_hostWrite_disjoint]
  · exact hostRead_hostWrite_same_len _ _ _ _ (leBytes_length 8 _)
      (by simp only [hostWrite_length]; omega)
  all_goals (simp only [leBytes_length, List.length_singleton]; omega)

theorem writeFilestat_read_st_atim (mem : Memory) (p : Nat) (s : Stat)
    (h : p + 64 ≤ mem.length) :
    hostRead (writeFilestat mem p s) (p + 40) 8 = leBytes 8 s.st_atim := by
  simp only [writeFilestat]
  rw [hostRead_hostWrite_disjoint]
  rw [hostRead_hostWrite_disjoint]
  · exact hostRead_hostWrite_same_len _ _ _ _ (leBytes_length 8 _)
      (by simp only [hostWrite_length]; omega)
  all_goals (simp only [leBytes_length, List.length_singleton]; omega)

theorem writeFilestat_read_st_mtim (mem : Memory) (p : Nat) (s : Stat)
    (h : p + 64 ≤ mem.length) :
    hostRead (writeFilestat mem p s) (p + 48) 8 = leBytes 8 s.st_mtim := by
  simp only [writeFilestat]
  rw [hostRead_hostWrite_disjoint]
  · exact hostRead_hostWrite_same_len _ _ _ _ (leBytes_length 8 _)
      (by simp only [hostWrite_length]; omega)
  all_goals (simp only [leBytes_length, List.length_singleton]; omega)

theorem writeFilestat_read_st_ctim (mem : Memory) (p : Nat) (s : Stat)
    (h : p + 64 ≤ mem.length) :
    hostRead (writeFilestat mem p s) (p + 56) 8 = leBytes 8 s.st_ctim := by
  simp only [writeFilestat]
  exact hostRead_hostWrite_same_len _ _ _ _ (leBytes_length 8 _)
    (by simp only [hostWrite_length]; omega)

theorem readGuestFilestat_writeFilestat (mem : Memory) (p : Nat) (s : Stat)
    (h : p + 64 ≤ mem.length) (hfit : s.fits) :
    readGuestFilestat (writeFilestat mem p s) p = s.toGuest := by
  obtain ⟨f1, f2, f3, f4, f5, f6, f7, f8⟩ := hfit
  unfold readGuestFilestat Stat.toGuest
  rw [writeFilestat_read_st_dev mem p s h, writeFilestat_read_st_ino mem p s h,
    writeFilestat_read_wasiFiletype mem p s h, writeFilestat_read_st_nlink mem p s h,
    writeFilestat_read_st_size mem p s h, writeFilestat_read_st_atim mem p s h,
    writeFilestat_read_st_mtim mem p s h, writeFilestat_read_st_ctim mem p s h]
  simp only [leValue_leBytes_eight, leValue_singleton]
  rw [Nat.mod_eq_of_lt f1, Nat.mod_eq_of_lt f2, Nat.mod_eq_of_lt f3, Nat.mod_eq_of_lt f4,
    Nat.mod_eq_of_lt f5, Nat.mod_eq_of_lt f6, Nat.mod_eq_of_lt f7, Nat.mod_eq_of_lt f8]

/-- C15: for a descriptor that is in the table, with the 64 bytes of the guest filestat at
`statPtr` inside guest memory, and `s` the Stat Record the descriptor's `stat` returns
for the relative path: if `s.failed`, `doFileStat` returns `s.wasiErrno` and the module
(so the guest filestat too) is unchanged; otherwise it returns `ESUCCESS` and the dev,
ino, filetype, nlink, size, atim, mtim and ctim fields of the guest filestat are those
of `s` (which fit their guest width).  `fd_filestat_get` is `doFileStat` with the empty
path, and `path_filestat_get` with an empty path string gives the same result and
module. -/
theorem doFileStat_serialises_stat (stat : FileDescriptor → List Nat → Stat) (m : Module)
    (fd : Int) (relativePath : List Nat) (statPtr : Int) (d : FileDescriptor)
    (hd : m.fileSystem.getFileDescriptor fd = some d)
    (hv : validRange m.defaultMemory (toUptr statPtr) FILESTAT_SIZE = true) :
    ((stat d relativePath).failed = true →
      doFileStat stat m fd relativePath statPtr
        = (m, Result.ok ((stat d relativePath).wasiErrno : Int))) ∧
    ((stat d relativePath).failed = false →
      (doFileStat stat m fd relativePath statPtr).2 = Result.ok WASI_ESUCCESS ∧
      ((stat d relativePath).fits →
        readGuestFilestat (doFileStat stat m fd relativePath statPtr).1.defaultMemory
          (toUptr statPtr) = (stat d relativePath).toGuest)) ∧
    wasi_fd_filestat_get stat m fd statPtr = doFileStat stat m fd [] statPtr ∧
    (∀ lookupFlags path pathLen : Int, getStringFromWasm m.defaultMemory path = some [] →
      wasi_path_filestat_get stat m fd lookupFlags path pathLen statPtr
        = wasi_fd_filestat_get stat m fd statPtr) := by
  have hb := (validRange_iff _ _ _).1 hv
  unfold FILESTAT_SIZE at hb
  refine ⟨?_, ?_, rfl, ?_⟩
  · intro hf
    simp only [doFileStat, hd, memoryRef, hv, if_true, hf]
  · intro hf
    have he : doFileStat stat m fd relativePath statPtr =
        ({ m with defaultMemory :=
            writeFilestat m.defaultMemory (toUptr statPtr) (stat d relativePath) },
          Result.ok WASI_ESUCCESS) := by
      simp [doFileStat, hd, memoryRef, hv, hf]
    have hres : (doFileStat stat m fd relativePath statPtr).2 = Result.ok WASI_ESUCCESS := by
      rw [he]
    have hmem : (doFileStat stat m fd relativePath statPtr).1.defaultMemory =
        writeFilestat m.defaultMemory (toUptr statPtr) (stat d relativePath) := by
      rw [he]
    refine ⟨hres, ?_⟩
    intro hfit
    have hlen : toUptr statPtr + 64 ≤ m.defaultMemory.length := by omega
    rw [hmem]
    exact readGuestFilestat_writeFilestat m.defaultMemory (toUptr statPtr)
      (stat d relativePath) hlen hfit
  · intro lookupFlags path pathLen hstr
    unfold wasi_path_filestat_get wasi_fd_filestat_get
    rw [hstr]

/-- C15 at concrete inputs: a successful `stat` on descriptor 4 is serialised at offset 0,
a failing one gives its errno 44, and `path_filestat_get` on the empty string at offset
70 agrees with `fd_filestat_get`. -/
theorem doFileStat_serialises_stat_witness :
    readGuestFilestat (doFileStat demoStat demoStatModule 4 [] 0).1.defaultMemory (toUptr 0)
        = { dev := 2049, ino := 77, filetype := 4, nlink := 1, size := 300, atim := 1000,
            mtim := 2000, ctim := 3000 } ∧
      doFileStat demoStatFails demoStatModule 4 [] 0 = (demoStatModule, Result.ok 44) ∧
      wasi_path_filestat_get demoStat demoStatModule 4 0 70 0 0
        = wasi_fd_filestat_get demoStat demoStatModule 4 0 :=
  ⟨((doFileStat_serialises_stat demoStat demoStatModule 4 [] 0 _ rfl (by decide)).2.1
      rfl).2 (by decide),
   (doFileStat_serialises_stat demoStatFails demoStatModule 4 [] 0 _ rfl (by decide)).1 rfl,
   (doFileStat_serialises_stat demoStat demoStatModule 4 [] 0 _ rfl (by decide)).2.2.2
      0 70 0 (by decide)⟩

/-! ## puts and vfprintf -/

theorem upToNul_append (s rest : List Nat) (h0 : 0 ∉ s) :
    upToNul (s ++ 0 :: rest) = some s := by
  induction s with
  | nil => simp [upToNul]
  | cons b s ih =>
    have hb : b ≠ 0 := fun h => h0 (by simp [h])
    have hs : 0 ∉ s := fun h => h0 (by simp [h])
    have hrec := ih hs
    simp only [List.cons_append, upToNul, if_neg hb]
    change Option.map (fun t => b :: t) (upToNul (s ++ 0 :: rest)) = some (b :: s)
    rw [hrec]
    rfl

theorem hostCString_of_terminated (mem : Memory) (p : Nat) (s : List Nat)
    (hs : hostRead mem p (s.length + 1) = s ++ [0]) (h0 : 0 ∉ s) :
    hostCString mem p = some s := by
  unfold hostCString
  unfold hostRead at hs
  have hsplit := (List.take_append_drop (s.length + 1) (mem.drop p)).symm
  rw [hs, List.append_assoc] at hsplit
  rw [hsplit]
  exact upToNul_append s _ h0

theorem terminated_lt_length (mem : Memory) (p : Nat) (s : List Nat)
    (hs : hostRead mem p (s.length + 1) = s ++ [0]) : p < mem.length := by
  by_contra hge
  unfold hostRead at hs
  rw [List.drop_of_length_le (by omega)] at hs
  simp at hs

theorem terminated_valid (mem : Memory) (p : Nat) (s : List Nat)
    (hmem : mem.length ≤ 4294967296)
    (hs : hostRead mem p (s.length + 1) = s ++ [0]) : validRange mem p 1 = true := by
  have := terminated_lt_length mem p s hs
  rw [validRange_iff]; omega

theorem puts_of_terminated (captureStdout : String) (m : Module) (stdout : List Nat)
    (strPtr : Int) (s : List Nat) (hmem : m.defaultMemory.length ≤ 4294967296)
    (hs : hostRead m.defaultMemory (toUptr strPtr) (s.length + 1) = s ++ [0]) (h0 : 0 ∉ s) :
    puts captureStdout m stdout strPtr =
      (if captureStdout = "on" then m.captureStdoutString s else m,
        stdout ++ s ++ [10], Result.ok 0) := by
  have hv := terminated_valid _ _ _ hmem hs
  have hc := hostCString_of_terminated _ _ _ hs h0
  unfold puts
  simp only [memoryRef, hv, if_true, hc]
  by_cases hon : captureStdout = "on" <;> simp [hon]

theorem vfprintf_of_terminated (m : Module) (stdout : List Nat) (fd : Int) (formatPtr : Nat)
    (argList : Int) (s : List Nat) (hmem : m.defaultMemory.length ≤ 4294967296)
    (hs : hostRead m.defaultMemory formatPtr (s.length + 1) = s ++ [0]) (h0 : 0 ∉ s) :
    vfprintf m stdout fd formatPtr argList =
      (m, stdout ++ VFPRINTF_TAG ++ s ++ [10], Result.ok 0) := by
  have hv := terminated_valid _ _ _ hmem hs
  have hc := hostCString_of_terminated _ _ _ hs h0
  unfold vfprintf
  simp only [memoryRef, hv, if_true, hc]

theorem scanString_none_of_no_nul (mem : Memory) : ∀ (fuel o : Nat),
    (∀ i : Nat, o ≤ i → i < o + fuel → ∃ b : Nat, mem[i]? = some b ∧ b ≠ 0) →
    scanString mem o fuel = none := by
  intro fuel
  induction fuel with
  | zero => intro o _; rfl
  | succ fuel ih =>
    intro o h
    obtain ⟨b, hb, hne⟩ := h o (by omega) (by omega)
    have hrest := ih (o + 1) (fun i h1 h2 => h i (by omega) (by omega))
    simp only [scanString, List.get?_eq_getElem?, hb, if_neg hne, hrest, Option.map_none']

theorem replicate_terminated (n a : Nat) :
    hostRead (List.replicate n a ++ [0]) 0 ((List.replicate n a).length + 1)
      = List.replicate n a ++ [0] := by
  unfold hostRead
  rw [List.drop_zero]
  apply List.take_of_length_le
  simp

theorem replicate_leading (n a : Nat) :
    hostRead (List.replicate n a ++ [0]) 0 n = List.replicate n a := by
  unfold hostRead
  rw [List.drop_zero, List.take_left' (List.length_replicate n a)]

theorem replicate_getElem? (n a i : Nat) (hi : i < n) :
    (List.replicate n a ++ [0])[i]? = some a := by
  rw [List.getElem?_append_left (by rw [List.length_replicate]; exact hi),
    List.getElem?_replicate, if_pos hi]

/-- C18, as the code has it: on a memory that holds 16384 bytes `A` and then a NUL, the
16 KiB from the pointer hold no NUL and the bounded string scan fails, yet `puts` and
`vfprintf` at offset 0 return 0 and emit the whole string of 16384 bytes. -/
theorem puts_vfprintf_ignore_scan_limit :
    hostRead longStringModule.defaultMemory 0 STRING_SCAN_LIMIT = List.replicate 16384 65 ∧
      getStringFromWasm longStringModule.defaultMemory 0 = none ∧
      puts "off" longStringModule [] 0
        = (longStringModule, List.replicate 16384 65 ++ [10], Result.ok 0) ∧
      vfprintf longStringModule [] 1 0 0
        = (longStringModule, VFPRINTF_TAG ++ List.replicate 16384 65 ++ [10], Result.ok 0) := by
  have hmemdef : longStringModule.defaultMemory = List.replicate 16384 65 ++ [0] := rfl
  have hlen : longStringModule.defaultMemory.length ≤ 4294967296 := by
    rw [hmemdef, List.length_append, List.length_replicate, List.length_singleton]
    decide
  have hterm : hostRead longStringModule.defaultMemory 0
      ((List.replicate 16384 65).length + 1) = List.replicate 16384 65 ++ [0] := by
    rw [hmemdef]; exact replicate_terminated 16384 65
  have hnz : (0 : Nat) ∉ List.replicate 16384 65 := by
    intro h
    have := List.eq_of_mem_replicate h
    omega
  have e : toUptr 0 = 0 := by decide
  refine ⟨?_, ?_, ?_, ?_⟩
  · rw [hmemdef]; exact replicate_leading 16384 65
  · unfold getStringFromWasm STRING_SCAN_LIMIT
    apply scanString_none_of_no_nul
    intro i _ h2
    rw [e] at h2
    refine ⟨65, ?_, by decide⟩
    rw [hmemdef]
    exact replicate_getElem? 16384 65 i (by omega)
  · have h := puts_of_terminated "off" longStringModule [] 0 (List.replicate 16384 65)
      hlen (by rw [e]; exact hterm) hnz
    rw [h, if_neg (by decide)]
    rfl
  · have h := vfprintf_of_terminated longStringModule [] 1 0 0 (List.replicate 16384 65)
      hlen hterm hnz
    rw [h]
    rfl

/-- C18, amended: `puts` and `vfprintf` validate the byte at the given pointer and then
read the guest string up to its first NUL with no limit on its length.  For a memory of
at most 4 GiB and a NUL-terminated string of any length lying in guest memory at the
pointer, `puts` emits the string and a newline, `vfprintf` emits its tag, the string and
a newline, and both return 0; when the byte at the pointer is outside guest memory the
handler raises the out-of-bounds exception and emits nothing. -/
theorem puts_vfprintf_read_to_first_nul (captureStdout : String) (m : Module)
    (stdout : List Nat) (strPtr fd : Int) (formatPtr : Nat) (argList : Int)
    (s fmt : List Nat) (hmem : m.defaultMemory.length ≤ 4294967296)
    (hs : hostRead m.defaultMemory (toUptr strPtr) (s.length + 1) = s ++ [0]) (hs0 : 0 ∉ s)
    (hf : hostRead m.defaultMemory formatPtr (fmt.length + 1) = fmt ++ [0]) (hf0 : 0 ∉ fmt) :
    (puts captureStdout m stdout strPtr).2 = (stdout ++ s ++ [10], Result.ok 0) ∧
    (vfprintf m stdout fd formatPtr argList).2
      = (stdout ++ VFPRINTF_TAG ++ fmt ++ [10], Result.ok 0) ∧
    (∀ p : Int, validRange m.defaultMemory (toUptr p) 1 = false →
      puts captureStdout m stdout p
        = (m, stdout, Result.throw HostError.outOfBoundsMemoryAccess)) ∧
    (∀ q : Nat, validRange m.defaultMemory q 1 = false →
      vfprintf m stdout fd q argList
        = (m, stdout, Result.throw HostError.outOfBoundsMemoryAccess)) := by
  refine ⟨?_, ?_, ?_, ?_⟩
  · rw [puts_of_terminated captureStdout m stdout strPtr s hmem hs hs0]
  · rw [vfprintf_of_terminated m stdout fd formatPtr argList fmt hmem hf hf0]
  · intro p hp
    simp [puts, memoryRef, hp]
  · intro q hq
    simp [vfprintf, memoryRef, hq]

/-- C18, amended, at a concrete input: `hi` at offset 3 and `%d` at offset 0. -/
theorem puts_vfprintf_read_to_first_nul_witness :
    (puts "off" demoStringModule [] 3).2 = ([104, 105, 10], Result.ok 0) ∧
      (vfprintf demoStringModule [] 1 0 0).2
        = (VFPRINTF_TAG ++ [37, 100, 10], Result.ok 0) :=
  have h := puts_vfprintf_read_to_first_nul "off" demoStringModule [] 3 1 0 0
    [104, 105] [37, 100] (by decide) (by decide) (by decide) (by decide) (by decide)
  ⟨h.1, h.2.1⟩

/-- C19: for a memory of at most 4 GiB and a NUL-terminated format string lying in guest
memory at `formatPtr`, `vfprintf` returns 0, leaves the module (guest memory included)
unchanged, and emits its tag, the format string byte for byte and a newline: no
conversion specifier is expanded.  The outcome is the same for every `fd` and every
`argList`. -/
theorem vfprintf_prints_raw_format (m : Module) (stdout : List Nat) (fd : Int)
    (formatPtr : Nat) (argList : Int) (fmt : List Nat)
    (hmem : m.defaultMemory.length ≤ 4294967296)
    (hf : hostRead m.defaultMemory formatPtr (fmt.length + 1) = fmt ++ [0]) (hf0 : 0 ∉ fmt) :
    vfprintf m stdout fd formatPtr argList
      = (m, stdout ++ VFPRINTF_TAG ++ fmt ++ [10], Result.ok 0) ∧
    (∀ fd1 argList1 : Int,
      vfprintf m stdout fd1 formatPtr argList1 = vfprintf m stdout fd formatPtr argList) :=
  ⟨vfprintf_of_terminated m stdout fd formatPtr argList fmt hmem hf hf0, fun _ _ => rfl⟩

/-- C19 at a concrete input: the format `%d` with argument list 5 is emitted as `%d`. -/
theorem vfprintf_prints_raw_format_witness :
    vfprintf demoStringModule [] 2 0 5
      = (demoStringModule, VFPRINTF_TAG ++ [37, 100] ++ [10], Result.ok 0) :=
  (vfprintf_prints_raw_format demoStringModule [] 2 0 5 [37, 100] (by decide) (by decide)
    (by decide)).1

/-- C20: for a memory of at most 4 GiB and a NUL-terminated string `s` lying in guest
memory at `strPtr`, `puts` returns 0 and emits `s` followed by a newline on the host's
standard output; when `captureStdout` is `"on"` the module is the one its stdout capture
gives for `s` (the capture buffer extended by `s` and a newline), and when it is not
`"on"` the module, and so the capture buffer, is unchanged. -/
theorem puts_emits_line_and_captures (captureStdout : String) (m : Module)
    (stdout : List Nat) (strPtr : Int) (s : List Nat)
    (hmem : m.defaultMemory.length ≤ 4294967296)
    (hs : hostRead m.defaultMemory (toUptr strPtr) (s.length + 1) = s ++ [0]) (hs0 : 0 ∉ s) :
    (puts captureStdout m stdout strPtr).2.2 = Result.ok 0 ∧
    (puts captureStdout m stdout strPtr).2.1 = stdout ++ s ++ [10] ∧
    (captureStdout = "on" →
      (puts captureStdout m stdout strPtr).1 = m.captureStdoutString s ∧
      (puts captureStdout m stdout strPtr).1.stdoutCapture = m.stdoutCapture ++ s ++ [10]) ∧
    (captureStdout ≠ "on" → (puts captureStdout m stdout strPtr).1 = m) := by
  rw [puts_of_terminated captureStdout m stdout strPtr s hmem hs hs0]
  refine ⟨rfl, rfl, ?_, ?_⟩
  · intro hon
    rw [if_pos hon]
    exact ⟨rfl, rfl⟩
  · intro hoff
    rw [if_neg hoff]

/-- C20 at concrete inputs: `puts` on the string `hi` with capture on and with capture
off; the capture buffer starts as `[62]`. -/
theorem puts_emits_line_and_captures_witness :
    (puts "on" demoStringModule [] 3).2.1 = [104, 105, 10] ∧
      (puts "on" demoStringModule [] 3).1.stdoutCapture = [62, 104, 105, 10] ∧
      (puts "off" demoStringModule [] 3).1.stdoutCapture = [62] :=
  have hon := puts_emits_line_and_captures "on" demoStringModule [] 3 [104, 105]
    (by decide) (by decide) (by decide)
  have hoff := puts_emits_line_and_captures "off" demoStringModule [] 3 [104, 105]
    (by decide) (by decide) (by decide)
  ⟨hon.2.1, (hon.2.2.1 rfl).2, congrArg Module.stdoutCapture (hoff.2.2.2 (by decide))⟩

/-! ## The fake clock -/

theorem clock_gettime_valid (s : ClockState) (clockId resultAddress : Int)
    (hv : validRange s.memory (toUptr resultAddress) 8 = true) :
    _clock_gettime s clockId resultAddress =
      ({ memory := s.memory
         fakeClock := (s.fakeClock + 1) % 18446744073709551616
         trace := s.trace ++ [("INTRINSIC - _clock_gettime\n", [])] }, Result.ok 0) := by
  simp [_clock_gettime, memoryRef, hv]

/-- C21: in a fresh process with guest memory `[9, 9, 9, 9, 9, 9, 9, 9]`, the first two
calls of `_clock_gettime` with `resultAddress = 0` return 0 and advance the counter to 1
and to 2, the timestamps assigned to `result` are `(0, 0)` and `(0, 1)`, and the eight
bytes at `resultAddress` are still `9` after each call: nothing is written there. -/
theorem clock_gettime_writes_nothing :
    (_clock_gettime freshClockState 1 0).2 = Result.ok 0 ∧
      (_clock_gettime freshClockState 1 0).1.fakeClock = 1 ∧
      clockTimespec 0 = (0, 0) ∧
      (_clock_gettime freshClockState 1 0).1.memory = [9, 9, 9, 9, 9, 9, 9, 9] ∧
      (_clock_gettime (_clock_gettime freshClockState 1 0).1 1 0).2 = Result.ok 0 ∧
      (_clock_gettime (_clock_gettime freshClockState 1 0).1 1 0).1.fakeClock = 2 ∧
      clockTimespec 1 = (0, 1) ∧
      (_clock_gettime (_clock_gettime freshClockState 1 0).1 1 0).1.memory
        = [9, 9, 9, 9, 9, 9, 9, 9] := by
  refine ⟨by decide, by decide, by decide, by decide, by decide, by decide, by decide,
    by decide⟩

/-- C22: for every state and every `resultAddress` whose eight bytes are inside guest
memory, two consecutive calls of `_clock_gettime` both return 0 and both leave guest
memory as it was, so the timestamp `(tv_sec, tv_nsec)` the guest finds at `resultAddress`
after the later call equals the one it finds after the earlier call: it is not strictly
greater. -/
theorem clock_reported_timestamp_stalls (s : ClockState)
    (clockId1 clockId2 resultAddress : Int)
    (hv : validRange s.memory (toUptr resultAddress) 8 = true) :
    (_clock_gettime s clockId1 resultAddress).2 = Result.ok 0 ∧
    (_clock_gettime (_clock_gettime s clockId1 resultAddress).1 clockId2 resultAddress).2
      = Result.ok 0 ∧
    (_clock_gettime s clockId1 resultAddress).1.memory = s.memory ∧
    (_clock_gettime (_clock_gettime s clockId1 resultAddress).1 clockId2
      resultAddress).1.memory = s.memory ∧
    reportedTimespec
        (_clock_gettime (_clock_gettime s clockId1 resultAddress).1 clockId2
          resultAddress).1.memory (toUptr resultAddress)
      = reportedTimespec (_clock_gettime s clockId1 resultAddress).1.memory
          (toUptr resultAddress) ∧
    ¬ timespecLt
        (reportedTimespec (_clock_gettime s clockId1 resultAddress).1.memory
          (toUptr resultAddress))
        (reportedTimespec
          (_clock_gettime (_clock_gettime s clockId1 resultAddress).1 clockId2
            resultAddress).1.memory (toUptr resultAddress)) := by
  have h1 := clock_gettime_valid s clockId1 resultAddress hv
  have h2 := clock_gettime_valid (_clock_gettime s clockId1 resultAddress).1 clockId2
    resultAddress (by rw [h1]; exact hv)
  rw [h2, h1]
  refine ⟨rfl, rfl, rfl, rfl, rfl, ?_⟩
  simp [timespecLt]

/-- C22 at a concrete input: in a fresh process whose memory holds eight bytes `9`, the
timestamp found at offset 0 is `(151587081, 151587081)` after the first call and after
the second, where `(0, 0)` and `(0, 1)` were to be reported. -/
theorem clock_reported_timestamp_stalls_witness :
    reportedTimespec (_clock_gettime freshClockState 1 0).1.memory (toUptr 0)
        = (151587081, 151587081) ∧
      reportedTimespec
          (_clock_gettime (_clock_gettime freshClockState 1 0).1 1 0).1.memory (toUptr 0)
        = (151587081, 151587081) ∧
      clockTimespec 0 = (0, 0) ∧ clockTimespec 1 = (0, 1) ∧
      ¬ timespecLt (reportedTimespec (_clock_gettime freshClockState 1 0).1.memory (toUptr 0))
        (reportedTimespec
          (_clock_gettime (_clock_gettime freshClockState 1 0).1 1 0).1.memory
          (toUptr 0)) :=
  have h := clock_reported_timestamp_stalls freshClockState 1 1 0 (by decide)
  ⟨by decide, by decide, by decide, by decide, h.2.2.2.2.2⟩

/-! ## The guest memory layout -/

/-- C23: the input region is at offset 0 with size 1 MiB (1,048,576), the output region at
offset 1 MiB with size 1 MiB, and the chain-name table at offset 2 MiB with size
100 x 20 = 2,000; each region starts where the previous one ends, so the three are
pairwise disjoint; and for every `i < 100`, slot `i` of the chain-name table,
`[CHAIN_NAMES_START + 20 i, CHAIN_NAMES_START + 20 (i + 1))`, lies inside the table. -/
theorem layout_regions_adjacent :
    INPUT_START = 0 ∧ MAX_INPUT_BYTES = 1048576 ∧
    OUTPUT_START = 1048576 ∧ MAX_OUTPUT_BYTES = 1048576 ∧
    CHAIN_NAMES_START = 2097152 ∧ MAX_CHAIN_NAME_BYTES = 2000 ∧
    MAX_CHAINS = 100 ∧ MAX_NAME_LENGTH = 20 ∧
    OUTPUT_START = INPUT_START + MAX_INPUT_BYTES ∧
    CHAIN_NAMES_START = OUTPUT_START + MAX_OUTPUT_BYTES ∧
    INPUT_START + MAX_INPUT_BYTES ≤ OUTPUT_START ∧
    OUTPUT_START + MAX_OUTPUT_BYTES ≤ CHAIN_NAMES_START ∧
    (∀ i : Nat, i < 100 →
      CHAIN_NAMES_START ≤ CHAIN_NAMES_START + MAX_NAME_LENGTH * (i : Int) ∧
      CHAIN_NAMES_START + MAX_NAME_LENGTH * ((i : Int) + 1)
        ≤ CHAIN_NAMES_START + MAX_CHAIN_NAME_BYTES) := by
  refine ⟨by decide, by decide, by decide, by decide, by decide, by decide, by decide,
    by decide, by decide, by decide, by decide, by decide, ?_⟩
  intro i hi
  have h1 : MAX_NAME_LENGTH = 20 := by decide
  have h2 : MAX_CHAIN_NAME_BYTES = 2000 := by decide
  rw [h1, h2]
  omega

/-- C24, as the code has it: `CHAIN_DATA_START` is 2,099,152, not 2,099,200. -/
theorem chain_data_start_not_two_kib :
    CHAIN_DATA_START = 2099152 ∧ CHAIN_DATA_START ≠ 2097152 + 2048 := by
  refine ⟨by decide, by decide⟩

/-- C24, amended: the chain-input table starts where the chain-name table ends, at
`CHAIN_DATA_START = 2,097,152 + 2,000 = 2,099,152`, and has size
100 x 1 MiB = 104,857,600, so that the end of the layout, 106,956,752, fits in a
signed 32-bit int. -/
theorem chain_data_table_layout :
    CHAIN_DATA_START = CHAIN_NAMES_START + MAX_CHAIN_NAME_BYTES ∧
    CHAIN_DATA_START = 2097152 + 2000 ∧ CHAIN_DATA_START = 2099152 ∧
    MAX_CHAIN_DATA_BYTES = 100 * 1048576 ∧ MAX_CHAIN_DATA_BYTES = 104857600 ∧
    CHAIN_DATA_START + MAX_CHAIN_DATA_BYTES = 106956752 ∧
    isI32 (CHAIN_DATA_START + MAX_CHAIN_DATA_BYTES) := by
  refine ⟨by decide, by decide, by decide, by decide, by decide, by decide, by decide⟩

/-! ## getdents64 -/

set_option maxRecDepth 100000 in
/-- C25: on a module with 300 bytes of memory, with the guest buffer `[0, 100)` (shorter
than two wasm dirents of 268 bytes) and a directory of one entry, `s__getdents64`
returns 268, more than `wasmDirentBufLen = 100`, and the byte at offset 150, outside
the buffer, has been overwritten (7 before, 0 after). -/
theorem getdents64_overshoots_buffer :
    (s__getdents64 demoDirentLayout demoNativeDir demoGetdentsModule 3 0 100).2
        = Result.ok 268 ∧
      demoGetdentsModule.defaultMemory[150]? = some 7 ∧
      (s__getdents64 demoDirentLayout demoNativeDir demoGetdentsModule 3 0
        100).1.defaultMemory[150]? = some 0 := by
  refine ⟨by decide, by decide, by decide⟩

/-! ## path_open and pathLen -/

/-- C26: `path_open` does not read `pathLen`: the path is the string found at the path
pointer, and for every two values of `pathLen` the outcome (returned value, module with
the descriptor opened and the value stored at `resFdPtr`) is the same, whatever the file
system's `openFileDescriptor` is. -/
theorem path_open_ignores_pathLen
    (openFD : FileSystem → Int → List Nat → Nat → Nat → Int → Nat → Int → FileSystem × Int)
    (m : Module) (rootFd lookupFlags path pathLen1 pathLen2 : Int)
    (openFlags rightsBase rightsInheriting : Nat) (fdFlags resFdPtr : Int) :
    wasi_path_open openFD m rootFd lookupFlags path pathLen1 openFlags rightsBase
        rightsInheriting fdFlags resFdPtr
      = wasi_path_open openFD m rootFd lookupFlags path pathLen2 openFlags rightsBase
        rightsInheriting fdFlags resFdPtr ∧
    (getStringFromWasm m.defaultMemory path = none →
      wasi_path_open openFD m rootFd lookupFlags path pathLen1 openFlags rightsBase
        rightsInheriting fdFlags resFdPtr
        = (m, Result.throw HostError.outOfBoundsMemoryAccess)) := by
  refine ⟨rfl, ?_⟩
  intro h
  simp [wasi_path_open, h]

/-! ## The least squares weight update -/

/-- C27: with one weight `1`, the single input `-1` (of magnitude far above `1e-8`),
output `0` and learning rate `1/2`, the gradient is `2` and the claim has the weight
changed by `1/2 x 2`; `leastSquaresWeightUpdate` skips the update and leaves the weight
at `1`. -/
theorem negative_input_update_skipped :
    SKIP_THRESHOLD ≤ |(-1 : ℚ)| ∧
      sgdGradient [dotProduct [1] [-1]] [0] = [2] ∧
      (leastSquaresWeightUpdate { nWeights := 1, learningRate := 1 / 2 }
        { weights := [1], state := [1] } [[-1]] [0]).2.weights = [1] := by
  refine ⟨?_, ?_, ?_⟩
  · norm_num [SKIP_THRESHOLD]
  · norm_num [sgdGradient, dotProduct]
  · norm_num [leastSquaresWeightUpdate, updateForExamples, updateForExample, SKIP_THRESHOLD]

/-- C30: `getKeyBytes` on a successful request returns a vector of the reported content
length, which is the body itself when the body has that length; on a request failing
with `NO_SUCH_KEY` it returns the empty vector when `tolerateMissing` is true and throws
"S3 error" when it is false; on a request failing with any other error it throws "S3
error" whatever `tolerateMissing` is. -/
theorem getKeyBytes_outcomes (getObject : String → String → S3Outcome (Nat × List Nat))
    (bucketName keyName : String) (tolerateMissing : Bool) :
    (∀ (contentLength : Nat) (body : List Nat),
      getObject bucketName keyName = S3Outcome.success (contentLength, body) →
      (∃ bytes : List Nat,
        getKeyBytes getObject bucketName keyName tolerateMissing = Result.ok bytes ∧
        bytes.length = contentLength) ∧
      (body.length = contentLength →
        getKeyBytes getObject bucketName keyName tolerateMissing = Result.ok body)) ∧
    (∀ err : S3Error, getObject bucketName keyName = S3Outcome.failure err →
      err.errorType = S3ErrorType.NO_SUCH_KEY →
      (tolerateMissing = true →
        getKeyBytes getObject bucketName keyName tolerateMissing = Result.ok []) ∧
      (tolerateMissing = false →
        getKeyBytes getObject bucketName keyName tolerateMissing
          = Result.throw (HostError.runtimeError "S3 error"))) ∧
    (∀ err : S3Error, getObject bucketName keyName = S3Outcome.failure err →
      err.errorType ≠ S3ErrorType.NO_SUCH_KEY →
      getKeyBytes getObject bucketName keyName tolerateMissing
        = Result.throw (HostError.runtimeError "S3 error")) := by
  refine ⟨?_, ?_, ?_⟩
  · intro contentLength body h
    refine ⟨⟨body.take contentLength ++ List.replicate (contentLength - body.length) 0,
      by simp only [getKeyBytes, h], ?_⟩, ?_⟩
    · simp only [List.length_append, List.length_take, List.length_replicate]
      omega
    · intro hl
      simp only [getKeyBytes, h]
      rw [← hl]
      simp
  · intro err h ht
    refine ⟨?_, ?_⟩
    · intro htol
      simp [getKeyBytes, h, ht, htol]
    · intro htol
      simp [getKeyBytes, h, htol, s3Exception]
  · intro err h hne
    simp [getKeyBytes, h, hne, s3Exception]

theorem fault_not_no_such_bucket (f : S3Fault) :
    (f.toError.errorType == S3ErrorType.NO_SUCH_BUCKET) = false := by
  cases f <;> rfl

theorem fault_not_no_such_key (f : S3Fault) :
    (f.toError.errorType == S3ErrorType.NO_SUCH_KEY) = false := by
  cases f <;> rfl

theorem fault_not_bucket_not_empty (f : S3Fault) :
    (f.toError.exceptionName == "BucketNotEmpty") = false := by
  cases f <;> decide

theorem pendingFault_of_noFaults {fs : List (Option S3Fault)} (h : noFaults fs) :
    pendingFault fs = none := by
  cases fs with
  | nil => rfl
  | cons x xs =>
    have hx : x = none := h x (List.mem_cons_self _ _)
    subst hx
    rfl

theorem pendingFault_mem {fs : List (Option S3Fault)} {f : S3Fault}
    (h : pendingFault fs = some f) : some f ∈ fs := by
  cases fs with
  | nil => simp [pendingFault] at h
  | cons x xs =>
    cases x with
    | none => simp [pendingFault] at h
    | some g =>
      simp only [pendingFault, Option.some.injEq] at h
      subst h
      exact List.mem_cons_self _ _

theorem lookupBucket_cons (e : String × List (String × List Nat))
    (es : List (String × List (String × List Nat))) (b : String) :
    lookupBucket (e :: es) b = if e.1 == b then some e.2 else lookupBucket es b := by
  cases h : e.1 == b <;> simp [lookupBucket, List.find?_cons, h]

theorem removeBucket_cons (e : String × List (String × List Nat))
    (es : List (String × List (String × List Nat))) (b : String) :
    removeBucket (e :: es) b
      = if e.1 == b then removeBucket es b else e :: removeBucket es b := by
  cases h : e.1 == b <;> simp [removeBucket, List.filter_cons, bne, h]

theorem removeKey_cons (e : String × List (String × List Nat))
    (es : List (String × List (String × List Nat))) (b k : String) :
    removeKey (e :: es) b k
      = (if e.1 == b then (e.1, e.2.filter (fun o => o.1 != k)) else e) :: removeKey es b k :=
  rfl

theorem lookupBucket_removeBucket_self (bs : List (String × List (String × List Nat)))
    (b : String) : lookupBucket (removeBucket bs b) b = none := by
  induction bs with
  | nil => rfl
  | cons e es ih =>
    rw [removeBucket_cons]
    cases h : e.1 == b
    · rw [if_neg (by simp), lookupBucket_cons, h, if_neg (by simp)]
      exact ih
    · rw [if_pos rfl]
      exact ih

theorem lookupBucket_removeBucket_other (bs : List (String × List (String × List Nat)))
    (b b' : String) (hne : b' ≠ b) :
    lookupBucket (removeBucket bs b) b' = lookupBucket bs b' := by
  induction bs with
  | nil => rfl
  | cons e es ih =>
    rw [removeBucket_cons, lookupBucket_cons]
    cases h : e.1 == b
    · rw [if_neg (by simp), lookupBucket_cons, ih]
    · rw [if_pos rfl, ih]
      have h1 : e.1 = b := by simpa using h
      have h2 : (e.1 == b') = false := by
        simp only [beq_eq_false_iff_ne, ne_eq]
        intro h3
        exact hne (h3.symm.trans h1)
      rw [h2, if_neg (by simp)]

theorem removeBucket_of_absent (bs : List (String × List (String × List Nat))) (b : String)
    (h : lookupBucket bs b = none) : removeBucket bs b = bs := by
  induction bs with
  | nil => rfl
  | cons e es ih =>
    rw [lookupBucket_cons] at h
    rw [removeBucket_cons]
    cases he : e.1 == b
    · rw [he, if_neg (by simp)] at h
      rw [if_neg (by simp), ih h]
    · rw [he, if_pos rfl] at h
      exact absurd h (by simp)

theorem removeBucket_removeKey (bs : List (String × List (String × List Nat)))
    (b k : String) : removeBucket (removeKey bs b k) b = removeBucket bs b := by
  induction bs with
  | nil => rfl
  | cons e es ih =>
    by_cases he : e.1 = b
    · simp [removeKey_cons, removeBucket_cons, he, ih]
    · simp [removeKey_cons, removeBucket_cons, he, ih]

theorem lookupBucket_removeKey_self (bs : List (String × List (String × List Nat)))
    (b k : String) :
    lookupBucket (removeKey bs b k) b
      = (lookupBucket bs b).map (fun os => os.filter (fun o => o.1 != k)) := by
  induction bs with
  | nil => rfl
  | cons e es ih =>
    by_cases he : e.1 = b
    · simp [removeKey_cons, lookupBucket_cons, he]
    · simp [removeKey_cons, lookupBucket_cons, he, ih]

theorem removeKey_of_absent (bs : List (String × List (String × List Nat))) (b k : String)
    (h : lookupBucket bs b = none) : removeKey bs b k = bs := by
  induction bs with
  | nil => rfl
  | cons e es ih =>
    rw [lookupBucket_cons] at h
    rw [removeKey_cons]
    cases he : e.1 == b
    · rw [he, if_neg (by simp)] at h
      rw [if_neg (by simp), ih h]
    · rw [he, if_pos rfl] at h
      exact absurd h (by simp)

theorem removeBucket_removeKeys (ks : List String)
    (bs : List (String × List (String × List Nat))) (b : String) :
    removeBucket (removeKeys bs b ks) b = removeBucket bs b := by
  induction ks generalizing bs with
  | nil => rfl
  | cons k ks ih =>
    have h := ih (removeKey bs b k)
    rw [removeBucket_removeKey] at h
    exact h

theorem lookupBucket_removeKeys_self (ks : List String)
    (bs : List (String × List (String × List Nat))) (b : String) :
    lookupBucket (removeKeys bs b ks) b
      = (lookupBucket bs b).map
          (fun os => ks.foldl (fun acc k => acc.filter (fun o => o.1 != k)) os) := by
  induction ks generalizing bs with
  | nil => simp [removeKeys]
  | cons k ks ih =>
    have h := ih (removeKey bs b k)
    rw [lookupBucket_removeKey_self] at h
    simp only [removeKeys, List.foldl_cons] at h ⊢
    rw [h]
    cases lookupBucket bs b <;> rfl

theorem foldl_filter_all_keys (ks : List String) (os : List (String × List Nat))
    (h : ∀ o ∈ os, o.1 ∈ ks) :
    ks.foldl (fun acc k => acc.filter (fun o => o.1 != k)) os = [] := by
  induction ks generalizing os with
  | nil =>
    cases os with
    | nil => rfl
    | cons o os => exact absurd (h o (List.mem_cons_self _ _)) (List.not_mem_nil _)
  | cons k ks ih =>
    simp only [List.foldl_cons]
    apply ih
    intro o ho
    rw [List.mem_filter] at ho
    have hk : o.1 ≠ k := by simpa using ho.2
    have := h o ho.1
    rw [List.mem_cons] at this
    rcases this with h1 | h1
    · exact absurd h1 hk
    · exact h1

theorem deleteKey_cases (s : S3State) (b k : String) :
    (pendingFault s.faults = none ∧
      deleteKey s b k
        = ({ buckets := removeKey s.buckets b k, faults := s.faults.tail }, Result.ok ())) ∨
    (∃ f, pendingFault s.faults = some f ∧
      deleteKey s b k = ({ s with faults := s.faults.tail }, Result.throw s3Exception)) := by
  cases hp : pendingFault s.faults with
  | some f =>
    right
    refine ⟨f, rfl, ?_⟩
    simp [deleteKey, clientDeleteObject, hp, fault_not_no_such_key, fault_not_no_such_bucket]
  | none =>
    left
    refine ⟨rfl, ?_⟩
    cases hl : lookupBucket s.buckets b with
    | none =>
      simp [deleteKey, clientDeleteObject, hp, hl, removeKey_of_absent _ _ _ hl]
    | some objs =>
      simp [deleteKey, clientDeleteObject, hp, hl]

theorem deleteKeys_cases (b : String) (ks : List String) (s : S3State) :
    (∃ fs, deleteKeys b ks s
        = ({ buckets := removeKeys s.buckets b ks, faults := fs }, Result.ok ()) ∧
      ∀ x ∈ fs, x ∈ s.faults) ∨
    (∃ st f, deleteKeys b ks s = (st, Result.throw s3Exception) ∧ some f ∈ s.faults) := by
  induction ks generalizing s with
  | nil => exact Or.inl ⟨s.faults, rfl, fun x hx => hx⟩
  | cons k ks ih =>
    rcases deleteKey_cases s b k with ⟨_, hd⟩ | ⟨f, hp, hd⟩
    · rcases ih { buckets := removeKey s.buckets b k, faults := s.faults.tail } with
        ⟨fs, h1, h2⟩ | ⟨st, f, h1, h2⟩
      · left
        refine ⟨fs, ?_, fun x hx => List.mem_of_mem_tail (h2 x hx)⟩
        simp only [deleteKeys, hd]
        exact h1
      · right
        refine ⟨st, f, ?_, List.mem_of_mem_tail h2⟩
        simp only [deleteKeys, hd]
        exact h1
    · right
      refine ⟨{ s with faults := s.faults.tail }, f, ?_, pendingFault_mem hp⟩
      simp only [deleteKeys, hd]

theorem listKeys_cases (s : S3State) (b : String) :
    (pendingFault s.faults = none ∧
      listKeys s b
        = ({ s with faults := s.faults.tail },
            Result.ok (match lookupBucket s.buckets b with
              | none => []
              | some objs => objs.map (fun o => o.1)))) ∨
    (∃ f, pendingFault s.faults = some f ∧
      listKeys s b = ({ s with faults := s.faults.tail }, Result.throw s3Exception)) := by
  cases hp : pendingFault s.faults with
  | some f =>
    right
    refine ⟨f, rfl, ?_⟩
    simp [listKeys, clientListObjects, hp, fault_not_no_such_bucket]
  | none =>
    left
    refine ⟨rfl, ?_⟩
    cases hl : lookupBucket s.buckets b with
    | none => simp [listKeys, clientListObjects, hp, hl]
    | some objs => simp [listKeys, clientListObjects, hp, hl]

theorem deleteBucket_of_emptied (s : S3State) (b : String)
    (hl : lookupBucket s.buckets b = some []) :
    ∃ out : S3State × Result Unit, (∀ n, deleteBucket (n + 1) s b = some out) ∧
      ((out.2 = Result.throw s3Exception ∧ ∃ f, some f ∈ s.faults) ∨
       (out.2 = Result.ok () ∧ out.1.buckets = removeBucket s.buckets b)) := by
  cases hp : pendingFault s.faults with
  | some f =>
    refine ⟨({ s with faults := s.faults.tail }, Result.throw s3Exception), ?_,
      Or.inl ⟨rfl, f, pendingFault_mem hp⟩⟩
    intro n
    simp [deleteBucket, clientDeleteBucket, hp, fault_not_no_such_bucket,
      fault_not_bucket_not_empty]
  | none =>
    refine ⟨({ buckets := removeBucket s.buckets b, faults := s.faults.tail }, Result.ok ()),
      ?_, Or.inr ⟨rfl, rfl⟩⟩
    intro n
    simp [deleteBucket, clientDeleteBucket, hp, hl]

theorem deleteBucket_result (s : S3State) (b : String) :
    ∃ out : S3State × Result Unit, (∀ n, deleteBucket (n + 2) s b = some out) ∧
      ((out.2 = Result.throw s3Exception ∧ ∃ f, some f ∈ s.faults) ∨
       (out.2 = Result.ok () ∧ out.1.buckets = removeBucket s.buckets b)) := by
  cases hp : pendingFault s.faults with
  | some f =>
    refine ⟨({ s with faults := s.faults.tail }, Result.throw s3Exception), ?_,
      Or.inl ⟨rfl, f, pendingFault_mem hp⟩⟩
    intro n
    simp [deleteBucket, clientDeleteBucket, hp, fault_not_no_such_bucket,
      fault_not_bucket_not_empty]
  | none =>
    cases hl : lookupBucket s.buckets b with
    | none =>
      refine ⟨({ s with faults := s.faults.tail }, Result.ok ()), ?_,
        Or.inr ⟨rfl, (removeBucket_of_absent _ _ hl).symm⟩⟩
      intro n
      simp [deleteBucket, clientDeleteBucket, hp, hl]
    | some objs =>
      cases objs with
      | nil =>
        refine ⟨({ buckets := removeBucket s.buckets b, faults := s.faults.tail },
          Result.ok ()), ?_, Or.inr ⟨rfl, rfl⟩⟩
        intro n
        simp [deleteBucket, clientDeleteBucket, hp, hl]
      | cons o os =>
        have hfirst : ∀ n, deleteBucket (n + 2) s b
            = (match listKeys { s with faults := s.faults.tail } b with
              | (s2, Result.throw e) => some (s2, Result.throw e)
              | (s2, Result.ok keys) =>
                match deleteKeys b keys s2 with
                | (s3, Result.throw e) => some (s3, Result.throw e)
                | (s3, Result.ok _) => deleteBucket (n + 1) s3 b) := by
          intro n
          simp [deleteBucket, clientDeleteBucket, hp, hl]
        rcases listKeys_cases { s with faults := s.faults.tail } b with
          ⟨_, hk⟩ | ⟨f, hpf, hk⟩
        · simp only [hl] at hk
          rcases deleteKeys_cases b ((o :: os).map (fun o => o.1))
              { buckets := s.buckets, faults := s.faults.tail.tail } with
            ⟨fs, h1, h2⟩ | ⟨st, f, h1, h2⟩
          · have hem : lookupBucket
                (removeKeys s.buckets b ((o :: os).map (fun o => o.1))) b = some [] := by
              rw [lookupBucket_removeKeys_self, hl]
              simp only [Option.map_some']
              rw [foldl_filter_all_keys]
              intro x hx
              exact List.mem_map_of_mem _ hx
            rcases deleteBucket_of_emptied
                { buckets := removeKeys s.buckets b ((o :: os).map (fun o => o.1)),
                  faults := fs } b hem with ⟨out, hout, hprop⟩
            refine ⟨out, ?_, ?_⟩
            · intro n
              rw [hfirst n, hk]
              simp only [h1]
              exact hout n
            · rcases hprop with ⟨ht, f, hf⟩ | ⟨ho, hb⟩
              · exact Or.inl ⟨ht, f,
                  List.mem_of_mem_tail (List.mem_of_mem_tail (h2 _ hf))⟩
              · refine Or.inr ⟨ho, ?_⟩
                rw [hb]
                exact removeBucket_removeKeys _ _ _
          · refine ⟨(st, Result.throw s3Exception), ?_,
              Or.inl ⟨rfl, f, List.mem_of_mem_tail (List.mem_of_mem_tail h2)⟩⟩
            intro n
            rw [hfirst n, hk]
            simp only [h1]
        · refine ⟨({ buckets := s.buckets, faults := s.faults.tail.tail },
              Result.throw s3Exception), ?_,
            Or.inl ⟨rfl, f, List.mem_of_mem_tail (pendingFault_mem hpf)⟩⟩
          intro n
          rw [hfirst n, hk]

theorem deleteBucket_demo_nonempty :
    deleteBucket 2 demoS3 "b1"
      = some ({ buckets := [("b2", [("k1", [4])])], faults := [] }, Result.ok ()) := by
  decide

theorem deleteBucket_demo_absent :
    deleteBucket 2 demoS3 "b3" = some (demoS3, Result.ok ()) := by
  decide

theorem deleteBucket_demo_fault :
    deleteBucket 2 demoFaultyS3 "b1"
      = some ({ buckets := [("b1", [("k1", [1, 2]), ("k2", [3])]), ("b2", [("k1", [4])])],
                faults := [] },
              Result.throw (HostError.runtimeError "S3 error")) := by
  decide

/-- C29: over the map model of S3 (deleting a non-empty bucket fails with
`BucketNotEmpty`, requests may also meet faults of other kinds), `deleteBucket` terminates:
a recursion depth of two always gives an outcome, the same for every larger depth.  When
no fault is met and the bucket is absent, it returns without throwing and the buckets are
unchanged; when no fault is met and the bucket is present, empty or not, it returns
without throwing, the bucket is absent afterwards and every other bucket is unchanged.  It
throws only "S3 error", and only when a request met a fault, which is an error other than
`NO_SUCH_BUCKET` and `BucketNotEmpty`. -/
theorem deleteBucket_terminates_and_removes (s : S3State) (bucketName : String) :
    ∃ out : S3State × Result Unit,
      (∀ fuel, 2 ≤ fuel → deleteBucket fuel s bucketName = some out) ∧
      (noFaults s.faults → lookupBucket s.buckets bucketName = none →
        out.2 = Result.ok () ∧ out.1.buckets = s.buckets) ∧
      (noFaults s.faults → lookupBucket s.buckets bucketName ≠ none →
        out.2 = Result.ok () ∧ lookupBucket out.1.buckets bucketName = none ∧
        ∀ b', b' ≠ bucketName →
          lookupBucket out.1.buckets b' = lookupBucket s.buckets b') ∧
      (∀ e, out.2 = Result.throw e →
        e = HostError.runtimeError "S3 error" ∧
        ∃ f, some f ∈ s.faults ∧
          f.toError.errorType ≠ S3ErrorType.NO_SUCH_BUCKET ∧
          f.toError.exceptionName ≠ "BucketNotEmpty") := by
  obtain ⟨out, hout, hprop⟩ := deleteBucket_result s bucketName
  have hok : noFaults s.faults →
      out.2 = Result.ok () ∧ out.1.buckets = removeBucket s.buckets bucketName := by
    intro hnf
    rcases hprop with ⟨_, f, hf⟩ | h
    · exact absurd (hnf _ hf) (by simp)
    · exact h
  refine ⟨out, ?_, ?_, ?_, ?_⟩
  · intro fuel hfuel
    obtain ⟨n, rfl⟩ : ∃ n, fuel = n + 2 := ⟨fuel - 2, by omega⟩
    exact hout n
  · intro hnf habs
    obtain ⟨h1, h2⟩ := hok hnf
    exact ⟨h1, h2.trans (removeBucket_of_absent _ _ habs)⟩
  · intro hnf _
    obtain ⟨h1, h2⟩ := hok hnf
    refine ⟨h1, ?_, ?_⟩
    · rw [h2]
      exact lookupBucket_removeBucket_self _ _
    · intro b' hb'
      rw [h2]
      exact lookupBucket_removeBucket_other _ _ _ hb'
  · intro e he
    rcases hprop with ⟨ht, f, hf⟩ | ⟨ho, _⟩
    · refine ⟨?_, f, hf, ?_, ?_⟩
      · rw [ht] at he
        injection he with he
        exact he.symm
      · have := fault_not_no_such_bucket f
        simpa using this
      · have := fault_not_bucket_not_empty f
        simpa using this
    · rw [ho] at he
      exact absurd he (by simp)

end Faasm
